import Mathlib

/-!
# Actor alignment rotation and asset gates of the actor factories

A shallow embedding of `FindActorAlignmentRotation`, of the
`AlignObjectToSurfaceNormal` overrides and of the `CanCreateActorFrom` asset gates of
`Engine/Source/Editor/UnrealEd/Private/Factories/ActorFactory.cpp`.

The source computes in single-precision floats.  The embedding is the exact-arithmetic
reading of that code: every `float` is a real number, `FMath::Acos`, `FMath::Asin`,
`FMath::Atan2`, `FMath::SinCos` and `FMath::InvSqrt` are the mathematical functions, and the
float literals `0.7f`, `0.98f`, `1.e-4f` are the rationals they denote.  Rounding is outside
the model.
-/

namespace ActorFactory

/-! ## Assets, classes and the asset gates of the factories -/

/-- Modelled from the spec: `UClass` is declared in the engine's reflection system, not in
the source file.  A class is a name together with its super class, if it has one. -/
inductive UClass where
  | root (Name : String) : UClass
  | sub (Name : String) (Super : UClass) : UClass
  deriving DecidableEq, Repr

/-- Modelled from the spec: `UStruct::IsChildOf` is not in the source file.  A class is a
child of a base when the base is met on the chain of super classes that starts at the class
itself. -/
def UClass.IsChildOf : UClass → UClass → Bool
  | UClass.root Name, SomeBase => decide (UClass.root Name = SomeBase)
  | UClass.sub Name Super, SomeBase =>
      decide (UClass.sub Name Super = SomeBase) || UClass.IsChildOf Super SomeBase

/-- The class `UObject`, the root of the class tree. -/
def UObject.StaticClass : UClass := UClass.root "Object"

/-- The class `UStaticMesh`. -/
def UStaticMesh.StaticClass : UClass := UClass.sub "StaticMesh" UObject.StaticClass

/-- The class `UParticleSystem`. -/
def UParticleSystem.StaticClass : UClass := UClass.sub "ParticleSystem" UObject.StaticClass

/-- The class `UPhysicsAsset`. -/
def UPhysicsAsset.StaticClass : UClass := UClass.sub "PhysicsAsset" UObject.StaticClass

/-- The class `USkeletalMesh`. -/
def USkeletalMesh.StaticClass : UClass := UClass.sub "SkeletalMesh" UObject.StaticClass

/-- The class `UDestructibleMesh`, a subclass of `USkeletalMesh`. -/
def UDestructibleMesh.StaticClass : UClass :=
  UClass.sub "DestructibleMesh" USkeletalMesh.StaticClass

/-- A name, `FName`. -/
abbrev FName := String

/-- The empty name, `NAME_None`. -/
def NAME_None : FName := "None"

/-- A display text, `FText`, kept as its source string. -/
abbrev FText := String

/-- Modelled from the spec: `FAssetData` is declared in the asset registry, not in the source
file.  Its object path, its asset name, the class that `GetClass()` resolves for it, and its
tags. -/
structure FAssetData where
  ObjectPath : FName
  AssetName : FName
  AssetClass : UClass
  TagsAndValues : List (String × String)
  deriving DecidableEq, Repr

/-- Modelled from the spec: `FAssetData::IsValid` is not in the source file; asset data is
valid when its object path is not `NAME_None`. -/
def FAssetData.IsValid (AssetData : FAssetData) : Bool := AssetData.ObjectPath != NAME_None

/-- Modelled from the spec: `FAssetData::GetClass` is not in the source file; it is taken to
resolve the class of the asset. -/
def FAssetData.GetClass (AssetData : FAssetData) : UClass := AssetData.AssetClass

/-- `UActorFactoryStaticMesh::CanCreateActorFrom`: the returned flag and the value of the
out parameter `OutErrorMsg` on return. -/
def UActorFactoryStaticMesh.CanCreateActorFrom (AssetData : FAssetData)
    (OutErrorMsg : FText) : Bool × FText :=
  if !AssetData.IsValid || !AssetData.GetClass.IsChildOf UStaticMesh.StaticClass then
    (false, "A valid static mesh must be specified.")
  else
    (true, OutErrorMsg)

/-- `UActorFactoryEmitter::CanCreateActorFrom`: the returned flag and the value of the out
parameter `OutErrorMsg` on return. -/
def UActorFactoryEmitter.CanCreateActorFrom (AssetData : FAssetData)
    (OutErrorMsg : FText) : Bool × FText :=
  if !AssetData.IsValid || !AssetData.GetClass.IsChildOf UParticleSystem.StaticClass then
    (false, "A valid particle system must be specified.")
  else
    (true, OutErrorMsg)

/-- `UActorFactoryPhysicsAsset::CanCreateActorFrom`: the returned flag and the value of the
out parameter `OutErrorMsg` on return. -/
def UActorFactoryPhysicsAsset.CanCreateActorFrom (AssetData : FAssetData)
    (OutErrorMsg : FText) : Bool × FText :=
  if !AssetData.IsValid || !AssetData.GetClass.IsChildOf UPhysicsAsset.StaticClass then
    (false, "A valid physics asset must be specified.")
  else
    (true, OutErrorMsg)

/-- `UActorFactoryDestructible::CanCreateActorFrom`: the returned flag and the value of the
out parameter `OutErrorMsg` on return. -/
def UActorFactoryDestructible.CanCreateActorFrom (AssetData : FAssetData)
    (OutErrorMsg : FText) : Bool × FText :=
  if !AssetData.IsValid || !AssetData.GetClass.IsChildOf UDestructibleMesh.StaticClass then
    (false, "No destructible mesh was specified.")
  else
    (true, OutErrorMsg)

/-! ## The base factory and the factories that build on it -/

/-- The class `USoundBase`. -/
def USoundBase.StaticClass : UClass := UClass.sub "SoundBase" UObject.StaticClass

/-- The class `UInterpData`. -/
def UInterpData.StaticClass : UClass := UClass.sub "InterpData" UObject.StaticClass

/-- The class `ULevelSequence`. -/
def ULevelSequence.StaticClass : UClass := UClass.sub "LevelSequence" UObject.StaticClass

/-- The class `UMaterialInterface`. -/
def UMaterialInterface.StaticClass : UClass :=
  UClass.sub "MaterialInterface" UObject.StaticClass

/-- The class `UMaterial`, a subclass of `UMaterialInterface`. -/
def UMaterial.StaticClass : UClass := UClass.sub "Material" UMaterialInterface.StaticClass

/-- The class `UAnimBlueprint`. -/
def UAnimBlueprint.StaticClass : UClass := UClass.sub "AnimBlueprint" UObject.StaticClass

/-- The class `USkeleton`. -/
def USkeleton.StaticClass : UClass := UClass.sub "Skeleton" UObject.StaticClass

/-- Modelled from the spec: the actor classes are declared outside the source file.  An
actor class as a factory holds it in `NewActorClass`: its path name and the path name of its
class default object. -/
structure UActorClass where
  PathName : FName
  DefaultObjectPathName : FName
  deriving DecidableEq, Repr

/-- Modelled from the spec: `AActor` is declared outside the source file.  An actor as the
base factory reads it: its path name and its class. -/
structure AActor where
  PathName : FName
  Class : UActorClass
  deriving DecidableEq, Repr

/-- Modelled from the spec: `UClass::GetDefaultObject<AActor>` is not in the source file; it
gives the class default object of an actor class. -/
def UActorClass.GetDefaultObject (Class : UActorClass) : AActor :=
  ⟨Class.DefaultObjectPathName, Class⟩

/-- The members of a `UActorFactory` that `GetDefaultActor` reads and writes. -/
structure UActorFactoryActorClass where
  NewActorClassName : String
  NewActorClass : Option UActorClass
  deriving DecidableEq, Repr

/-- `UActorFactory::GetDefaultActor`: the returned actor (`none` for `NULL`) and the members
of the factory on return.  `StaticLoadObject` stands for the load of a class by name, cast to
a class. -/
def UActorFactory.GetDefaultActor (StaticLoadObject : String → Option UActorClass)
    (self : UActorFactoryActorClass) (_AssetData : FAssetData) :
    Option AActor × UActorFactoryActorClass :=
  if self.NewActorClassName != "" then
    let NewActorClass := StaticLoadObject self.NewActorClassName
    (NewActorClass.map UActorClass.GetDefaultObject, ⟨"", NewActorClass⟩)
  else
    (self.NewActorClass.map UActorClass.GetDefaultObject, self)

/-- `UActorFactory::CanCreateActorFrom`: the returned flag and the value of the out parameter
`OutErrorMsg` on return; `none` when a `NULL` default actor is dereferenced.  The two calls
of `GetDefaultActor` run in the order of the source, the second on the members the first
left. -/
def UActorFactory.CanCreateActorFrom (StaticLoadObject : String → Option UActorClass)
    (self : UActorFactoryActorClass) (AssetData : FAssetData) (OutErrorMsg : FText) :
    Option (Bool × FText) :=
  if !AssetData.IsValid then some (true, OutErrorMsg)
  else
    match UActorFactory.GetDefaultActor StaticLoadObject self AssetData with
    | (none, _) => none
    | (some DefaultActor1, self1) =>
      if AssetData.ObjectPath == DefaultActor1.PathName then some (true, OutErrorMsg)
      else
        match UActorFactory.GetDefaultActor StaticLoadObject self1 AssetData with
        | (none, _) => none
        | (some DefaultActor2, _) =>
          some (AssetData.ObjectPath == DefaultActor2.Class.PathName, OutErrorMsg)

/-- `UActorFactoryAmbientSound::CanCreateActorFrom`. -/
def UActorFactoryAmbientSound.CanCreateActorFrom
    (StaticLoadObject : String → Option UActorClass) (self : UActorFactoryActorClass)
    (AssetData : FAssetData) (OutErrorMsg : FText) : Option (Bool × FText) :=
  match UActorFactory.CanCreateActorFrom StaticLoadObject self AssetData OutErrorMsg with
  | none => none
  | some (true, Msg) => some (true, Msg)
  | some (false, Msg) =>
    if AssetData.IsValid && !AssetData.GetClass.IsChildOf USoundBase.StaticClass then
      some (false, "A valid sound asset must be specified.")
    else
      some (true, Msg)

/-- `UActorFactoryMatineeActor::CanCreateActorFrom`. -/
def UActorFactoryMatineeActor.CanCreateActorFrom
    (StaticLoadObject : String → Option UActorClass) (self : UActorFactoryActorClass)
    (AssetData : FAssetData) (OutErrorMsg : FText) : Option (Bool × FText) :=
  match UActorFactory.CanCreateActorFrom StaticLoadObject self AssetData OutErrorMsg with
  | none => none
  | some (true, Msg) => some (true, Msg)
  | some (false, Msg) =>
    if AssetData.IsValid && !AssetData.GetClass.IsChildOf UInterpData.StaticClass then
      some (false, "A valid InterpData must be specified.")
    else
      some (true, Msg)

/-- `UActorFactoryMovieScene::CanCreateActorFrom`. -/
def UActorFactoryMovieScene.CanCreateActorFrom
    (StaticLoadObject : String → Option UActorClass) (self : UActorFactoryActorClass)
    (AssetData : FAssetData) (OutErrorMsg : FText) : Option (Bool × FText) :=
  match UActorFactory.CanCreateActorFrom StaticLoadObject self AssetData OutErrorMsg with
  | none => none
  | some (true, Msg) => some (true, Msg)
  | some (false, Msg) =>
    if AssetData.IsValid && !AssetData.GetClass.IsChildOf ULevelSequence.StaticClass then
      some (false, "A valid sequencer asset must be specified.")
    else
      some (true, Msg)

/-- The `while` loop of `UActorFactoryDeferredDecal::CanCreateActorFrom`, entered with the
given `SanityCheck` and `CurrentAssetData`: `none` when the body returns false (a missing
`Parent` tag or an invalid parent), else the two variables at the exit of the loop.
`GetAssetByObjectPath` stands for the lookup in the asset registry. -/
def UActorFactoryDeferredDecal.ParentLoop (GetAssetByObjectPath : FName → FAssetData)
    (SanityCheck : Nat) (CurrentAssetData : FAssetData) : Option (Nat × FAssetData) :=
  if SanityCheck < 1000 ∧ ¬ CurrentAssetData.GetClass.IsChildOf UMaterial.StaticClass then
    match CurrentAssetData.TagsAndValues.lookup "Parent" with
    | none => none
    | some ObjectPath =>
      if !(GetAssetByObjectPath ObjectPath).IsValid then none
      else
        UActorFactoryDeferredDecal.ParentLoop GetAssetByObjectPath (SanityCheck + 1)
          (GetAssetByObjectPath ObjectPath)
  else some (SanityCheck, CurrentAssetData)
termination_by 1000 - SanityCheck
decreasing_by omega

/-- `UActorFactoryDeferredDecal::CanCreateActorFrom`. -/
def UActorFactoryDeferredDecal.CanCreateActorFrom
    (StaticLoadObject : String → Option UActorClass)
    (GetAssetByObjectPath : FName → FAssetData) (self : UActorFactoryActorClass)
    (AssetData : FAssetData) (OutErrorMsg : FText) : Option (Bool × FText) :=
  match UActorFactory.CanCreateActorFrom StaticLoadObject self AssetData OutErrorMsg with
  | none => none
  | some (true, Msg) => some (true, Msg)
  | some (false, Msg) =>
    if !AssetData.GetClass.IsChildOf UMaterialInterface.StaticClass then
      some (false, "A valid material must be specified.")
    else
      match UActorFactoryDeferredDecal.ParentLoop GetAssetByObjectPath 0 AssetData with
      | none => some (false, "A valid material must be specified.")
      | some (SanityCheck, CurrentAssetData) =>
        if SanityCheck ≥ 1000 then
          some (false, "The specified material must not have a recursive parent.")
        else if !CurrentAssetData.GetClass.IsChildOf UMaterial.StaticClass then
          some (false, Msg)
        else
          match CurrentAssetData.TagsAndValues.lookup "MaterialDomain" with
          | none =>
            some (false,
              "Only materials with a material domain of DeferredDecal can be specified.")
          | some MaterialDomain =>
            if MaterialDomain != "MD_DeferredDecal" then
              some (false,
                "Only materials with a material domain of DeferredDecal can be specified.")
            else
              some (true, Msg)

/-- The asset a `Parent` tag leads to: the asset data the registry gives for the tagged
object path, when the tag is there and that asset data is valid. -/
def ParentAsset (GetAssetByObjectPath : FName → FAssetData) (AssetData : FAssetData) :
    Option FAssetData :=
  match AssetData.TagsAndValues.lookup "Parent" with
  | none => none
  | some ObjectPath =>
    if (GetAssetByObjectPath ObjectPath).IsValid then some (GetAssetByObjectPath ObjectPath)
    else none

/-- Following the words of the claim on the deferred-decal factory: the asset reached by
following the `Parent` tag through the asset registry exactly `Lookups` times, each lookup
yielding valid asset data, when that asset is the first on the way whose class derives from
`UMaterial`. -/
def FirstMaterialAfter (GetAssetByObjectPath : FName → FAssetData) :
    (Lookups : Nat) → FAssetData → Option FAssetData
  | 0, AssetData =>
    if AssetData.GetClass.IsChildOf UMaterial.StaticClass then some AssetData else none
  | Lookups + 1, AssetData =>
    if AssetData.GetClass.IsChildOf UMaterial.StaticClass then none
    else
      match ParentAsset GetAssetByObjectPath AssetData with
      | none => none
      | some Parent => FirstMaterialAfter GetAssetByObjectPath Lookups Parent

/-- Modelled from the spec: `USkeleton` is declared outside the source file.  A skeleton as
the skeletal-mesh factory reads it: the preview mesh that `GetPreviewMesh(true)` gives, if
any. -/
structure USkeleton where
  PreviewMesh : Option FName
  deriving DecidableEq, Repr

/-- The default-constructed `FAssetData`, which is not valid; its class is never read. -/
def FAssetData.Empty : FAssetData := ⟨NAME_None, NAME_None, UObject.StaticClass, []⟩

/-- `UActorFactorySkeletalMesh::CanCreateActorFrom`: the returned flag and the value of the
out parameter `OutErrorMsg` on return.  `GetAssetByObjectPath` stands for the lookup in the
asset registry and `GetSkeleton` for `Cast<USkeleton>(GetAsset())`. -/
def UActorFactorySkeletalMesh.CanCreateActorFrom (GetAssetByObjectPath : FName → FAssetData)
    (GetSkeleton : FAssetData → Option USkeleton) (AssetData : FAssetData)
    (OutErrorMsg : FText) : Bool × FText :=
  if !AssetData.IsValid
      || (!AssetData.GetClass.IsChildOf USkeletalMesh.StaticClass
        && !AssetData.GetClass.IsChildOf UAnimBlueprint.StaticClass
        && !AssetData.GetClass.IsChildOf USkeleton.StaticClass) then
    (false, "A valid anim sequence must be specified.")
  else
    let SkeletalMeshData : FAssetData :=
      if AssetData.GetClass.IsChildOf USkeletalMesh.StaticClass then AssetData
      else FAssetData.Empty
    -- the block on anim blueprints: an early return, or the message to go on with
    let AnimBlueprintBlock : Except (Bool × FText) FText :=
      if !SkeletalMeshData.IsValid
          && AssetData.GetClass.IsChildOf UAnimBlueprint.StaticClass then
        match AssetData.TagsAndValues.lookup "TargetSkeleton" with
        | none => Except.error (false, "UAnimBlueprints must have a valid Target Skeleton.")
        | some TargetSkeletonPath =>
          if TargetSkeletonPath.isEmpty then
            Except.error (false, "UAnimBlueprints must have a valid Target Skeleton.")
          else if !(GetAssetByObjectPath TargetSkeletonPath).IsValid then
            Except.error (false, "UAnimBlueprints must have a valid Target Skeleton.")
          else
            match GetSkeleton (GetAssetByObjectPath TargetSkeletonPath) with
            | some Skeleton =>
              if Skeleton.PreviewMesh.isSome then Except.error (true, OutErrorMsg)
              else
                Except.error (false,
                  "The Target Skeleton of the UAnimBlueprint must have a valid Preview Skeletal Mesh.")
            | none => Except.ok "UAnimBlueprints must have a valid Target Skeleton."
      else Except.ok OutErrorMsg
    match AnimBlueprintBlock with
    | Except.error Result => Result
    | Except.ok Msg1 =>
      -- the block on skeletons
      let SkeletonBlock : Except (Bool × FText) FText :=
        if !SkeletalMeshData.IsValid
            && AssetData.GetClass.IsChildOf USkeleton.StaticClass then
          match GetSkeleton AssetData with
          | some Skeleton =>
            if Skeleton.PreviewMesh.isSome then Except.error (true, Msg1)
            else
              Except.error (false,
                "The Target Skeleton of the UAnimBlueprint must have a valid Preview Skeletal Mesh.")
          | none => Except.ok "SkeletalMesh must have a valid Target Skeleton."
        else Except.ok Msg1
      match SkeletonBlock with
      | Except.error Result => Result
      | Except.ok Msg2 =>
        if !SkeletalMeshData.IsValid then
          (false, "No valid skeletal mesh was found associated with the animation sequence.")
        else if SkeletalMeshData.GetClass.IsChildOf UDestructibleMesh.StaticClass then
          (false, "The animation sequence must not have a DestructibleMesh associated with it.")
        else
          (true, Msg2)

/-! ## The parent check of the material instance editor -/

/-- Modelled from the spec: `FText::Format` is not in the source file; with one argument it
puts the argument in the place of the marker of the pattern. -/
def FText.Format (Pattern : FText) (Argument0 : FText) : FText :=
  Pattern.replace "\x7b0\x7d" Argument0

/-- `FMaterialInstanceParameterDetails::OnShouldSetAsset`: the returned flag and the text of
the message dialog it opens, if it opens one.  `GetAsset` stands for the load of the asset
(`none` for `NULL`), `CastMaterialInstance` for `Cast<UMaterialInstance>`, `IsChildOf` for
`UMaterialInstance::IsChildOf`, and `SourceInstance` for the source instance of the edited
material editor instance; their types are declared outside the source file. -/
def FMaterialInstanceParameterDetails.OnShouldSetAsset
    {UObject UMaterialInstance UMaterialInterface : Type}
    (GetAsset : FAssetData → Option UObject)
    (CastMaterialInstance : UObject → Option UMaterialInstance)
    (IsChildOf : UMaterialInstance → UMaterialInterface → Bool)
    (SourceInstance : UMaterialInterface) (AssetData : FAssetData) : Bool × Option FText :=
  match (GetAsset AssetData).bind CastMaterialInstance with
  | some MaterialInstance =>
    let bIsChild := IsChildOf MaterialInstance SourceInstance
    if bIsChild then
      (!bIsChild, some (FText.Format
        "Cannot set \x7b0\x7d as a parent as it is already a child of this material instance."
        AssetData.AssetName))
    else
      (!bIsChild, none)
  | none => (true, none)

/-! ## Example assets -/

/-- An example factory state: no class name to load, and an actor class set. -/
def ExampleFactory : UActorFactoryActorClass :=
  ⟨"", some ⟨"/Script/Engine.DecalActor", "/Script/Engine.Default__DecalActor"⟩⟩

/-- An example material asset with the deferred-decal material domain. -/
def ExampleDecalMaterial : FAssetData :=
  ⟨"/Game/M_Decal.M_Decal", "M_Decal", UMaterial.StaticClass,
    [("MaterialDomain", "MD_DeferredDecal")]⟩

/-- An example material instance asset whose parent is `ExampleDecalMaterial`. -/
def ExampleDecalInstance : FAssetData :=
  ⟨"/Game/MI_Decal.MI_Decal", "MI_Decal",
    UClass.sub "MaterialInstanceConstant" UMaterialInterface.StaticClass,
    [("Parent", "/Game/M_Decal.M_Decal")]⟩

/-- An example asset registry that knows `ExampleDecalMaterial` only. -/
def ExampleRegistry (ObjectPath : FName) : FAssetData :=
  if ObjectPath == "/Game/M_Decal.M_Decal" then ExampleDecalMaterial else FAssetData.Empty

end ActorFactory

noncomputable section

namespace ActorFactory

/-! ## Engine math used by the solver -/

/-- Modelled from the spec: the macro `KINDA_SMALL_NUMBER` is not defined in the source file;
the spec names it as the colinearity threshold "a small epsilon, e.g. 1e-4". -/
def KINDA_SMALL_NUMBER : ℝ := 1e-4

/-- Modelled from the spec: the macro `SMALL_NUMBER`, the default tolerance of
`FVector::GetSafeNormal` and `FQuat::Normalize`, is not defined in the source file; the engine
value is `1.e-8f`. -/
def SMALL_NUMBER : ℝ := 1e-8

/-- Modelled from the spec: `FMath::Acos` is not in the source file; the spec writes `acos`.
This is the arc cosine of the argument clamped to `[-1, 1]`. -/
def Acos (Value : ℝ) : ℝ := Real.arccos Value

/-- Modelled from the spec: `FMath::Asin` is not in the source file.  This is the arc sine of
the argument clamped to `[-1, 1]`. -/
def Asin (Value : ℝ) : ℝ := Real.arcsin Value

/-- Modelled from the spec: `FMath::Atan2(Y, X)` is not in the source file; the spec writes
`atan2`.  This is the angle in `(-π, π]` of the point `(X, Y)`, and `0` at the origin. -/
def Atan2 (Y X : ℝ) : ℝ := Complex.arg ⟨X, Y⟩

/-- Modelled from the spec: `FMath::InvSqrt` is not in the source file; it is the reciprocal
square root. -/
def InvSqrt (F : ℝ) : ℝ := 1 / Real.sqrt F

/-- A vector of three floats, `FVector` (declared in the engine core, not in the source
file). -/
@[ext] structure FVector where
  X : ℝ
  Y : ℝ
  Z : ℝ

namespace FVector

/-- The zero vector, `FVector::ZeroVector`. -/
def ZeroVector : FVector := ⟨0, 0, 0⟩

/-- Modelled from the spec: `FVector::operator|` / `FVector::DotProduct` is not in the source
file; the spec writes `·`, the dot product. -/
def DotProduct (A B : FVector) : ℝ := A.X * B.X + A.Y * B.Y + A.Z * B.Z

/-- Modelled from the spec: `FVector::operator^` / `FVector::CrossProduct` is not in the
source file; the spec writes "cross product". -/
def CrossProduct (A B : FVector) : FVector :=
  ⟨A.Y * B.Z - A.Z * B.Y, A.Z * B.X - A.X * B.Z, A.X * B.Y - A.Y * B.X⟩

/-- Scaling of a vector by a float, `FVector::operator*(float)`. -/
def Scale (V : FVector) (S : ℝ) : FVector := ⟨V.X * S, V.Y * S, V.Z * S⟩

/-- Componentwise difference, `FVector::operator-`. -/
def Sub (A B : FVector) : FVector := ⟨A.X - B.X, A.Y - B.Y, A.Z - B.Z⟩

/-- Componentwise negation, the unary `FVector::operator-`. -/
def Neg (A : FVector) : FVector := ⟨-A.X, -A.Y, -A.Z⟩

/-- Squared length, `FVector::SizeSquared`. -/
def SizeSquared (V : FVector) : ℝ := V.X * V.X + V.Y * V.Y + V.Z * V.Z

/-- Length, `FVector::Size`. -/
def Size (V : FVector) : ℝ := Real.sqrt (V.X * V.X + V.Y * V.Y + V.Z * V.Z)

/-- Modelled from the spec: `FVector::GetSafeNormal` (default tolerance `SMALL_NUMBER`) is
not in the source file; the spec speaks of "the normalized orthogonal pitch axis".  A vector
of squared length exactly one is returned as it is, one whose squared length is below the
tolerance gives the zero vector, any other is scaled by the reciprocal of its length. -/
def GetSafeNormal (V : FVector) : FVector :=
  let SquareSum := V.X * V.X + V.Y * V.Y + V.Z * V.Z
  if SquareSum = 1 then V
  else if SquareSum < SMALL_NUMBER then ZeroVector
  else
    let Scale := InvSqrt SquareSum
    ⟨V.X * Scale, V.Y * Scale, V.Z * Scale⟩

/-- Modelled from the spec: `FVector::Normalize` (default tolerance `SMALL_NUMBER`) is not in
the source file.  The vector is scaled to length one when its squared length exceeds the
tolerance and left as it is otherwise. -/
def Normalize (V : FVector) : FVector :=
  let SquareSum := V.X * V.X + V.Y * V.Y + V.Z * V.Z
  if SquareSum > SMALL_NUMBER then
    let Scale := InvSqrt SquareSum
    ⟨V.X * Scale, V.Y * Scale, V.Z * Scale⟩
  else V

/-- Modelled from the spec: `FVector::Coincident` is not in the source file; the spec reads
the test as "parallel to `targetDirection` within a cosine threshold".  Two normals coincide
when their dot product reaches the threshold. -/
def Coincident (Normal1 Normal2 : FVector) (ParallelCosineThreshold : ℝ) : Bool :=
  decide (ParallelCosineThreshold ≤ DotProduct Normal1 Normal2)

/-- Modelled from the spec: `FVector::FindBestAxisVectors` is not in the source file.  Only
its first axis is used here: the X axis (when `|Z|` is the strictly largest component) or the
Z axis, made orthogonal to the vector and normalised. -/
def FindBestAxis1 (V : FVector) : FVector :=
  let NX := |V.X|
  let NY := |V.Y|
  let NZ := |V.Z|
  let Axis1 : FVector := if NZ > NX ∧ NZ > NY then ⟨1, 0, 0⟩ else ⟨0, 0, 1⟩
  GetSafeNormal (Sub Axis1 (Scale V (DotProduct Axis1 V)))

end FVector

/-- A quaternion of four floats, `FQuat` (declared in the engine core, not in the source
file). -/
@[ext] structure FQuat where
  X : ℝ
  Y : ℝ
  Z : ℝ
  W : ℝ

namespace FQuat

/-- The identity rotation, `FQuat::Identity`. -/
def Identity : FQuat := ⟨0, 0, 0, 1⟩

/-- Modelled from the spec: the constructor `FQuat(Axis, AngleRad)` is not in the source
file; the spec calls it the "unit quaternion around the normalized orthogonal pitch axis by
pitch angle".  The vector part is the axis scaled by the sine of the half angle, the scalar
part the cosine of the half angle. -/
def AxisAngle (Axis : FVector) (AngleRad : ℝ) : FQuat :=
  let half_a := 0.5 * AngleRad
  let s := Real.sin half_a
  let c := Real.cos half_a
  ⟨s * Axis.X, s * Axis.Y, s * Axis.Z, c⟩

/-- Modelled from the spec: `FQuat::operator*` is not in the source file; the spec writes
"composed with".  It is the Hamilton product, so that `A * B` applies `B` first and `A`
second. -/
def Mul (A B : FQuat) : FQuat :=
  ⟨A.W * B.X + A.X * B.W + A.Y * B.Z - A.Z * B.Y,
   A.W * B.Y - A.X * B.Z + A.Y * B.W + A.Z * B.X,
   A.W * B.Z + A.X * B.Y - A.Y * B.X + A.Z * B.W,
   A.W * B.W - A.X * B.X - A.Y * B.Y - A.Z * B.Z⟩

/-- Modelled from the spec: `FQuat::Inverse` is not in the source file; the spec writes "the
inverse of `currentOrientation`".  For the normalised quaternions it is called on it is the
conjugate. -/
def Inverse (Q : FQuat) : FQuat := ⟨-Q.X, -Q.Y, -Q.Z, Q.W⟩

/-- Modelled from the spec: `FQuat::RotateVector` is not in the source file; the spec writes
"transform `localAxis` by `currentOrientation`".  It is
`2 W (qv × V) + (W² - qv·qv) V + 2 (qv·V) qv` for the vector part `qv`. -/
def RotateVector (Q : FQuat) (V : FVector) : FVector :=
  let qv : FVector := ⟨Q.X, Q.Y, Q.Z⟩
  let c := FVector.CrossProduct qv V
  let qq := FVector.DotProduct qv qv
  let qV := FVector.DotProduct qv V
  ⟨2 * Q.W * c.X + (Q.W * Q.W - qq) * V.X + 2 * qV * qv.X,
   2 * Q.W * c.Y + (Q.W * Q.W - qq) * V.Y + 2 * qV * qv.Y,
   2 * Q.W * c.Z + (Q.W * Q.W - qq) * V.Z + 2 * qV * qv.Z⟩

/-- Squared norm, `FQuat::SizeSquared`. -/
def SizeSquared (Q : FQuat) : ℝ := Q.X * Q.X + Q.Y * Q.Y + Q.Z * Q.Z + Q.W * Q.W

/-- Norm, `FQuat::Size`. -/
def Size (Q : FQuat) : ℝ := Real.sqrt (Q.X * Q.X + Q.Y * Q.Y + Q.Z * Q.Z + Q.W * Q.W)

/-- Modelled from the spec: `FQuat::Normalize` (default tolerance `SMALL_NUMBER`) is not in
the source file; the spec writes "normalize".  The source normalises in place; here the
normalised quaternion is returned.  A quaternion whose squared norm is below the tolerance
becomes the identity. -/
def Normalize (Q : FQuat) : FQuat :=
  let SquareSum := Q.X * Q.X + Q.Y * Q.Y + Q.Z * Q.Z + Q.W * Q.W
  if SquareSum ≥ SMALL_NUMBER then
    let Scale := InvSqrt SquareSum
    ⟨Q.X * Scale, Q.Y * Scale, Q.Z * Scale, Q.W * Scale⟩
  else Identity

/-- Modelled from the spec: `FQuat::FindBetween` is not in the source file; the spec calls
it "the shortest-arc rotation" from the first vector to the second.  Nearly parallel vectors
give the identity, nearly opposite ones a half turn about an axis orthogonal to the longer
of the two (the second when the lengths agree), any other pair the rotation about their
cross product by the angle between them. -/
def FindBetween (vec1 vec2 : FVector) : FQuat :=
  let cross := FVector.CrossProduct vec1 vec2
  let crossMag := FVector.Size cross
  if crossMag < KINDA_SMALL_NUMBER then
    let Dot := FVector.DotProduct vec1 vec2
    if Dot > -KINDA_SMALL_NUMBER then Identity
    else
      let Vec := if FVector.SizeSquared vec1 > FVector.SizeSquared vec2 then vec1 else vec2
      let AxisA := FVector.FindBestAxis1 (FVector.Normalize Vec)
      ⟨AxisA.X, AxisA.Y, AxisA.Z, 0⟩
  else
    let angle0 := Asin crossMag
    let dot := FVector.DotProduct vec1 vec2
    let angle := if dot < 0 then Real.pi - angle0 else angle0
    let sinHalfAng := Real.sin (0.5 * angle)
    let cosHalfAng := Real.cos (0.5 * angle)
    let axis := FVector.Scale cross (1 / crossMag)
    ⟨sinHalfAng * axis.X, sinHalfAng * axis.Y, sinHalfAng * axis.Z, cosHalfAng⟩

end FQuat

/-! ## The alignment solver -/

/-- The world up vector `Z(0.f, 0.f, 1.f)` of `FindActorAlignmentRotation`. -/
def WorldZ : FVector := ⟨0, 0, 1⟩

/-- `VectorDot` of `FindActorAlignmentRotation`: the dot product of the world normal with
the model axis transformed by the actor rotation. -/
def VectorDot (InActorRotation : FQuat) (InModelAxis InWorldNormal : FVector) : ℝ :=
  FVector.DotProduct InWorldNormal (InActorRotation.RotateVector InModelAxis)

/-- `DestNormalModelSpace` of `FindActorAlignmentRotation`: the world normal rotated by the
inverse actor rotation. -/
def DestNormalModelSpace (InActorRotation : FQuat) (InWorldNormal : FVector) : FVector :=
  InActorRotation.Inverse.RotateVector InWorldNormal

/-- `PitchReferenceAxis` of `FindActorAlignmentRotation`: world up in model space, replaced
by the model-space target when it is within `0.7` (in absolute dot product) of the model
axis. -/
def PitchReferenceAxis (InActorRotation : FQuat) (InModelAxis InWorldNormal : FVector) :
    FVector :=
  let PitchReferenceAxis := InActorRotation.Inverse.RotateVector WorldZ
  if |FVector.DotProduct InModelAxis PitchReferenceAxis| > 0.7 then
    DestNormalModelSpace InActorRotation InWorldNormal
  else PitchReferenceAxis

/-- `OrthoPitchAxis` of `FindActorAlignmentRotation`. -/
def OrthoPitchAxis (InActorRotation : FQuat) (InModelAxis InWorldNormal : FVector) :
    FVector :=
  FVector.CrossProduct (PitchReferenceAxis InActorRotation InModelAxis InWorldNormal)
    InModelAxis

/-- `Pitch` of `FindActorAlignmentRotation`. -/
def Pitch (InActorRotation : FQuat) (InModelAxis InWorldNormal : FVector) : ℝ :=
  Acos (FVector.DotProduct (PitchReferenceAxis InActorRotation InModelAxis InWorldNormal)
      (DestNormalModelSpace InActorRotation InWorldNormal))
    - Acos (FVector.DotProduct
        (PitchReferenceAxis InActorRotation InModelAxis InWorldNormal) InModelAxis)

/-- `DeltaRotation` of `FindActorAlignmentRotation` after the pitch step: the normalised
rotation about the normalised pitch axis by the pitch angle. -/
def PitchDelta (InActorRotation : FQuat) (InModelAxis InWorldNormal : FVector) : FQuat :=
  FQuat.Normalize
    (FQuat.AxisAngle
      (FVector.GetSafeNormal (OrthoPitchAxis InActorRotation InModelAxis InWorldNormal))
      (Pitch InActorRotation InModelAxis InWorldNormal))

/-- `TransformedModelAxis` of `FindActorAlignmentRotation` after the pitch step. -/
def PitchedModelAxis (InActorRotation : FQuat) (InModelAxis InWorldNormal : FVector) :
    FVector :=
  (FQuat.Mul InActorRotation (PitchDelta InActorRotation InModelAxis InWorldNormal)).RotateVector
    InModelAxis

/-- `ParallelDotThreshold` of `FindActorAlignmentRotation`. -/
def ParallelDotThreshold : ℝ := 0.98

/-- The guard of the yaw step of `FindActorAlignmentRotation`: the pitched model axis does
not coincide with the world normal within `ParallelDotThreshold`. -/
def YawApplied (InActorRotation : FQuat) (InModelAxis InWorldNormal : FVector) : Bool :=
  !FVector.Coincident InWorldNormal
    (PitchedModelAxis InActorRotation InModelAxis InWorldNormal) ParallelDotThreshold

/-- `Yaw` of `FindActorAlignmentRotation`. -/
def Yaw (InActorRotation : FQuat) (InModelAxis InWorldNormal : FVector) : ℝ :=
  Atan2 InWorldNormal.X InWorldNormal.Y
    - Atan2 (PitchedModelAxis InActorRotation InModelAxis InWorldNormal).X
        (PitchedModelAxis InActorRotation InModelAxis InWorldNormal).Y

/-- `WorldYawAxis` of `FindActorAlignmentRotation`: world up in the frame reached after the
pitch step. -/
def WorldYawAxis (InActorRotation : FQuat) (InModelAxis InWorldNormal : FVector) : FVector :=
  (FQuat.Mul InActorRotation
    (PitchDelta InActorRotation InModelAxis InWorldNormal)).Inverse.RotateVector WorldZ

/-- `DeltaRotation` of `FindActorAlignmentRotation` at the end of the general branch: the
pitch rotation, multiplied on the right by the yaw rotation when the yaw guard holds. -/
def GeneralDelta (InActorRotation : FQuat) (InModelAxis InWorldNormal : FVector) : FQuat :=
  if YawApplied InActorRotation InModelAxis InWorldNormal then
    FQuat.Mul (PitchDelta InActorRotation InModelAxis InWorldNormal)
      (FQuat.AxisAngle (WorldYawAxis InActorRotation InModelAxis InWorldNormal)
        (-Yaw InActorRotation InModelAxis InWorldNormal))
  else PitchDelta InActorRotation InModelAxis InWorldNormal

/-- `FindActorAlignmentRotation`: the alignment rotation for an actor rotation, a model-space
axis and a world-space normal. -/
def FindActorAlignmentRotation (InActorRotation : FQuat)
    (InModelAxis InWorldNormal : FVector) : FQuat :=
  if 1 - |VectorDot InActorRotation InModelAxis InWorldNormal| ≤ KINDA_SMALL_NUMBER then
    if VectorDot InActorRotation InModelAxis InWorldNormal < 0 then
      -- Anti-parallel
      FQuat.Mul InActorRotation
        (FQuat.FindBetween InModelAxis (DestNormalModelSpace InActorRotation InWorldNormal))
    else
      FQuat.Mul InActorRotation FQuat.Identity
  else
    FQuat.Mul InActorRotation (GeneralDelta InActorRotation InModelAxis InWorldNormal)

/-! ## Surface alignment of the factories -/

/-- The state of a `UActorFactory` that `AlignObjectToSurfaceNormal` reads. -/
structure UActorFactory where
  bUseSurfaceOrientation : Bool

/-- `UActorFactory::AlignObjectToSurfaceNormal`. -/
def UActorFactory.AlignObjectToSurfaceNormal (self : UActorFactory)
    (InSurfaceNormal : FVector) (ActorRotation : FQuat) : FQuat :=
  if self.bUseSurfaceOrientation then
    -- By default we align the X axis with the inverse of the surface normal
    FindActorAlignmentRotation ActorRotation ⟨-1, 0, 0⟩ InSurfaceNormal
  else
    FQuat.Identity

/-- `UActorFactoryStaticMesh::AlignObjectToSurfaceNormal`. -/
def UActorFactoryStaticMesh.AlignObjectToSurfaceNormal (_self : UActorFactory)
    (InSurfaceNormal : FVector) (ActorRotation : FQuat) : FQuat :=
  FindActorAlignmentRotation ActorRotation ⟨0, 0, 1⟩ InSurfaceNormal

/-- `UActorFactorySkeletalMesh::AlignObjectToSurfaceNormal`. -/
def UActorFactorySkeletalMesh.AlignObjectToSurfaceNormal (_self : UActorFactory)
    (InSurfaceNormal : FVector) (ActorRotation : FQuat) : FQuat :=
  FindActorAlignmentRotation ActorRotation ⟨0, 0, 1⟩ InSurfaceNormal

/-- `UActorFactoryDestructible::AlignObjectToSurfaceNormal`. -/
def UActorFactoryDestructible.AlignObjectToSurfaceNormal (_self : UActorFactory)
    (InSurfaceNormal : FVector) (ActorRotation : FQuat) : FQuat :=
  FindActorAlignmentRotation ActorRotation ⟨0, 0, 1⟩ InSurfaceNormal

end ActorFactory

end

namespace ActorFactory

/-! ## Algebra of the engine math -/

theorem FVector.size_eq_one_iff_sizeSquared (V : FVector) : V.Size = 1 ↔ V.SizeSquared = 1 := by
  unfold FVector.Size FVector.SizeSquared
  rw [Real.sqrt_eq_one]

theorem FQuat.size_eq_one_iff (Q : FQuat) : Q.Size = 1 ↔ Q.SizeSquared = 1 := by
  unfold FQuat.Size FQuat.SizeSquared
  rw [Real.sqrt_eq_one]

theorem FQuat.rotateVector_mul (P Q : FQuat) (V : FVector) :
    (FQuat.Mul P Q).RotateVector V = P.RotateVector (Q.RotateVector V) := by
  ext <;> simp only [FQuat.Mul, FQuat.RotateVector, FVector.CrossProduct, FVector.DotProduct]
    <;> ring

theorem FQuat.mul_identity (Q : FQuat) : FQuat.Mul Q FQuat.Identity = Q := by
  ext <;> simp [FQuat.Mul, FQuat.Identity]

theorem FQuat.rotateVector_identity (V : FVector) : FQuat.Identity.RotateVector V = V := by
  ext <;> simp [FQuat.RotateVector, FQuat.Identity, FVector.CrossProduct, FVector.DotProduct]

theorem FQuat.sizeSquared_mul (P Q : FQuat) :
    (FQuat.Mul P Q).SizeSquared = P.SizeSquared * Q.SizeSquared := by
  simp only [FQuat.Mul, FQuat.SizeSquared]; ring

theorem FQuat.sizeSquared_inverse (Q : FQuat) : Q.Inverse.SizeSquared = Q.SizeSquared := by
  simp only [FQuat.Inverse, FQuat.SizeSquared]; ring

theorem FQuat.inverse_rotateVector_rotateVector (Q : FQuat) (hQ : Q.SizeSquared = 1)
    (V : FVector) : Q.Inverse.RotateVector (Q.RotateVector V) = V := by
  simp only [FQuat.SizeSquared] at hQ
  ext <;> simp only [FQuat.Inverse, FQuat.RotateVector, FVector.CrossProduct,
    FVector.DotProduct]
  · linear_combination
      ((Q.X * Q.X + Q.Y * Q.Y + Q.Z * Q.Z + Q.W * Q.W + 1) * V.X) * hQ
  · linear_combination
      ((Q.X * Q.X + Q.Y * Q.Y + Q.Z * Q.Z + Q.W * Q.W + 1) * V.Y) * hQ
  · linear_combination
      ((Q.X * Q.X + Q.Y * Q.Y + Q.Z * Q.Z + Q.W * Q.W + 1) * V.Z) * hQ

theorem FQuat.rotateVector_inverse_rotateVector (Q : FQuat) (hQ : Q.SizeSquared = 1)
    (V : FVector) : Q.RotateVector (Q.Inverse.RotateVector V) = V := by
  simp only [FQuat.SizeSquared] at hQ
  ext <;> simp only [FQuat.Inverse, FQuat.RotateVector, FVector.CrossProduct,
    FVector.DotProduct]
  · linear_combination
      ((Q.X * Q.X + Q.Y * Q.Y + Q.Z * Q.Z + Q.W * Q.W + 1) * V.X) * hQ
  · linear_combination
      ((Q.X * Q.X + Q.Y * Q.Y + Q.Z * Q.Z + Q.W * Q.W + 1) * V.Y) * hQ
  · linear_combination
      ((Q.X * Q.X + Q.Y * Q.Y + Q.Z * Q.Z + Q.W * Q.W + 1) * V.Z) * hQ

theorem FQuat.dotProduct_rotateVector (Q : FQuat) (hQ : Q.SizeSquared = 1) (U V : FVector) :
    FVector.DotProduct (Q.RotateVector U) (Q.RotateVector V) = FVector.DotProduct U V := by
  simp only [FQuat.SizeSquared] at hQ
  simp only [FQuat.RotateVector, FVector.CrossProduct, FVector.DotProduct]
  linear_combination
    ((Q.X * Q.X + Q.Y * Q.Y + Q.Z * Q.Z + Q.W * Q.W + 1)
      * (U.X * V.X + U.Y * V.Y + U.Z * V.Z)) * hQ

theorem FQuat.dotProduct_inverse_rotateVector (Q : FQuat) (hQ : Q.SizeSquared = 1)
    (U V : FVector) :
    FVector.DotProduct (Q.Inverse.RotateVector U) V
      = FVector.DotProduct U (Q.RotateVector V) := by
  have h := FQuat.dotProduct_rotateVector Q hQ (Q.Inverse.RotateVector U) V
  rw [FQuat.rotateVector_inverse_rotateVector Q hQ] at h
  exact h.symm

theorem FQuat.sizeSquared_rotateVector (Q : FQuat) (hQ : Q.SizeSquared = 1) (V : FVector) :
    (Q.RotateVector V).SizeSquared = V.SizeSquared := by
  have h := FQuat.dotProduct_rotateVector Q hQ V V
  simpa [FVector.DotProduct, FVector.SizeSquared] using h

theorem KINDA_SMALL_NUMBER_eq : KINDA_SMALL_NUMBER = 1 / 10000 := by
  unfold KINDA_SMALL_NUMBER; norm_num

theorem SMALL_NUMBER_eq : SMALL_NUMBER = 1 / 100000000 := by
  unfold SMALL_NUMBER; norm_num

theorem InvSqrt_mul_self (S : ℝ) (hS : 0 < S) : S * (InvSqrt S * InvSqrt S) = 1 := by
  unfold InvSqrt
  have h := Real.mul_self_sqrt hS.le
  have hpos : 0 < Real.sqrt S := Real.sqrt_pos.mpr hS
  field_simp

theorem FQuat.sizeSquared_axisAngle (Axis : FVector) (hA : Axis.SizeSquared = 1) (Angle : ℝ) :
    (FQuat.AxisAngle Axis Angle).SizeSquared = 1 := by
  simp only [FVector.SizeSquared] at hA
  simp only [FQuat.AxisAngle, FQuat.SizeSquared]
  have h := Real.sin_sq_add_cos_sq (0.5 * Angle)
  linear_combination (Real.sin (0.5 * Angle)) ^ 2 * hA + h

theorem FQuat.sizeSquared_normalize (Q : FQuat) : (FQuat.Normalize Q).SizeSquared = 1 := by
  unfold FQuat.Normalize
  simp only
  split_ifs with h
  · have hpos : 0 < Q.X * Q.X + Q.Y * Q.Y + Q.Z * Q.Z + Q.W * Q.W := by
      rw [SMALL_NUMBER_eq] at h
      linarith
    have h1 := InvSqrt_mul_self _ hpos
    simp only [FQuat.SizeSquared]
    linear_combination h1
  · simp [FQuat.Identity, FQuat.SizeSquared]

theorem FQuat.normalize_of_sizeSquared (Q : FQuat) (hQ : Q.SizeSquared = 1) :
    FQuat.Normalize Q = Q := by
  simp only [FQuat.SizeSquared] at hQ
  unfold FQuat.Normalize
  simp only [hQ, InvSqrt, SMALL_NUMBER_eq]
  rw [if_pos (by norm_num)]
  ext <;> simp

theorem FVector.sizeSquared_getSafeNormal (V : FVector) (hV : SMALL_NUMBER ≤ V.SizeSquared) :
    (FVector.GetSafeNormal V).SizeSquared = 1 := by
  simp only [FVector.SizeSquared] at hV
  unfold FVector.GetSafeNormal
  simp only
  split_ifs with h1 h2
  · simpa [FVector.SizeSquared] using h1
  · linarith
  · have hpos : 0 < V.X * V.X + V.Y * V.Y + V.Z * V.Z := by
      rw [SMALL_NUMBER_eq] at hV
      linarith
    have h3 := InvSqrt_mul_self _ hpos
    simp only [FVector.SizeSquared]
    linear_combination h3

/-- The safe normal of a vector that is long enough is the vector scaled by the reciprocal of
its length. -/
theorem FVector.getSafeNormal_eq_scale (V : FVector) (hV : SMALL_NUMBER ≤ V.SizeSquared) :
    FVector.GetSafeNormal V = FVector.Scale V (1 / V.Size) := by
  simp only [FVector.SizeSquared] at hV
  unfold FVector.GetSafeNormal
  simp only
  split_ifs with h1 h2
  · simp [FVector.Scale, FVector.Size, h1]
  · linarith
  · simp [FVector.Scale, FVector.Size, InvSqrt]

/-- Rodrigues' formula for the rotation built from a unit axis and an angle. -/
theorem FQuat.rotateVector_axisAngle (K : FVector) (hK : K.SizeSquared = 1) (Angle : ℝ)
    (V : FVector) :
    (FQuat.AxisAngle K Angle).RotateVector V
      = ⟨Real.cos Angle * V.X + Real.sin Angle * (FVector.CrossProduct K V).X
            + (1 - Real.cos Angle) * FVector.DotProduct K V * K.X,
         Real.cos Angle * V.Y + Real.sin Angle * (FVector.CrossProduct K V).Y
            + (1 - Real.cos Angle) * FVector.DotProduct K V * K.Y,
         Real.cos Angle * V.Z + Real.sin Angle * (FVector.CrossProduct K V).Z
            + (1 - Real.cos Angle) * FVector.DotProduct K V * K.Z⟩ := by
  simp only [FVector.SizeSquared] at hK
  have e : Angle = 2 * (0.5 * Angle) := by ring
  have hs : Real.sin Angle = 2 * Real.sin (0.5 * Angle) * Real.cos (0.5 * Angle) := by
    conv_lhs => rw [e]
    exact Real.sin_two_mul _
  have hc : Real.cos Angle = 2 * Real.cos (0.5 * Angle) ^ 2 - 1 := by
    conv_lhs => rw [e]
    exact Real.cos_two_mul _
  have h1 := Real.sin_sq_add_cos_sq (0.5 * Angle)
  rw [hs, hc]
  simp only [FQuat.AxisAngle, FQuat.RotateVector, FVector.CrossProduct, FVector.DotProduct]
  generalize Real.sin (0.5 * Angle) = s at *
  generalize Real.cos (0.5 * Angle) = c at *
  have hs2 : s ^ 2 = 1 - c ^ 2 := by linarith
  ext <;> simp only
  · linear_combination (-(s ^ 2 * V.X)) * hK
      + (2 * (K.X * V.X + K.Y * V.Y + K.Z * V.Z) * K.X - V.X) * hs2
  · linear_combination (-(s ^ 2 * V.Y)) * hK
      + (2 * (K.X * V.X + K.Y * V.Y + K.Z * V.Z) * K.Y - V.Y) * hs2
  · linear_combination (-(s ^ 2 * V.Z)) * hK
      + (2 * (K.X * V.X + K.Y * V.Y + K.Z * V.Z) * K.Z - V.Z) * hs2

/-! ## The pitch step -/

theorem FVector.sizeSquared_crossProduct (R A : FVector) :
    (FVector.CrossProduct R A).SizeSquared
      = R.SizeSquared * A.SizeSquared - FVector.DotProduct R A ^ 2 := by
  simp only [FVector.CrossProduct, FVector.SizeSquared, FVector.DotProduct]; ring

theorem FVector.size_eq_sqrt_sizeSquared (V : FVector) : V.Size = Real.sqrt V.SizeSquared :=
  rfl

theorem FVector.dotProduct_comm (U V : FVector) :
    FVector.DotProduct U V = FVector.DotProduct V U := by
  simp only [FVector.DotProduct]; ring

/-- The dot product of two unit vectors lies in `[-1, 1]`. -/
theorem FVector.dotProduct_sq_le_one (U V : FVector) (hU : U.SizeSquared = 1)
    (hV : V.SizeSquared = 1) : FVector.DotProduct U V ^ 2 ≤ 1 := by
  have h := FVector.sizeSquared_crossProduct U V
  rw [hU, hV] at h
  have h0 : 0 ≤ (FVector.CrossProduct U V).SizeSquared := by
    simp only [FVector.SizeSquared]
    exact add_nonneg (add_nonneg (mul_self_nonneg _) (mul_self_nonneg _)) (mul_self_nonneg _)
  linarith

/-- The pitch rotation applied to the model axis: the rotation about the normalised cross
product of a unit reference axis `R` and the unit model axis `A` by an angle `φ` moves `A`
in the plane of `R` and `A`. -/
theorem rotateVector_pitch (R A : FVector) (hR : R.SizeSquared = 1) (hA : A.SizeSquared = 1)
    (hb : SMALL_NUMBER ≤ 1 - FVector.DotProduct R A ^ 2) (φ : ℝ) :
    (FQuat.Normalize (FQuat.AxisAngle
        (FVector.GetSafeNormal (FVector.CrossProduct R A)) φ)).RotateVector A
      = ⟨Real.cos φ * A.X + Real.sin φ / Real.sqrt (1 - FVector.DotProduct R A ^ 2)
            * (FVector.DotProduct R A * A.X - R.X),
         Real.cos φ * A.Y + Real.sin φ / Real.sqrt (1 - FVector.DotProduct R A ^ 2)
            * (FVector.DotProduct R A * A.Y - R.Y),
         Real.cos φ * A.Z + Real.sin φ / Real.sqrt (1 - FVector.DotProduct R A ^ 2)
            * (FVector.DotProduct R A * A.Z - R.Z)⟩ := by
  have hcs : (FVector.CrossProduct R A).SizeSquared = 1 - FVector.DotProduct R A ^ 2 := by
    rw [FVector.sizeSquared_crossProduct, hR, hA]; ring
  have hb' : SMALL_NUMBER ≤ (FVector.CrossProduct R A).SizeSquared := by rw [hcs]; exact hb
  have hKu := FVector.sizeSquared_getSafeNormal _ hb'
  rw [FQuat.normalize_of_sizeSquared _ (FQuat.sizeSquared_axisAngle _ hKu _),
    FQuat.rotateVector_axisAngle _ hKu, FVector.getSafeNormal_eq_scale _ hb',
    FVector.size_eq_sqrt_sizeSquared, hcs]
  have hpos : 0 < 1 - FVector.DotProduct R A ^ 2 := by
    rw [SMALL_NUMBER_eq] at hb; linarith
  have hs : 0 < Real.sqrt (1 - FVector.DotProduct R A ^ 2) := Real.sqrt_pos.mpr hpos
  have hne := hs.ne.symm
  simp only [FVector.SizeSquared] at hA
  generalize Real.sqrt (1 - FVector.DotProduct R A ^ 2) = s at *
  ext <;> simp only [FVector.Scale, FVector.CrossProduct, FVector.DotProduct] <;> field_simp
  · linear_combination (-(Real.sin φ * s ^ 3 * R.X)) * hA
  · linear_combination (-(Real.sin φ * s ^ 3 * R.Y)) * hA
  · linear_combination (-(Real.sin φ * s ^ 3 * R.Z)) * hA

theorem sizeSquared_destNormalModelSpace (Q : FQuat) (hQ : Q.SizeSquared = 1) (T : FVector) :
    (DestNormalModelSpace Q T).SizeSquared = T.SizeSquared := by
  unfold DestNormalModelSpace
  exact FQuat.sizeSquared_rotateVector _ (by rw [FQuat.sizeSquared_inverse]; exact hQ) _

theorem vectorDot_eq (Q : FQuat) (hQ : Q.SizeSquared = 1) (A T : FVector) :
    VectorDot Q A T = FVector.DotProduct (DestNormalModelSpace Q T) A := by
  unfold VectorDot DestNormalModelSpace
  exact (FQuat.dotProduct_inverse_rotateVector Q hQ T A).symm

theorem sizeSquared_worldZ : WorldZ.SizeSquared = 1 := by
  simp [WorldZ, FVector.SizeSquared]

theorem FVector.dotProduct_self (V : FVector) : FVector.DotProduct V V = V.SizeSquared := rfl

theorem sizeSquared_pitchDelta (Q : FQuat) (A T : FVector) :
    (PitchDelta Q A T).SizeSquared = 1 :=
  FQuat.sizeSquared_normalize _

/-- In the unit square, `1 - |d| > KINDA_SMALL_NUMBER` keeps `1 - d²` above `SMALL_NUMBER`. -/
theorem small_le_of_nondegenerate (d : ℝ) (h : ¬ (1 - |d| ≤ KINDA_SMALL_NUMBER)) :
    SMALL_NUMBER ≤ 1 - d ^ 2 := by
  rw [KINDA_SMALL_NUMBER_eq] at h
  rw [SMALL_NUMBER_eq]
  push_neg at h
  have h0 := abs_nonneg d
  have h2 : d ^ 2 = |d| ^ 2 := (sq_abs d).symm
  rw [h2]
  nlinarith

/-- When the model-space target is substituted as the pitch reference axis, the pitch step
alone carries the model axis onto the world normal. -/
theorem pitchedModelAxis_of_substituted (Q : FQuat) (A T : FVector)
    (hQ : Q.SizeSquared = 1) (hA : A.SizeSquared = 1) (hT : T.SizeSquared = 1)
    (hnd : ¬ (1 - |VectorDot Q A T| ≤ KINDA_SMALL_NUMBER))
    (hsub : |FVector.DotProduct A (Q.Inverse.RotateVector WorldZ)| > 0.7) :
    PitchedModelAxis Q A T = T := by
  have ht : (DestNormalModelSpace Q T).SizeSquared = 1 := by
    rw [sizeSquared_destNormalModelSpace Q hQ, hT]
  have hR : PitchReferenceAxis Q A T = DestNormalModelSpace Q T := by
    unfold PitchReferenceAxis
    simp only
    rw [if_pos hsub]
  rw [vectorDot_eq Q hQ] at hnd
  have hb := small_le_of_nondegenerate _ hnd
  have hsq := FVector.dotProduct_sq_le_one _ _ ht hA
  have hd1 : -1 ≤ FVector.DotProduct (DestNormalModelSpace Q T) A := by nlinarith
  have hd2 : FVector.DotProduct (DestNormalModelSpace Q T) A ≤ 1 := by nlinarith
  have hD : (PitchDelta Q A T).RotateVector A = DestNormalModelSpace Q T := by
    unfold PitchDelta OrthoPitchAxis Pitch
    rw [hR, rotateVector_pitch _ _ ht hA hb, FVector.dotProduct_self, ht]
    simp only [Acos, Real.arccos_one, zero_sub, Real.cos_neg, Real.sin_neg,
      Real.cos_arccos hd1 hd2, Real.sin_arccos]
    have hpos : 0 < 1 - FVector.DotProduct (DestNormalModelSpace Q T) A ^ 2 := by
      rw [SMALL_NUMBER_eq] at hb; linarith
    have hs : Real.sqrt (1 - FVector.DotProduct (DestNormalModelSpace Q T) A ^ 2) ≠ 0 :=
      (Real.sqrt_pos.mpr hpos).ne.symm
    ext <;> simp only <;> field_simp
  unfold PitchedModelAxis
  rw [FQuat.rotateVector_mul, hD]
  unfold DestNormalModelSpace
  exact FQuat.rotateVector_inverse_rotateVector Q hQ T

/-- The component along a unit reference axis `r` of a vector `c A + k ((r·A) A - r)`. -/
theorem dotProduct_pitch_formula (r A : FVector) (hr : r.SizeSquared = 1) (c k : ℝ) :
    FVector.DotProduct r
        ⟨c * A.X + k * (FVector.DotProduct r A * A.X - r.X),
         c * A.Y + k * (FVector.DotProduct r A * A.Y - r.Y),
         c * A.Z + k * (FVector.DotProduct r A * A.Z - r.Z)⟩
      = c * FVector.DotProduct r A + k * (FVector.DotProduct r A ^ 2 - 1) := by
  simp only [FVector.SizeSquared] at hr
  simp only [FVector.DotProduct]
  linear_combination (-k) * hr

/-- With world up as the pitch reference axis, the pitch step brings the model axis to the
elevation of the world normal. -/
theorem pitchedModelAxis_Z_of_up (Q : FQuat) (A T : FVector)
    (hQ : Q.SizeSquared = 1) (hA : A.SizeSquared = 1) (hT : T.SizeSquared = 1)
    (hup : ¬ (|FVector.DotProduct A (Q.Inverse.RotateVector WorldZ)| > 0.7)) :
    (PitchedModelAxis Q A T).Z = T.Z := by
  have hQi : Q.Inverse.SizeSquared = 1 := by rw [FQuat.sizeSquared_inverse]; exact hQ
  have hr : (Q.Inverse.RotateVector WorldZ).SizeSquared = 1 := by
    rw [FQuat.sizeSquared_rotateVector _ hQi, sizeSquared_worldZ]
  have hR : PitchReferenceAxis Q A T = Q.Inverse.RotateVector WorldZ := by
    unfold PitchReferenceAxis
    simp only
    rw [if_neg hup]
  have ha : FVector.DotProduct (Q.Inverse.RotateVector WorldZ) (DestNormalModelSpace Q T)
      = T.Z := by
    unfold DestNormalModelSpace
    rw [FQuat.dotProduct_rotateVector _ hQi]
    simp [WorldZ, FVector.DotProduct]
  have hTz : T.Z ^ 2 ≤ 1 := by
    simp only [FVector.SizeSquared] at hT
    nlinarith [mul_self_nonneg T.X, mul_self_nonneg T.Y]
  have ha1 : -1 ≤ T.Z := by nlinarith
  have ha2 : T.Z ≤ 1 := by nlinarith
  rw [FVector.dotProduct_comm] at hup
  have hb7 : FVector.DotProduct (Q.Inverse.RotateVector WorldZ) A ^ 2 ≤ 0.49 := by
    push_neg at hup
    have := abs_le.mp hup
    nlinarith [this.1, this.2]
  have hb : SMALL_NUMBER ≤ 1 - FVector.DotProduct (Q.Inverse.RotateVector WorldZ) A ^ 2 := by
    rw [SMALL_NUMBER_eq]; norm_num at hb7 ⊢; linarith
  have hb1 : -1 ≤ FVector.DotProduct (Q.Inverse.RotateVector WorldZ) A := by nlinarith
  have hb2 : FVector.DotProduct (Q.Inverse.RotateVector WorldZ) A ≤ 1 := by nlinarith
  have hZ : (PitchedModelAxis Q A T).Z
      = FVector.DotProduct (Q.Inverse.RotateVector WorldZ)
          ((PitchDelta Q A T).RotateVector A) := by
    unfold PitchedModelAxis
    rw [FQuat.rotateVector_mul, FQuat.dotProduct_inverse_rotateVector Q hQ]
    simp [WorldZ, FVector.DotProduct]
  rw [hZ]
  unfold PitchDelta OrthoPitchAxis Pitch
  rw [hR, rotateVector_pitch _ _ hr hA hb, ha]
  rw [dotProduct_pitch_formula _ _ hr]
  simp only [Acos, Real.cos_sub, Real.sin_sub, Real.cos_arccos ha1 ha2,
    Real.cos_arccos hb1 hb2, Real.sin_arccos]
  have hpos : 0 < 1 - FVector.DotProduct (Q.Inverse.RotateVector WorldZ) A ^ 2 := by
    rw [SMALL_NUMBER_eq] at hb; linarith
  have hs : Real.sqrt (1 - FVector.DotProduct (Q.Inverse.RotateVector WorldZ) A ^ 2) ≠ 0 :=
    (Real.sqrt_pos.mpr hpos).ne.symm
  have hs2 := Real.sq_sqrt hpos.le
  generalize Real.sqrt (1 - FVector.DotProduct (Q.Inverse.RotateVector WorldZ) A ^ 2)
    = s at hs hs2 ⊢
  generalize Real.sqrt (1 - T.Z ^ 2) = u
  generalize FVector.DotProduct (Q.Inverse.RotateVector WorldZ) A = b at hs2 ⊢
  field_simp
  linear_combination (b * u) * hs2

/-! ## The yaw step -/

theorem FQuat.mul_assoc (P Q R : FQuat) :
    FQuat.Mul P (FQuat.Mul Q R) = FQuat.Mul (FQuat.Mul P Q) R := by
  ext <;> simp only [FQuat.Mul] <;> ring

/-- A rotation about an axis given in the local frame of a unit quaternion `M` is the
rotation about the world-space axis applied after `M`. -/
theorem FQuat.mul_axisAngle_inverse_rotateVector (M : FQuat) (hM : M.SizeSquared = 1)
    (V : FVector) (Angle : ℝ) :
    FQuat.Mul M (FQuat.AxisAngle (M.Inverse.RotateVector V) Angle)
      = FQuat.Mul (FQuat.AxisAngle V Angle) M := by
  simp only [FQuat.SizeSquared] at hM
  ext <;> simp only [FQuat.Mul, FQuat.AxisAngle, FQuat.Inverse, FQuat.RotateVector,
    FVector.CrossProduct, FVector.DotProduct]
  · linear_combination
      (Real.sin (0.5 * Angle) * (V.X * M.W + V.Y * M.Z - V.Z * M.Y)) * hM
  · linear_combination
      (Real.sin (0.5 * Angle) * (-(V.X * M.Z) + V.Y * M.W + V.Z * M.X)) * hM
  · linear_combination
      (Real.sin (0.5 * Angle) * (V.X * M.Y - V.Y * M.X + V.Z * M.W)) * hM
  · linear_combination
      (Real.sin (0.5 * Angle) * (-(V.X * M.X) - V.Y * M.Y - V.Z * M.Z)) * hM

/-- A rotation about world up turns the horizontal components and keeps the height. -/
theorem FQuat.rotateVector_axisAngle_worldZ (Angle : ℝ) (V : FVector) :
    (FQuat.AxisAngle WorldZ Angle).RotateVector V
      = ⟨Real.cos Angle * V.X - Real.sin Angle * V.Y,
         Real.cos Angle * V.Y + Real.sin Angle * V.X, V.Z⟩ := by
  rw [FQuat.rotateVector_axisAngle _ sizeSquared_worldZ]
  ext <;> simp [WorldZ, FVector.CrossProduct, FVector.DotProduct] <;> ring

theorem cos_Atan2 (Y X : ℝ) (h : 0 < X * X + Y * Y) :
    Real.cos (Atan2 Y X) = X / Real.sqrt (X * X + Y * Y) := by
  unfold Atan2
  have hne : (⟨X, Y⟩ : ℂ) ≠ 0 := by
    intro h0
    have h1 := congrArg Complex.re h0
    have h2 := congrArg Complex.im h0
    simp at h1 h2
    rw [h1, h2] at h
    simp at h
  rw [Complex.cos_arg hne, Complex.abs_apply, Complex.normSq_mk]

theorem sin_Atan2 (Y X : ℝ) :
    Real.sin (Atan2 Y X) = Y / Real.sqrt (X * X + Y * Y) := by
  unfold Atan2
  rw [Complex.sin_arg, Complex.abs_apply, Complex.normSq_mk]

theorem Atan2_zero_zero : Atan2 0 0 = 0 := by
  unfold Atan2
  have : (⟨0, 0⟩ : ℂ) = 0 := rfl
  rw [this, Complex.arg_zero]

/-- Turning a unit vector `P` about world up by the difference of the azimuths
`Atan2 P.X P.Y - Atan2 T.X T.Y` gives the unit vector `T` when the two have the same
height. -/
theorem yaw_rotation_exact (P T : FVector) (hP : P.SizeSquared = 1) (hT : T.SizeSquared = 1)
    (hZ : P.Z = T.Z) :
    (FQuat.AxisAngle WorldZ
        (-(Atan2 T.X T.Y - Atan2 P.X P.Y))).RotateVector P = T := by
  rw [FQuat.rotateVector_axisAngle_worldZ]
  simp only [FVector.SizeSquared] at hP hT
  have hPT : P.Y * P.Y + P.X * P.X = T.Y * T.Y + T.X * T.X := by
    rw [hZ] at hP; linarith
  by_cases h0 : T.Y * T.Y + T.X * T.X = 0
  · have hT1 : T.Y = 0 := by nlinarith [mul_self_nonneg T.X, mul_self_nonneg T.Y]
    have hT2 : T.X = 0 := by nlinarith [mul_self_nonneg T.X, mul_self_nonneg T.Y]
    rw [h0] at hPT
    have hP1 : P.Y = 0 := by nlinarith [mul_self_nonneg P.X, mul_self_nonneg P.Y]
    have hP2 : P.X = 0 := by nlinarith [mul_self_nonneg P.X, mul_self_nonneg P.Y]
    ext <;> simp [hT1, hT2, hP1, hP2, hZ]
  · have hpos : 0 < T.Y * T.Y + T.X * T.X :=
      lt_of_le_of_ne (add_nonneg (mul_self_nonneg _) (mul_self_nonneg _)) (Ne.symm h0)
    have hposP : 0 < P.Y * P.Y + P.X * P.X := by rw [hPT]; exact hpos
    have hs := Real.sqrt_pos.mpr hpos
    have hs2 := Real.sq_sqrt hpos.le
    have e : -(Atan2 T.X T.Y - Atan2 P.X P.Y) = Atan2 P.X P.Y - Atan2 T.X T.Y := by ring
    rw [e, Real.cos_sub, Real.sin_sub, cos_Atan2 _ _ hpos, cos_Atan2 _ _ hposP, sin_Atan2,
      sin_Atan2, hPT]
    have hne := hs.ne.symm
    generalize Real.sqrt (T.Y * T.Y + T.X * T.X) = s at hs hs2 hne ⊢
    ext <;> simp only
    · field_simp
      linear_combination (T.X) * hPT - (T.X) * hs2
    · field_simp
      linear_combination (T.Y) * hPT - (T.Y) * hs2
    · exact hZ

/-! ## The general branch -/

theorem sizeSquared_mul_pitchDelta (Q : FQuat) (hQ : Q.SizeSquared = 1) (A T : FVector) :
    (FQuat.Mul Q (PitchDelta Q A T)).SizeSquared = 1 := by
  rw [FQuat.sizeSquared_mul, hQ, sizeSquared_pitchDelta, mul_one]

theorem sizeSquared_pitchedModelAxis (Q : FQuat) (hQ : Q.SizeSquared = 1) (A T : FVector)
    (hA : A.SizeSquared = 1) : (PitchedModelAxis Q A T).SizeSquared = 1 := by
  unfold PitchedModelAxis
  rw [FQuat.sizeSquared_rotateVector _ (sizeSquared_mul_pitchDelta Q hQ A T), hA]

/-- When the yaw step runs, the returned rotation is the world-space rotation about world up
by the negated yaw, applied after the pitched actor rotation. -/
theorem mul_generalDelta_of_yawApplied (Q : FQuat) (hQ : Q.SizeSquared = 1) (A T : FVector)
    (hyaw : YawApplied Q A T = true) :
    FQuat.Mul Q (GeneralDelta Q A T)
      = FQuat.Mul (FQuat.AxisAngle WorldZ (-Yaw Q A T)) (FQuat.Mul Q (PitchDelta Q A T)) := by
  unfold GeneralDelta
  rw [if_pos hyaw, FQuat.mul_assoc]
  unfold WorldYawAxis
  exact FQuat.mul_axisAngle_inverse_rotateVector _ (sizeSquared_mul_pitchDelta Q hQ A T) _ _

theorem mul_generalDelta_of_not_yawApplied (Q : FQuat) (A T : FVector)
    (hyaw : YawApplied Q A T = false) :
    FQuat.Mul Q (GeneralDelta Q A T) = FQuat.Mul Q (PitchDelta Q A T) := by
  unfold GeneralDelta
  rw [hyaw]
  simp

/-- With world up as the pitch reference axis and the yaw step run, the general branch
carries the model axis onto the world normal. -/
theorem rotateVector_generalDelta_of_up_of_yaw (Q : FQuat) (A T : FVector)
    (hQ : Q.SizeSquared = 1) (hA : A.SizeSquared = 1) (hT : T.SizeSquared = 1)
    (hup : ¬ (|FVector.DotProduct A (Q.Inverse.RotateVector WorldZ)| > 0.7))
    (hyaw : YawApplied Q A T = true) :
    (FQuat.Mul Q (GeneralDelta Q A T)).RotateVector A = T := by
  rw [mul_generalDelta_of_yawApplied Q hQ A T hyaw, FQuat.rotateVector_mul]
  have h := yaw_rotation_exact (PitchedModelAxis Q A T) T
    (sizeSquared_pitchedModelAxis Q hQ A T hA) hT (pitchedModelAxis_Z_of_up Q A T hQ hA hT hup)
  exact h

theorem yawApplied_eq_false_iff (Q : FQuat) (A T : FVector) :
    YawApplied Q A T = false
      ↔ ParallelDotThreshold ≤ FVector.DotProduct T (PitchedModelAxis Q A T) := by
  unfold YawApplied FVector.Coincident
  simp

theorem parallelDotThreshold_le_one : ParallelDotThreshold ≤ 1 := by
  unfold ParallelDotThreshold; norm_num

/-- In the general branch the returned rotation either carries the model axis exactly onto
the world normal, or it is the pitch-only rotation and the pitched axis is within the
parallel threshold of the world normal. -/
theorem rotateVector_generalDelta (Q : FQuat) (A T : FVector)
    (hQ : Q.SizeSquared = 1) (hA : A.SizeSquared = 1) (hT : T.SizeSquared = 1)
    (hnd : ¬ (1 - |VectorDot Q A T| ≤ KINDA_SMALL_NUMBER)) :
    (FQuat.Mul Q (GeneralDelta Q A T)).RotateVector A = T
      ∨ (YawApplied Q A T = false
          ∧ (FQuat.Mul Q (GeneralDelta Q A T)).RotateVector A = PitchedModelAxis Q A T
          ∧ ParallelDotThreshold ≤ FVector.DotProduct T (PitchedModelAxis Q A T)) := by
  by_cases hsub : |FVector.DotProduct A (Q.Inverse.RotateVector WorldZ)| > 0.7
  · left
    have hP := pitchedModelAxis_of_substituted Q A T hQ hA hT hnd hsub
    have hy : YawApplied Q A T = false := by
      rw [yawApplied_eq_false_iff, hP, FVector.dotProduct_self, hT]
      exact parallelDotThreshold_le_one
    rw [mul_generalDelta_of_not_yawApplied Q A T hy]
    exact hP
  · cases hy : YawApplied Q A T
    · right
      refine ⟨rfl, ?_, (yawApplied_eq_false_iff Q A T).mp hy⟩
      rw [mul_generalDelta_of_not_yawApplied Q A T hy]
      rfl
    · left
      exact rotateVector_generalDelta_of_up_of_yaw Q A T hQ hA hT hsub hy

/-- In the general branch the rotated model axis is within the parallel threshold of the
world normal. -/
theorem dotProduct_generalDelta_ge (Q : FQuat) (A T : FVector)
    (hQ : Q.SizeSquared = 1) (hA : A.SizeSquared = 1) (hT : T.SizeSquared = 1)
    (hnd : ¬ (1 - |VectorDot Q A T| ≤ KINDA_SMALL_NUMBER)) :
    ParallelDotThreshold
      ≤ FVector.DotProduct T ((FQuat.Mul Q (GeneralDelta Q A T)).RotateVector A) := by
  rcases rotateVector_generalDelta Q A T hQ hA hT hnd with h | ⟨_, h2, h3⟩
  · rw [h, FVector.dotProduct_self, hT]
    exact parallelDotThreshold_le_one
  · rw [h2]; exact h3

theorem findActorAlignmentRotation_of_nondegenerate (Q : FQuat) (A T : FVector)
    (hnd : ¬ (1 - |VectorDot Q A T| ≤ KINDA_SMALL_NUMBER)) :
    FindActorAlignmentRotation Q A T = FQuat.Mul Q (GeneralDelta Q A T) := by
  unfold FindActorAlignmentRotation
  rw [if_neg hnd]

/-! ## The anti-parallel branch -/

theorem FVector.normalize_eq_self (V : FVector) (hV : V.SizeSquared = 1) :
    FVector.Normalize V = V := by
  simp only [FVector.SizeSquared] at hV
  unfold FVector.Normalize
  simp only [hV, InvSqrt, SMALL_NUMBER_eq]
  rw [if_pos (by norm_num)]
  ext <;> simp

/-- The first best axis of a unit vector is a unit vector orthogonal to it. -/
theorem FVector.findBestAxis1_spec (V : FVector) (hV : V.SizeSquared = 1) :
    (FVector.FindBestAxis1 V).SizeSquared = 1
      ∧ FVector.DotProduct (FVector.FindBestAxis1 V) V = 0 := by
  have key : ∀ E : FVector, E.SizeSquared = 1 → FVector.DotProduct E V ^ 2 ≤ 1 / 2 →
      (FVector.GetSafeNormal
          (FVector.Sub E (FVector.Scale V (FVector.DotProduct E V)))).SizeSquared = 1
        ∧ FVector.DotProduct (FVector.GetSafeNormal
            (FVector.Sub E (FVector.Scale V (FVector.DotProduct E V)))) V = 0 := by
    intro E hE hEV
    have hW : (FVector.Sub E (FVector.Scale V (FVector.DotProduct E V))).SizeSquared
        = 1 - FVector.DotProduct E V ^ 2 := by
      simp only [FVector.SizeSquared] at hV hE
      simp only [FVector.SizeSquared, FVector.Sub, FVector.Scale, FVector.DotProduct]
      linear_combination hE
        + ((E.X * V.X + E.Y * V.Y + E.Z * V.Z) ^ 2) * hV
    have hsm : SMALL_NUMBER
        ≤ (FVector.Sub E (FVector.Scale V (FVector.DotProduct E V))).SizeSquared := by
      rw [hW, SMALL_NUMBER_eq]; linarith
    refine ⟨FVector.sizeSquared_getSafeNormal _ hsm, ?_⟩
    rw [FVector.getSafeNormal_eq_scale _ hsm]
    simp only [FVector.SizeSquared] at hV
    generalize 1 / (FVector.Sub E (FVector.Scale V (FVector.DotProduct E V))).Size = k
    simp only [FVector.Sub, FVector.Scale, FVector.DotProduct]
    linear_combination (-(k * (E.X * V.X + E.Y * V.Y + E.Z * V.Z))) * hV
  unfold FVector.FindBestAxis1
  simp only
  have hV' := hV
  simp only [FVector.SizeSquared] at hV'
  split_ifs with h
  · apply key
    · simp [FVector.SizeSquared]
    · have h1 : |V.X| < |V.Z| := h.1
      have h2 : V.X ^ 2 < V.Z ^ 2 := sq_lt_sq.mpr h1
      simp only [FVector.DotProduct]
      nlinarith [mul_self_nonneg V.Y]
  · apply key
    · simp [FVector.SizeSquared]
    · simp only [FVector.DotProduct]
      rw [not_and_or] at h
      rcases h with h | h
      · have h2 : V.Z ^ 2 ≤ V.X ^ 2 := sq_le_sq.mpr (not_lt.mp h)
        nlinarith [mul_self_nonneg V.Y]
      · have h2 : V.Z ^ 2 ≤ V.Y ^ 2 := sq_le_sq.mpr (not_lt.mp h)
        nlinarith [mul_self_nonneg V.X]

/-- A quaternion with a unit vector part `K` and zero scalar part is the half turn about
`K`. -/
theorem FQuat.rotateVector_halfTurn (K : FVector) (hK : K.SizeSquared = 1) (V : FVector) :
    (⟨K.X, K.Y, K.Z, 0⟩ : FQuat).RotateVector V
      = ⟨2 * FVector.DotProduct K V * K.X - V.X, 2 * FVector.DotProduct K V * K.Y - V.Y,
         2 * FVector.DotProduct K V * K.Z - V.Z⟩ := by
  simp only [FVector.SizeSquared] at hK
  ext <;> simp only [FQuat.RotateVector, FVector.CrossProduct, FVector.DotProduct]
  · linear_combination (-V.X) * hK
  · linear_combination (-V.Y) * hK
  · linear_combination (-V.Z) * hK

theorem FQuat.findBetween_of_opposite (A t : FVector) (hA : A.SizeSquared = 1)
    (ht : t.SizeSquared = 1) (hc : (FVector.CrossProduct A t).Size < KINDA_SMALL_NUMBER)
    (hd : ¬ (FVector.DotProduct A t > -KINDA_SMALL_NUMBER)) :
    FQuat.FindBetween A t
      = ⟨(FVector.FindBestAxis1 t).X, (FVector.FindBestAxis1 t).Y,
          (FVector.FindBestAxis1 t).Z, 0⟩ := by
  unfold FQuat.FindBetween
  simp only
  rw [if_pos hc, if_neg hd, hA, ht, if_neg (lt_irrefl 1), FVector.normalize_eq_self t ht]

theorem FQuat.findBetween_of_cross (A t : FVector)
    (hc : ¬ ((FVector.CrossProduct A t).Size < KINDA_SMALL_NUMBER))
    (hd : FVector.DotProduct A t < 0) :
    FQuat.FindBetween A t
      = FQuat.AxisAngle
          (FVector.Scale (FVector.CrossProduct A t) (1 / (FVector.CrossProduct A t).Size))
          (Real.pi - Asin (FVector.CrossProduct A t).Size) := by
  unfold FQuat.FindBetween FQuat.AxisAngle
  simp only
  rw [if_neg hc, if_pos hd]

/-- For unit vectors whose cross product is not small and whose dot product is negative, the
rotation found between them carries the first onto the second. -/
theorem FQuat.rotateVector_findBetween_of_cross (A t : FVector) (hA : A.SizeSquared = 1)
    (ht : t.SizeSquared = 1)
    (hc : ¬ ((FVector.CrossProduct A t).Size < KINDA_SMALL_NUMBER))
    (hd : FVector.DotProduct A t < 0) :
    (FQuat.FindBetween A t).SizeSquared = 1 ∧ (FQuat.FindBetween A t).RotateVector A = t := by
  rw [FQuat.findBetween_of_cross A t hc hd]
  have hcs : (FVector.CrossProduct A t).SizeSquared = 1 - FVector.DotProduct A t ^ 2 := by
    rw [FVector.sizeSquared_crossProduct, hA, ht]; ring
  have hsz : (FVector.CrossProduct A t).Size = Real.sqrt (1 - FVector.DotProduct A t ^ 2) := by
    rw [FVector.size_eq_sqrt_sizeSquared, hcs]
  rw [hsz] at hc ⊢
  have hcpos : 0 < Real.sqrt (1 - FVector.DotProduct A t ^ 2) := by
    rw [KINDA_SMALL_NUMBER_eq] at hc
    push_neg at hc
    linarith
  have hpos : 0 < 1 - FVector.DotProduct A t ^ 2 := Real.sqrt_pos.mp hcpos
  have hc2 := Real.sq_sqrt hpos.le
  have hKu : (FVector.Scale (FVector.CrossProduct A t)
      (1 / Real.sqrt (1 - FVector.DotProduct A t ^ 2))).SizeSquared = 1 := by
    have : (FVector.Scale (FVector.CrossProduct A t)
        (1 / Real.sqrt (1 - FVector.DotProduct A t ^ 2))).SizeSquared
        = (FVector.CrossProduct A t).SizeSquared
          * (1 / Real.sqrt (1 - FVector.DotProduct A t ^ 2)) ^ 2 := by
      simp only [FVector.Scale, FVector.SizeSquared]; ring
    rw [this, hcs]
    field_simp
  refine ⟨FQuat.sizeSquared_axisAngle _ hKu _, ?_⟩
  rw [FQuat.rotateVector_axisAngle _ hKu]
  have hle1 : Real.sqrt (1 - FVector.DotProduct A t ^ 2) ≤ 1 := by
    have h1 : Real.sqrt (1 - FVector.DotProduct A t ^ 2) ≤ Real.sqrt 1 :=
      Real.sqrt_le_sqrt (by nlinarith [sq_nonneg (FVector.DotProduct A t)])
    simpa using h1
  have hcos : Real.cos (Real.pi - Asin (Real.sqrt (1 - FVector.DotProduct A t ^ 2)))
      = FVector.DotProduct A t := by
    rw [Real.cos_pi_sub, Asin, Real.cos_arcsin, hc2]
    have : 1 - (1 - FVector.DotProduct A t ^ 2) = FVector.DotProduct A t ^ 2 := by ring
    rw [this, Real.sqrt_sq_eq_abs, abs_of_neg hd]
    ring
  have hsin : Real.sin (Real.pi - Asin (Real.sqrt (1 - FVector.DotProduct A t ^ 2)))
      = Real.sqrt (1 - FVector.DotProduct A t ^ 2) := by
    rw [Real.sin_pi_sub, Asin, Real.sin_arcsin (by linarith) hle1]
  rw [hcos, hsin]
  have hne := hcpos.ne.symm
  simp only [FVector.SizeSquared] at hA
  simp only [FVector.DotProduct] at hne ⊢
  generalize Real.sqrt (1 - (A.X * t.X + A.Y * t.Y + A.Z * t.Z) ^ 2) = c at hne ⊢
  ext <;> simp only [FVector.Scale, FVector.CrossProduct] <;> field_simp
  · linear_combination (t.X * c ^ 2) * hA
  · linear_combination (t.Y * c ^ 2) * hA
  · linear_combination (t.Z * c ^ 2) * hA

theorem one_sub_KINDA_SMALL_NUMBER_ge : ParallelDotThreshold ≤ 1 - KINDA_SMALL_NUMBER := by
  rw [KINDA_SMALL_NUMBER_eq]; unfold ParallelDotThreshold; norm_num

/-- In the anti-parallel branch the rotation found between the model axis and the model-space
target is a unit quaternion that brings the model axis within `KINDA_SMALL_NUMBER` (in
cosine) of the target. -/
theorem FQuat.findBetween_antiparallel (A t : FVector) (hA : A.SizeSquared = 1)
    (ht : t.SizeSquared = 1) (hd : FVector.DotProduct A t < 0)
    (hdeg : 1 - |FVector.DotProduct A t| ≤ KINDA_SMALL_NUMBER) :
    (FQuat.FindBetween A t).SizeSquared = 1
      ∧ 1 - KINDA_SMALL_NUMBER
          ≤ FVector.DotProduct t ((FQuat.FindBetween A t).RotateVector A) := by
  by_cases hc : (FVector.CrossProduct A t).Size < KINDA_SMALL_NUMBER
  · have hd' : ¬ (FVector.DotProduct A t > -KINDA_SMALL_NUMBER) := by
      rw [abs_of_neg hd] at hdeg
      rw [KINDA_SMALL_NUMBER_eq] at hdeg ⊢
      push_neg
      linarith
    obtain ⟨ha1, ha2⟩ := FVector.findBestAxis1_spec t ht
    rw [FQuat.findBetween_of_opposite A t hA ht hc hd']
    constructor
    · simpa [FQuat.SizeSquared, FVector.SizeSquared] using ha1
    · rw [FQuat.rotateVector_halfTurn _ ha1]
      rw [abs_of_neg hd] at hdeg
      have e : FVector.DotProduct t
          ⟨2 * FVector.DotProduct (FVector.FindBestAxis1 t) A * (FVector.FindBestAxis1 t).X - A.X,
           2 * FVector.DotProduct (FVector.FindBestAxis1 t) A * (FVector.FindBestAxis1 t).Y - A.Y,
           2 * FVector.DotProduct (FVector.FindBestAxis1 t) A * (FVector.FindBestAxis1 t).Z - A.Z⟩
          = 2 * FVector.DotProduct (FVector.FindBestAxis1 t) A
              * FVector.DotProduct (FVector.FindBestAxis1 t) t - FVector.DotProduct A t := by
        simp only [FVector.DotProduct]; ring
      rw [e, ha2]
      linarith
  · obtain ⟨h1, h2⟩ := FQuat.rotateVector_findBetween_of_cross A t hA ht hc hd
    refine ⟨h1, ?_⟩
    rw [h2, FVector.dotProduct_self, ht]
    rw [KINDA_SMALL_NUMBER_eq]; norm_num

theorem FVector.sizeSquared_neg (A : FVector) : (FVector.Neg A).SizeSquared = A.SizeSquared := by
  simp only [FVector.Neg, FVector.SizeSquared]; ring

/-- The rotation found between a unit vector and its opposite carries the vector onto its
opposite. -/
theorem FQuat.rotateVector_findBetween_neg (A : FVector) (hA : A.SizeSquared = 1) :
    (FQuat.FindBetween A (FVector.Neg A)).RotateVector A = FVector.Neg A := by
  have ht : (FVector.Neg A).SizeSquared = 1 := by rw [FVector.sizeSquared_neg, hA]
  have hcr : FVector.CrossProduct A (FVector.Neg A) = ⟨0, 0, 0⟩ := by
    ext <;> simp only [FVector.CrossProduct, FVector.Neg] <;> ring
  have hc : (FVector.CrossProduct A (FVector.Neg A)).Size < KINDA_SMALL_NUMBER := by
    rw [hcr, KINDA_SMALL_NUMBER_eq]
    simp [FVector.Size]
  have hdot : FVector.DotProduct A (FVector.Neg A) = -1 := by
    simp only [FVector.SizeSquared] at hA
    simp only [FVector.DotProduct, FVector.Neg]
    linear_combination (-1 : ℝ) * hA
  have hd' : ¬ (FVector.DotProduct A (FVector.Neg A) > -KINDA_SMALL_NUMBER) := by
    rw [hdot, KINDA_SMALL_NUMBER_eq]; norm_num
  obtain ⟨ha1, ha2⟩ := FVector.findBestAxis1_spec _ ht
  rw [FQuat.findBetween_of_opposite A _ hA ht hc hd', FQuat.rotateVector_halfTurn _ ha1]
  have h0 : FVector.DotProduct (FVector.FindBestAxis1 (FVector.Neg A)) A = 0 := by
    simp only [FVector.DotProduct, FVector.Neg] at ha2 ⊢
    linarith
  rw [h0]
  ext <;> simp [FVector.Neg]

/-! ## The solver as a whole -/

theorem findActorAlignmentRotation_of_antiparallel (Q : FQuat) (A T : FVector)
    (hdeg : 1 - |VectorDot Q A T| ≤ KINDA_SMALL_NUMBER) (hd : VectorDot Q A T < 0) :
    FindActorAlignmentRotation Q A T
      = FQuat.Mul Q (FQuat.FindBetween A (DestNormalModelSpace Q T)) := by
  unfold FindActorAlignmentRotation
  rw [if_pos hdeg, if_pos hd]

theorem findActorAlignmentRotation_of_parallel (Q : FQuat) (A T : FVector)
    (hdeg : 1 - |VectorDot Q A T| ≤ KINDA_SMALL_NUMBER) (hd : ¬ (VectorDot Q A T < 0)) :
    FindActorAlignmentRotation Q A T = Q := by
  unfold FindActorAlignmentRotation
  rw [if_pos hdeg, if_neg hd, FQuat.mul_identity]

/-- Whatever the branch, the rotated model axis is within the parallel threshold of the world
normal. -/
theorem dotProduct_findActorAlignmentRotation_ge (Q : FQuat) (A T : FVector)
    (hQ : Q.SizeSquared = 1) (hA : A.SizeSquared = 1) (hT : T.SizeSquared = 1) :
    ParallelDotThreshold
      ≤ FVector.DotProduct T ((FindActorAlignmentRotation Q A T).RotateVector A) := by
  by_cases hdeg : 1 - |VectorDot Q A T| ≤ KINDA_SMALL_NUMBER
  · by_cases hd : VectorDot Q A T < 0
    · rw [findActorAlignmentRotation_of_antiparallel Q A T hdeg hd, FQuat.rotateVector_mul,
        ← FQuat.dotProduct_inverse_rotateVector Q hQ]
      have ht : (DestNormalModelSpace Q T).SizeSquared = 1 := by
        rw [sizeSquared_destNormalModelSpace Q hQ, hT]
      rw [vectorDot_eq Q hQ, FVector.dotProduct_comm] at hdeg hd
      have h := (FQuat.findBetween_antiparallel A _ hA ht hd hdeg).2
      exact le_trans one_sub_KINDA_SMALL_NUMBER_ge h
    · rw [findActorAlignmentRotation_of_parallel Q A T hdeg hd]
      have h : FVector.DotProduct T (Q.RotateVector A) = VectorDot Q A T := rfl
      rw [h]
      rw [abs_of_nonneg (not_lt.mp hd)] at hdeg
      have := one_sub_KINDA_SMALL_NUMBER_ge
      linarith
  · rw [findActorAlignmentRotation_of_nondegenerate Q A T hdeg]
    exact dotProduct_generalDelta_ge Q A T hQ hA hT hdeg

theorem sizeSquared_generalDelta (Q : FQuat) (hQ : Q.SizeSquared = 1) (A T : FVector) :
    (GeneralDelta Q A T).SizeSquared = 1 := by
  unfold GeneralDelta
  split_ifs
  · rw [FQuat.sizeSquared_mul, sizeSquared_pitchDelta, one_mul]
    apply FQuat.sizeSquared_axisAngle
    unfold WorldYawAxis
    rw [FQuat.sizeSquared_rotateVector _ _, sizeSquared_worldZ]
    rw [FQuat.sizeSquared_inverse]
    exact sizeSquared_mul_pitchDelta Q hQ A T
  · exact sizeSquared_pitchDelta Q A T

/-- Whatever the branch, the solver returns a quaternion of squared norm one. -/
theorem sizeSquared_findActorAlignmentRotation (Q : FQuat) (A T : FVector)
    (hQ : Q.SizeSquared = 1) (hA : A.SizeSquared = 1) (hT : T.SizeSquared = 1) :
    (FindActorAlignmentRotation Q A T).SizeSquared = 1 := by
  by_cases hdeg : 1 - |VectorDot Q A T| ≤ KINDA_SMALL_NUMBER
  · by_cases hd : VectorDot Q A T < 0
    · rw [findActorAlignmentRotation_of_antiparallel Q A T hdeg hd, FQuat.sizeSquared_mul, hQ,
        one_mul]
      have ht : (DestNormalModelSpace Q T).SizeSquared = 1 := by
        rw [sizeSquared_destNormalModelSpace Q hQ, hT]
      rw [vectorDot_eq Q hQ, FVector.dotProduct_comm] at hdeg hd
      exact (FQuat.findBetween_antiparallel A _ hA ht hd hdeg).1
    · rw [findActorAlignmentRotation_of_parallel Q A T hdeg hd]
      exact hQ
  · rw [findActorAlignmentRotation_of_nondegenerate Q A T hdeg, FQuat.sizeSquared_mul, hQ,
      one_mul]
    exact sizeSquared_generalDelta Q hQ A T

theorem FQuat.rotateVector_neg (Q : FQuat) (V : FVector) :
    Q.RotateVector (FVector.Neg V) = FVector.Neg (Q.RotateVector V) := by
  ext <;> simp only [FQuat.RotateVector, FVector.Neg, FVector.CrossProduct, FVector.DotProduct]
    <;> ring

theorem FQuat.sizeSquared_identity : FQuat.Identity.SizeSquared = 1 := by
  simp [FQuat.Identity, FQuat.SizeSquared]

theorem FQuat.inverse_identity : FQuat.Identity.Inverse = FQuat.Identity := by
  ext <;> simp [FQuat.Identity, FQuat.Inverse]

theorem Acos_le_Acos {x y : ℝ} (h : x ≤ y) : Acos y ≤ Acos x := by
  unfold Acos Real.arccos
  linarith [Real.monotone_arcsin h]

/-! ## Evaluation lemmas -/

theorem pitchDelta_of_pitch_eq_zero (Q : FQuat) (A T : FVector) (hP : Pitch Q A T = 0) :
    PitchDelta Q A T = FQuat.Identity := by
  unfold PitchDelta
  rw [hP]
  have h : ∀ K : FVector, FQuat.AxisAngle K 0 = FQuat.Identity := by
    intro K
    ext <;> simp [FQuat.AxisAngle, FQuat.Identity]
  rw [h, FQuat.normalize_of_sizeSquared _ FQuat.sizeSquared_identity]

/-- When the pitch angle is zero and the transformed model axis is within the parallel
threshold of the world normal, the general branch returns the actor rotation. -/
theorem findActorAlignmentRotation_of_pitch_eq_zero (Q : FQuat) (A T : FVector)
    (hnd : ¬ (1 - |VectorDot Q A T| ≤ KINDA_SMALL_NUMBER)) (hP : Pitch Q A T = 0)
    (hdot : ParallelDotThreshold ≤ FVector.DotProduct T (Q.RotateVector A)) :
    FindActorAlignmentRotation Q A T = Q := by
  have hD := pitchDelta_of_pitch_eq_zero Q A T hP
  have hPm : PitchedModelAxis Q A T = Q.RotateVector A := by
    unfold PitchedModelAxis
    rw [hD, FQuat.mul_identity]
  have hy : YawApplied Q A T = false := by
    rw [yawApplied_eq_false_iff, hPm]; exact hdot
  rw [findActorAlignmentRotation_of_nondegenerate Q A T hnd,
    mul_generalDelta_of_not_yawApplied Q A T hy, hD, FQuat.mul_identity]

/-- When the model-space target is substituted as the pitch reference axis, the returned
rotation carries the model axis onto the world normal. -/
theorem rotateVector_findActorAlignmentRotation_of_substituted (Q : FQuat) (A T : FVector)
    (hQ : Q.SizeSquared = 1) (hA : A.SizeSquared = 1) (hT : T.SizeSquared = 1)
    (hnd : ¬ (1 - |VectorDot Q A T| ≤ KINDA_SMALL_NUMBER))
    (hsub : |FVector.DotProduct A (Q.Inverse.RotateVector WorldZ)| > 0.7) :
    (FindActorAlignmentRotation Q A T).RotateVector A = T := by
  rw [findActorAlignmentRotation_of_nondegenerate Q A T hnd]
  rcases rotateVector_generalDelta Q A T hQ hA hT hnd with h | ⟨_, h2, _⟩
  · exact h
  · rw [h2]
    exact pitchedModelAxis_of_substituted Q A T hQ hA hT hnd hsub

/-- The outcome of the solver: either the rotated model axis is within
`KINDA_SMALL_NUMBER` (in cosine) of the world normal, or the general branch ran with world up
as the reference axis and skipped the yaw step. -/
theorem findActorAlignmentRotation_outcome (Q : FQuat) (A T : FVector)
    (hQ : Q.SizeSquared = 1) (hA : A.SizeSquared = 1) (hT : T.SizeSquared = 1) :
    1 - KINDA_SMALL_NUMBER
        ≤ FVector.DotProduct T ((FindActorAlignmentRotation Q A T).RotateVector A)
      ∨ (¬ (|FVector.DotProduct A (Q.Inverse.RotateVector WorldZ)| > 0.7)
          ∧ YawApplied Q A T = false
          ∧ FindActorAlignmentRotation Q A T = FQuat.Mul Q (PitchDelta Q A T)) := by
  have hone : 1 - KINDA_SMALL_NUMBER ≤ FVector.DotProduct T T := by
    rw [FVector.dotProduct_self, hT, KINDA_SMALL_NUMBER_eq]; norm_num
  by_cases hdeg : 1 - |VectorDot Q A T| ≤ KINDA_SMALL_NUMBER
  · left
    by_cases hd : VectorDot Q A T < 0
    · rw [findActorAlignmentRotation_of_antiparallel Q A T hdeg hd, FQuat.rotateVector_mul,
        ← FQuat.dotProduct_inverse_rotateVector Q hQ]
      have ht : (DestNormalModelSpace Q T).SizeSquared = 1 := by
        rw [sizeSquared_destNormalModelSpace Q hQ, hT]
      rw [vectorDot_eq Q hQ, FVector.dotProduct_comm] at hdeg hd
      exact (FQuat.findBetween_antiparallel A _ hA ht hd hdeg).2
    · rw [findActorAlignmentRotation_of_parallel Q A T hdeg hd]
      have h : FVector.DotProduct T (Q.RotateVector A) = VectorDot Q A T := rfl
      rw [h]
      rw [abs_of_nonneg (not_lt.mp hd)] at hdeg
      linarith
  · by_cases hsub : |FVector.DotProduct A (Q.Inverse.RotateVector WorldZ)| > 0.7
    · left
      rw [rotateVector_findActorAlignmentRotation_of_substituted Q A T hQ hA hT hdeg hsub]
      exact hone
    · rw [findActorAlignmentRotation_of_nondegenerate Q A T hdeg]
      cases hy : YawApplied Q A T
      · right
        exact ⟨hsub, rfl, mul_generalDelta_of_not_yawApplied Q A T hy⟩
      · left
        rw [rotateVector_generalDelta_of_up_of_yaw Q A T hQ hA hT hsub hy]
        exact hone

theorem FQuat.identity_mul (Q : FQuat) : FQuat.Mul FQuat.Identity Q = Q := by
  ext <;> simp [FQuat.Mul, FQuat.Identity]

theorem destNormalModelSpace_identity (T : FVector) :
    DestNormalModelSpace FQuat.Identity T = T := by
  unfold DestNormalModelSpace
  rw [FQuat.inverse_identity, FQuat.rotateVector_identity]

theorem vectorDot_identity (A T : FVector) :
    VectorDot FQuat.Identity A T = FVector.DotProduct T A := by
  unfold VectorDot
  rw [FQuat.rotateVector_identity]

theorem pitchReferenceAxis_identity_of_up (A T : FVector) (h : ¬ (|A.Z| > 0.7)) :
    PitchReferenceAxis FQuat.Identity A T = WorldZ := by
  unfold PitchReferenceAxis
  simp only
  rw [FQuat.inverse_identity, FQuat.rotateVector_identity, if_neg]
  simpa [WorldZ, FVector.DotProduct] using h

theorem pitch_identity_of_up (A T : FVector) (h : ¬ (|A.Z| > 0.7)) :
    Pitch FQuat.Identity A T = Acos T.Z - Acos A.Z := by
  unfold Pitch
  rw [pitchReferenceAxis_identity_of_up A T h, destNormalModelSpace_identity]
  simp [WorldZ, FVector.DotProduct]

/-- Turning a vector about a unit axis keeps its component along the axis. -/
theorem FQuat.dotProduct_rotateVector_axisAngle (K : FVector) (hK : K.SizeSquared = 1)
    (Angle : ℝ) (V : FVector) :
    FVector.DotProduct ((FQuat.AxisAngle K Angle).RotateVector V) K
      = FVector.DotProduct V K := by
  rw [FQuat.rotateVector_axisAngle K hK]
  simp only [FVector.SizeSquared] at hK
  simp only [FVector.DotProduct, FVector.CrossProduct]
  linear_combination ((1 - Real.cos Angle) * (K.X * V.X + K.Y * V.Y + K.Z * V.Z)) * hK

/-- With the identity actor rotation, a horizontal model axis and a horizontal world normal
within the parallel threshold of each other, the solver returns the identity. -/
theorem findActorAlignmentRotation_identity_of_horizontal (A T : FVector) (hA : A.Z = 0)
    (hT : T.Z = 0) (hnd : ¬ (1 - |FVector.DotProduct T A| ≤ KINDA_SMALL_NUMBER))
    (hdot : ParallelDotThreshold ≤ FVector.DotProduct T A) :
    FindActorAlignmentRotation FQuat.Identity A T = FQuat.Identity := by
  have hup : ¬ (|A.Z| > 0.7) := by rw [hA]; norm_num
  apply findActorAlignmentRotation_of_pitch_eq_zero
  · rw [vectorDot_identity]; exact hnd
  · rw [pitch_identity_of_up A T hup, hA, hT, sub_self]
  · rw [FQuat.rotateVector_identity]; exact hdot

/-- An angle whose cosine is `99/101` exceeds a thousandth of a radian. -/
theorem not_Acos_le_thousandth : ¬ (Acos (99 / 101) ≤ 1e-3) := by
  intro h
  have h0 := Real.arccos_nonneg (99 / 101)
  have hpi : (1e-3 : ℝ) ≤ Real.pi := by
    have := Real.pi_gt_three
    norm_num
    linarith
  have hc := Real.cos_le_cos_of_nonneg_of_le_pi h0 hpi h
  rw [Real.cos_arccos (by norm_num) (by norm_num)] at hc
  have hb := Real.one_sub_sq_div_two_le_cos (x := (1e-3 : ℝ))
  norm_num at hb hc
  linarith

/-- The pitched model axis when the pitch angle is zero. -/
theorem pitchedModelAxis_of_pitch_eq_zero (Q : FQuat) (A T : FVector) (hP : Pitch Q A T = 0) :
    PitchedModelAxis Q A T = Q.RotateVector A := by
  unfold PitchedModelAxis
  rw [pitchDelta_of_pitch_eq_zero Q A T hP, FQuat.mul_identity]

theorem yawApplied_eq_true_iff (Q : FQuat) (A T : FVector) :
    YawApplied Q A T = true
      ↔ FVector.DotProduct T (PitchedModelAxis Q A T) < ParallelDotThreshold := by
  unfold YawApplied FVector.Coincident
  simp

theorem pitch_identity_horizontal (A T : FVector) (hA : A.Z = 0) (hT : T.Z = 0) :
    Pitch FQuat.Identity A T = 0 := by
  have hup : ¬ (|A.Z| > 0.7) := by rw [hA]; norm_num
  rw [pitch_identity_of_up A T hup, hA, hT, sub_self]

/-! ## The asset gates -/

theorem UClass.isChildOf_self (C : UClass) : C.IsChildOf C = true := by
  cases C <;> simp [UClass.IsChildOf]

/-- A class that derives from `UDestructibleMesh` derives from `USkeletalMesh`. -/
theorem UClass.isChildOf_skeletalMesh_of_destructibleMesh (C : UClass)
    (h : C.IsChildOf UDestructibleMesh.StaticClass = true) :
    C.IsChildOf USkeletalMesh.StaticClass = true := by
  induction C with
  | root Name =>
    simp [UClass.IsChildOf, UDestructibleMesh.StaticClass] at h
  | sub Name Super ih =>
    simp only [UClass.IsChildOf, Bool.or_eq_true, decide_eq_true_eq] at h ⊢
    rcases h with h | h
    · right
      simp only [UDestructibleMesh.StaticClass, UClass.sub.injEq] at h
      rw [h.2]
      exact UClass.isChildOf_self _
    · right
      exact ih h

/-- A second call of `GetDefaultActor` gives the actor of the first. -/
theorem UActorFactory.getDefaultActor_again (StaticLoadObject : String → Option UActorClass)
    (self : UActorFactoryActorClass) (AssetData : FAssetData) :
    (UActorFactory.GetDefaultActor StaticLoadObject
        (UActorFactory.GetDefaultActor StaticLoadObject self AssetData).2 AssetData).1
      = (UActorFactory.GetDefaultActor StaticLoadObject self AssetData).1 := by
  unfold UActorFactory.GetDefaultActor
  by_cases h : (self.NewActorClassName != "") = true
  · simp [h]
  · simp [h]

/-- The base gate when the factory has a default actor. -/
theorem UActorFactory.canCreateActorFrom_of_defaultActor
    (StaticLoadObject : String → Option UActorClass) (self : UActorFactoryActorClass)
    (AssetData : FAssetData) (OutErrorMsg : FText) (Actor : AActor)
    (h : (UActorFactory.GetDefaultActor StaticLoadObject self AssetData).1 = some Actor) :
    UActorFactory.CanCreateActorFrom StaticLoadObject self AssetData OutErrorMsg
      = some (!AssetData.IsValid || AssetData.ObjectPath == Actor.PathName
          || AssetData.ObjectPath == Actor.Class.PathName, OutErrorMsg) := by
  have h2 := UActorFactory.getDefaultActor_again StaticLoadObject self AssetData
  rw [h] at h2
  unfold UActorFactory.CanCreateActorFrom
  cases hv : AssetData.IsValid
  · simp
  · generalize UActorFactory.GetDefaultActor StaticLoadObject self AssetData = r at h h2
    obtain ⟨a, s1⟩ := r
    simp only at h h2
    subst h
    by_cases hp : (AssetData.ObjectPath == Actor.PathName) = true
    · simp [hp]
    · simp only [Bool.not_true, Bool.false_or, hp, if_false]
      generalize UActorFactory.GetDefaultActor StaticLoadObject s1 AssetData = r2 at h2 ⊢
      obtain ⟨a2, s2⟩ := r2
      simp only at h2
      subst h2
      simp [hp]

/-- The base gate dereferences `NULL` exactly on valid asset data without a default actor. -/
theorem UActorFactory.canCreateActorFrom_of_no_defaultActor
    (StaticLoadObject : String → Option UActorClass) (self : UActorFactoryActorClass)
    (AssetData : FAssetData) (OutErrorMsg : FText)
    (h : (UActorFactory.GetDefaultActor StaticLoadObject self AssetData).1 = none) :
    UActorFactory.CanCreateActorFrom StaticLoadObject self AssetData OutErrorMsg
      = if AssetData.IsValid then none else some (true, OutErrorMsg) := by
  unfold UActorFactory.CanCreateActorFrom
  cases hv : AssetData.IsValid
  · simp
  · generalize UActorFactory.GetDefaultActor StaticLoadObject self AssetData = r at h
    obtain ⟨a, s1⟩ := r
    simp only at h
    subst h
    simp

/-- The base gate accepts asset data that is not valid. -/
theorem UActorFactory.canCreateActorFrom_of_not_isValid
    (StaticLoadObject : String → Option UActorClass) (self : UActorFactoryActorClass)
    (AssetData : FAssetData) (OutErrorMsg : FText) (h : AssetData.IsValid = false) :
    UActorFactory.CanCreateActorFrom StaticLoadObject self AssetData OutErrorMsg
      = some (true, OutErrorMsg) := by
  unfold UActorFactory.CanCreateActorFrom
  simp [h]

/-- The loop of the deferred-decal gate, started `Lookups` rounds before the bound on an
asset from which the first material is `Lookups` lookups away, exits on that material. -/
theorem UActorFactoryDeferredDecal.parentLoop_of_firstMaterialAfter
    (GetAssetByObjectPath : FName → FAssetData) (Lookups : Nat) :
    ∀ (SanityCheck : Nat) (Current Material : FAssetData),
      SanityCheck + Lookups < 1000 →
      FirstMaterialAfter GetAssetByObjectPath Lookups Current = some Material →
      UActorFactoryDeferredDecal.ParentLoop GetAssetByObjectPath SanityCheck Current
        = some (SanityCheck + Lookups, Material) := by
  induction Lookups with
  | zero =>
    intro s C M _ h
    simp only [FirstMaterialAfter] at h
    split at h
    · rename_i hm
      simp only [Option.some.injEq] at h
      subst h
      rw [UActorFactoryDeferredDecal.ParentLoop]
      simp [hm]
    · exact absurd h (by simp)
  | succ k ih =>
    intro s C M hs h
    simp only [FirstMaterialAfter] at h
    split at h
    · exact absurd h (by simp)
    · rename_i hm
      rw [UActorFactoryDeferredDecal.ParentLoop]
      have hlt : s < 1000 := by omega
      simp only [hlt, hm, true_and, not_false_eq_true, if_true]
      unfold ParentAsset at h
      cases hp : List.lookup "Parent" C.TagsAndValues with
      | none => rw [hp] at h; exact absurd h (by simp)
      | some ObjectPath =>
        rw [hp] at h
        simp only at h ⊢
        cases hv : (GetAssetByObjectPath ObjectPath).IsValid
        · rw [hv] at h; exact absurd h (by simp)
        · rw [hv] at h
          simp only [if_true] at h
          have := ih (s + 1) (GetAssetByObjectPath ObjectPath) M (by omega) h
          simp only [Bool.not_true, Bool.false_eq_true, if_false]
          have e : s + 1 + k = s + (k + 1) := by omega
          rw [this, e]
          simp

/-- When the loop of the deferred-decal gate exits below the bound, the asset it exits on is
the first material, as many lookups away as the counter advanced. -/
theorem UActorFactoryDeferredDecal.firstMaterialAfter_of_parentLoop
    (GetAssetByObjectPath : FName → FAssetData) (Remaining : Nat) :
    ∀ (SanityCheck : Nat) (Current : FAssetData) (Exit : Nat) (Material : FAssetData),
      1000 - SanityCheck = Remaining →
      UActorFactoryDeferredDecal.ParentLoop GetAssetByObjectPath SanityCheck Current
        = some (Exit, Material) →
      Exit < 1000 →
      ∃ Lookups : Nat, Exit = SanityCheck + Lookups
        ∧ FirstMaterialAfter GetAssetByObjectPath Lookups Current = some Material := by
  induction Remaining with
  | zero =>
    intro s C e M hn h he
    rw [UActorFactoryDeferredDecal.ParentLoop] at h
    have hs : ¬ (s < 1000) := by omega
    simp only [hs, false_and, if_false, Option.some.injEq, Prod.mk.injEq] at h
    omega
  | succ n ih =>
    intro s C e M hn h he
    rw [UActorFactoryDeferredDecal.ParentLoop] at h
    split at h
    · rename_i hc
      cases hp : List.lookup "Parent" C.TagsAndValues with
      | none => rw [hp] at h; exact absurd h (by simp)
      | some ObjectPath =>
        rw [hp] at h
        simp only at h
        cases hv : (GetAssetByObjectPath ObjectPath).IsValid
        · rw [hv] at h; exact absurd h (by simp)
        · rw [hv] at h
          simp only [Bool.not_true, Bool.false_eq_true, if_false] at h
          obtain ⟨k, hk1, hk2⟩ := ih (s + 1) (GetAssetByObjectPath ObjectPath) e M
            (by omega) h he
          refine ⟨k + 1, by omega, ?_⟩
          simp only [FirstMaterialAfter, ParentAsset, hp, hv, if_true]
          rw [if_neg hc.2]
          exact hk2
    · rename_i hc
      simp only [Option.some.injEq, Prod.mk.injEq] at h
      obtain ⟨h1, h2⟩ := h
      subst h1 h2
      refine ⟨0, by omega, ?_⟩
      have hm : C.GetClass.IsChildOf UMaterial.StaticClass = true := by
        by_contra hm
        exact hc ⟨he, hm⟩
      simp [FirstMaterialAfter, hm]

theorem firstMaterialAfter_isChildOf (GetAssetByObjectPath : FName → FAssetData)
    (Lookups : Nat) :
    ∀ (Current Material : FAssetData),
      FirstMaterialAfter GetAssetByObjectPath Lookups Current = some Material →
      Material.GetClass.IsChildOf UMaterial.StaticClass = true := by
  induction Lookups with
  | zero =>
    intro C M h
    simp only [FirstMaterialAfter] at h
    split at h
    · rename_i hm
      simp only [Option.some.injEq] at h
      subst h
      exact hm
    · exact absurd h (by simp)
  | succ k ih =>
    intro C M h
    simp only [FirstMaterialAfter] at h
    split at h
    · exact absurd h (by simp)
    · cases hp : ParentAsset GetAssetByObjectPath C with
      | none => rw [hp] at h; exact absurd h (by simp)
      | some P => rw [hp] at h; exact ih P M h

/-! ## The claims -/

/-- C1 fails as stated: for the identity actor rotation, the model axis `(1, 0, 0)` and the
world normal `(99/101, 20/101, 0)` the inputs are unit and outside the degenerate case, yet
the angle between the rotated model axis and the world normal exceeds `1e-3`. -/
theorem C1_counterexample :
    FQuat.Size FQuat.Identity = 1 ∧ FVector.Size ⟨1, 0, 0⟩ = 1
      ∧ FVector.Size ⟨99 / 101, 20 / 101, 0⟩ = 1
      ∧ 1 - |FVector.DotProduct ⟨99 / 101, 20 / 101, 0⟩
              (FQuat.Identity.RotateVector ⟨1, 0, 0⟩)| > KINDA_SMALL_NUMBER
      ∧ ¬ (Acos (FVector.DotProduct ⟨99 / 101, 20 / 101, 0⟩
              ((FindActorAlignmentRotation FQuat.Identity ⟨1, 0, 0⟩
                ⟨99 / 101, 20 / 101, 0⟩).RotateVector ⟨1, 0, 0⟩)) ≤ 1e-3) := by
  have hnd : ¬ (1 - |FVector.DotProduct ⟨99 / 101, 20 / 101, 0⟩ ⟨1, 0, 0⟩|
      ≤ KINDA_SMALL_NUMBER) := by
    rw [KINDA_SMALL_NUMBER_eq]
    norm_num [FVector.DotProduct, abs_of_pos]
  have hF := findActorAlignmentRotation_identity_of_horizontal ⟨1, 0, 0⟩
    ⟨99 / 101, 20 / 101, 0⟩ rfl rfl hnd
    (by unfold ParallelDotThreshold; norm_num [FVector.DotProduct])
  refine ⟨by simp [FQuat.Size, FQuat.Identity], by simp [FVector.Size], ?_, ?_, ?_⟩
  · rw [FVector.size_eq_one_iff_sizeSquared]; norm_num [FVector.SizeSquared]
  · rw [FQuat.rotateVector_identity]; exact not_le.mp hnd
  · rw [hF, FQuat.rotateVector_identity]
    have e : FVector.DotProduct ⟨99 / 101, 20 / 101, 0⟩ ⟨1, 0, 0⟩ = 99 / 101 := by
      norm_num [FVector.DotProduct]
    rw [e]
    exact not_Acos_le_thousandth

/-- C1 (general alignment), as amended: for a unit actor rotation, a unit model axis and a
unit world normal outside the degenerate case, the model axis rotated by the result of
`FindActorAlignmentRotation` makes with the world normal an angle of at most `acos 0.98`,
the threshold under which the yaw step is skipped; when the yaw step runs the rotated model
axis is the world normal. -/
theorem C1_general_alignment_within_threshold (Q : FQuat) (A T : FVector) (hQ : Q.Size = 1)
    (hA : A.Size = 1) (hT : T.Size = 1)
    (hnd : 1 - |FVector.DotProduct T (Q.RotateVector A)| > KINDA_SMALL_NUMBER) :
    Acos (FVector.DotProduct T ((FindActorAlignmentRotation Q A T).RotateVector A))
        ≤ Acos ParallelDotThreshold
      ∧ (YawApplied Q A T = true
          → (FindActorAlignmentRotation Q A T).RotateVector A = T) := by
  rw [FQuat.size_eq_one_iff] at hQ
  rw [FVector.size_eq_one_iff_sizeSquared] at hA hT
  have hnd' : ¬ (1 - |VectorDot Q A T| ≤ KINDA_SMALL_NUMBER) := not_le.mpr hnd
  refine ⟨Acos_le_Acos (dotProduct_findActorAlignmentRotation_ge Q A T hQ hA hT), ?_⟩
  intro hyaw
  rw [findActorAlignmentRotation_of_nondegenerate Q A T hnd']
  rcases rotateVector_generalDelta Q A T hQ hA hT hnd' with h | ⟨h1, _, _⟩
  · exact h
  · rw [hyaw] at h1
    exact absurd h1 (by simp)

/-- Witness of C1: the identity rotation, the X axis as model axis and the Z axis as world
normal. -/
theorem C1_general_alignment_within_threshold_witness :
    FQuat.Size FQuat.Identity = 1 ∧ FVector.Size ⟨1, 0, 0⟩ = 1 ∧ FVector.Size ⟨0, 0, 1⟩ = 1
      ∧ 1 - |FVector.DotProduct ⟨0, 0, 1⟩ (FQuat.Identity.RotateVector ⟨1, 0, 0⟩)|
          > KINDA_SMALL_NUMBER
      ∧ (Acos (FVector.DotProduct ⟨0, 0, 1⟩
            ((FindActorAlignmentRotation FQuat.Identity ⟨1, 0, 0⟩ ⟨0, 0, 1⟩).RotateVector
              ⟨1, 0, 0⟩))
          ≤ Acos ParallelDotThreshold
        ∧ (YawApplied FQuat.Identity ⟨1, 0, 0⟩ ⟨0, 0, 1⟩ = true
          → (FindActorAlignmentRotation FQuat.Identity ⟨1, 0, 0⟩ ⟨0, 0, 1⟩).RotateVector
              ⟨1, 0, 0⟩ = ⟨0, 0, 1⟩)) :=
  have hnd : 1 - |FVector.DotProduct ⟨0, 0, 1⟩ (FQuat.Identity.RotateVector ⟨1, 0, 0⟩)|
      > KINDA_SMALL_NUMBER := by
    rw [FQuat.rotateVector_identity, KINDA_SMALL_NUMBER_eq]
    norm_num [FVector.DotProduct]
  ⟨by simp [FQuat.Size, FQuat.Identity], by simp [FVector.Size], by simp [FVector.Size], hnd,
    C1_general_alignment_within_threshold FQuat.Identity ⟨1, 0, 0⟩ ⟨0, 0, 1⟩
      (by simp [FQuat.Size, FQuat.Identity]) (by simp [FVector.Size]) (by simp [FVector.Size])
      hnd⟩

/-- C2 (parallel identity): when the unit world normal and the transformed model axis have
a dot product of at least `1 - KINDA_SMALL_NUMBER`, and in particular when the actor rotation
already carries the model axis onto the world normal, `FindActorAlignmentRotation` returns
the actor rotation itself. -/
theorem C2_parallel_identity (Q : FQuat) (A T : FVector) (hT : T.Size = 1)
    (h : 1 - KINDA_SMALL_NUMBER ≤ FVector.DotProduct T (Q.RotateVector A)
      ∨ Q.RotateVector A = T) :
    FindActorAlignmentRotation Q A T = Q := by
  have main : 1 - KINDA_SMALL_NUMBER ≤ FVector.DotProduct T (Q.RotateVector A)
      → FindActorAlignmentRotation Q A T = Q := by
    intro h
    have hv : VectorDot Q A T = FVector.DotProduct T (Q.RotateVector A) := rfl
    have hk := KINDA_SMALL_NUMBER_eq
    have hpos : 0 ≤ VectorDot Q A T := by rw [hv]; linarith
    apply findActorAlignmentRotation_of_parallel
    · rw [abs_of_nonneg hpos, hv]; linarith
    · exact not_lt.mpr hpos
  rcases h with h | h
  · exact main h
  · apply main
    rw [h, FVector.dotProduct_self, (FVector.size_eq_one_iff_sizeSquared T).mp hT]
    rw [KINDA_SMALL_NUMBER_eq]; norm_num

/-- Witness of C2: the identity rotation, the X axis as model axis and as world normal. -/
theorem C2_parallel_identity_witness :
    FVector.Size ⟨1, 0, 0⟩ = 1
      ∧ FQuat.Identity.RotateVector ⟨1, 0, 0⟩ = (⟨1, 0, 0⟩ : FVector)
      ∧ FindActorAlignmentRotation FQuat.Identity ⟨1, 0, 0⟩ ⟨1, 0, 0⟩ = FQuat.Identity :=
  ⟨by simp [FVector.Size], FQuat.rotateVector_identity _,
    C2_parallel_identity FQuat.Identity ⟨1, 0, 0⟩ ⟨1, 0, 0⟩ (by simp [FVector.Size])
      (Or.inr (FQuat.rotateVector_identity _))⟩

/-- C3 (anti-parallel case): for a unit actor rotation `Q` and a unit model axis `A`, with
the world normal `T = -(Q rotates A)`, `FindActorAlignmentRotation` returns `Q` composed
with `FindBetween(A, Q⁻¹ rotates T)`, and the returned rotation carries `A` exactly onto
`T`. -/
theorem C3_antiparallel (Q : FQuat) (A : FVector) (hQ : Q.Size = 1) (hA : A.Size = 1) :
    FindActorAlignmentRotation Q A (FVector.Neg (Q.RotateVector A))
        = FQuat.Mul Q (FQuat.FindBetween A
            (Q.Inverse.RotateVector (FVector.Neg (Q.RotateVector A))))
      ∧ (FindActorAlignmentRotation Q A (FVector.Neg (Q.RotateVector A))).RotateVector A
        = FVector.Neg (Q.RotateVector A) := by
  rw [FQuat.size_eq_one_iff] at hQ
  rw [FVector.size_eq_one_iff_sizeSquared] at hA
  have hQA : (Q.RotateVector A).SizeSquared = 1 := by
    rw [FQuat.sizeSquared_rotateVector Q hQ, hA]
  have hv : VectorDot Q A (FVector.Neg (Q.RotateVector A)) = -1 := by
    simp only [FVector.SizeSquared] at hQA
    simp only [VectorDot, FVector.DotProduct, FVector.Neg]
    linear_combination (-1 : ℝ) * hQA
  have hdeg : 1 - |VectorDot Q A (FVector.Neg (Q.RotateVector A))| ≤ KINDA_SMALL_NUMBER := by
    rw [hv, KINDA_SMALL_NUMBER_eq]; norm_num
  have hd : VectorDot Q A (FVector.Neg (Q.RotateVector A)) < 0 := by rw [hv]; norm_num
  have hF := findActorAlignmentRotation_of_antiparallel Q A _ hdeg hd
  have ht : Q.Inverse.RotateVector (FVector.Neg (Q.RotateVector A)) = FVector.Neg A := by
    rw [FQuat.rotateVector_neg, FQuat.inverse_rotateVector_rotateVector Q hQ]
  refine ⟨hF, ?_⟩
  rw [hF, FQuat.rotateVector_mul]
  unfold DestNormalModelSpace
  rw [ht, FQuat.rotateVector_findBetween_neg A hA, FQuat.rotateVector_neg]

/-- Witness of C3: the identity rotation and the X axis. -/
theorem C3_antiparallel_witness :
    FQuat.Size FQuat.Identity = 1 ∧ FVector.Size ⟨1, 0, 0⟩ = 1
      ∧ (FindActorAlignmentRotation FQuat.Identity ⟨1, 0, 0⟩
            (FVector.Neg (FQuat.Identity.RotateVector ⟨1, 0, 0⟩))
          = FQuat.Mul FQuat.Identity (FQuat.FindBetween ⟨1, 0, 0⟩
              (FQuat.Identity.Inverse.RotateVector
                (FVector.Neg (FQuat.Identity.RotateVector ⟨1, 0, 0⟩))))
        ∧ (FindActorAlignmentRotation FQuat.Identity ⟨1, 0, 0⟩
              (FVector.Neg (FQuat.Identity.RotateVector ⟨1, 0, 0⟩))).RotateVector ⟨1, 0, 0⟩
          = FVector.Neg (FQuat.Identity.RotateVector ⟨1, 0, 0⟩)) :=
  ⟨by simp [FQuat.Size, FQuat.Identity], by simp [FVector.Size],
    C3_antiparallel FQuat.Identity ⟨1, 0, 0⟩ (by simp [FQuat.Size, FQuat.Identity])
      (by simp [FVector.Size])⟩

/-- C4 fails as stated: for the identity actor rotation, the model axis `(1, 0, 0)` and the
unit world normal `(21/37, 36/185, 4/5)` the first application stops after the pitch step,
with the model axis at `(3/5, 0, 4/5)`; the second application substitutes the target as
reference axis and moves the model axis onto the normal, so it returns another rotation. -/
theorem C4_counterexample :
    FQuat.Size FQuat.Identity = 1 ∧ FVector.Size ⟨1, 0, 0⟩ = 1
      ∧ FVector.Size ⟨21 / 37, 36 / 185, 4 / 5⟩ = 1
      ∧ FindActorAlignmentRotation
            (FindActorAlignmentRotation FQuat.Identity ⟨1, 0, 0⟩ ⟨21 / 37, 36 / 185, 4 / 5⟩)
            ⟨1, 0, 0⟩ ⟨21 / 37, 36 / 185, 4 / 5⟩
          ≠ FindActorAlignmentRotation FQuat.Identity ⟨1, 0, 0⟩ ⟨21 / 37, 36 / 185, 4 / 5⟩ := by
  have hQ : FQuat.Identity.SizeSquared = 1 := FQuat.sizeSquared_identity
  have hA : (⟨1, 0, 0⟩ : FVector).SizeSquared = 1 := by norm_num [FVector.SizeSquared]
  have hT : (⟨21 / 37, 36 / 185, 4 / 5⟩ : FVector).SizeSquared = 1 := by
    norm_num [FVector.SizeSquared]
  have hup : ¬ (|(⟨1, 0, 0⟩ : FVector).Z| > 0.7) := by norm_num
  have hnd : ¬ (1 - |VectorDot FQuat.Identity ⟨1, 0, 0⟩ ⟨21 / 37, 36 / 185, 4 / 5⟩|
      ≤ KINDA_SMALL_NUMBER) := by
    rw [vectorDot_identity, KINDA_SMALL_NUMBER_eq]
    norm_num [FVector.DotProduct, abs_of_pos]
  have hsq : Real.sqrt (1 - (4 / 5 : ℝ) ^ 2) = 3 / 5 := by
    have e : (1 - (4 / 5 : ℝ) ^ 2) = (3 / 5) ^ 2 := by norm_num
    rw [e, Real.sqrt_sq (by norm_num)]
  have hcos : Real.cos (Pitch FQuat.Identity ⟨1, 0, 0⟩ ⟨21 / 37, 36 / 185, 4 / 5⟩) = 3 / 5 := by
    rw [pitch_identity_of_up _ _ hup]
    simp only [Acos, Real.arccos_zero, Real.cos_sub_pi_div_two, Real.sin_arccos]
    exact hsq
  have hsin : Real.sin (Pitch FQuat.Identity ⟨1, 0, 0⟩ ⟨21 / 37, 36 / 185, 4 / 5⟩)
      = -(4 / 5) := by
    rw [pitch_identity_of_up _ _ hup]
    simp only [Acos, Real.arccos_zero, Real.sin_sub_pi_div_two]
    rw [Real.cos_arccos (by norm_num) (by norm_num)]
  have hP : PitchedModelAxis FQuat.Identity ⟨1, 0, 0⟩ ⟨21 / 37, 36 / 185, 4 / 5⟩
      = ⟨3 / 5, 0, 4 / 5⟩ := by
    unfold PitchedModelAxis
    rw [FQuat.rotateVector_mul, FQuat.rotateVector_identity]
    unfold PitchDelta OrthoPitchAxis
    rw [pitchReferenceAxis_identity_of_up _ _ hup,
      rotateVector_pitch WorldZ _ sizeSquared_worldZ hA
        (by rw [SMALL_NUMBER_eq]; norm_num [WorldZ, FVector.DotProduct]),
      hcos, hsin]
    ext <;> norm_num [WorldZ, FVector.DotProduct]
  have hy : YawApplied FQuat.Identity ⟨1, 0, 0⟩ ⟨21 / 37, 36 / 185, 4 / 5⟩ = false := by
    rw [yawApplied_eq_false_iff, hP]
    unfold ParallelDotThreshold
    norm_num [FVector.DotProduct]
  have hF : FindActorAlignmentRotation FQuat.Identity ⟨1, 0, 0⟩ ⟨21 / 37, 36 / 185, 4 / 5⟩
      = FQuat.Mul FQuat.Identity
          (PitchDelta FQuat.Identity ⟨1, 0, 0⟩ ⟨21 / 37, 36 / 185, 4 / 5⟩) := by
    rw [findActorAlignmentRotation_of_nondegenerate _ _ _ hnd,
      mul_generalDelta_of_not_yawApplied _ _ _ hy]
  have hRA : (FindActorAlignmentRotation FQuat.Identity ⟨1, 0, 0⟩
      ⟨21 / 37, 36 / 185, 4 / 5⟩).RotateVector ⟨1, 0, 0⟩ = ⟨3 / 5, 0, 4 / 5⟩ := by
    rw [hF]; exact hP
  have hR := sizeSquared_findActorAlignmentRotation FQuat.Identity ⟨1, 0, 0⟩
    ⟨21 / 37, 36 / 185, 4 / 5⟩ hQ hA hT
  have hnd2 : ¬ (1 - |VectorDot (FindActorAlignmentRotation FQuat.Identity ⟨1, 0, 0⟩
      ⟨21 / 37, 36 / 185, 4 / 5⟩) ⟨1, 0, 0⟩ ⟨21 / 37, 36 / 185, 4 / 5⟩|
      ≤ KINDA_SMALL_NUMBER) := by
    unfold VectorDot
    rw [hRA, KINDA_SMALL_NUMBER_eq]
    norm_num [FVector.DotProduct, abs_of_pos]
  have hsub : |FVector.DotProduct ⟨1, 0, 0⟩
      ((FindActorAlignmentRotation FQuat.Identity ⟨1, 0, 0⟩
        ⟨21 / 37, 36 / 185, 4 / 5⟩).Inverse.RotateVector WorldZ)| > 0.7 := by
    rw [FVector.dotProduct_comm, FQuat.dotProduct_inverse_rotateVector _ hR, hRA]
    norm_num [WorldZ, FVector.DotProduct, abs_of_pos]
  have hexact := rotateVector_findActorAlignmentRotation_of_substituted _ ⟨1, 0, 0⟩
    ⟨21 / 37, 36 / 185, 4 / 5⟩ hR hA hT hnd2 hsub
  refine ⟨by simp [FQuat.Size, FQuat.Identity], by simp [FVector.Size], ?_, ?_⟩
  · rw [FVector.size_eq_one_iff_sizeSquared]; exact hT
  · intro h
    rw [h, hRA] at hexact
    have h3 := congrArg FVector.Y hexact
    norm_num at h3

/-- C4 (idempotence), as amended: for a unit actor rotation, a unit model axis and a unit
world normal, applying the solver to its own output with the same axis and normal returns
that output unchanged whenever the first application reached the normal (the rotated model
axis has a dot product of at least `1 - KINDA_SMALL_NUMBER` with it, in particular equals
it) or the height of the normal satisfies `|T.Z| ≤ 0.7`. -/
theorem C4_idempotence_when_reached (Q : FQuat) (A T : FVector) (hQ : Q.Size = 1)
    (hA : A.Size = 1) (hT : T.Size = 1)
    (h : 1 - KINDA_SMALL_NUMBER
          ≤ FVector.DotProduct T ((FindActorAlignmentRotation Q A T).RotateVector A)
        ∨ |T.Z| ≤ 0.7) :
    FindActorAlignmentRotation (FindActorAlignmentRotation Q A T) A T
      = FindActorAlignmentRotation Q A T := by
  rw [FQuat.size_eq_one_iff] at hQ
  rw [FVector.size_eq_one_iff_sizeSquared] at hA hT
  have reached : 1 - KINDA_SMALL_NUMBER
      ≤ FVector.DotProduct T ((FindActorAlignmentRotation Q A T).RotateVector A)
      → FindActorAlignmentRotation (FindActorAlignmentRotation Q A T) A T
        = FindActorAlignmentRotation Q A T := by
    intro h1
    have hv : VectorDot (FindActorAlignmentRotation Q A T) A T
        = FVector.DotProduct T ((FindActorAlignmentRotation Q A T).RotateVector A) := rfl
    have hk := KINDA_SMALL_NUMBER_eq
    have hpos : 0 ≤ VectorDot (FindActorAlignmentRotation Q A T) A T := by rw [hv]; linarith
    apply findActorAlignmentRotation_of_parallel
    · rw [abs_of_nonneg hpos, hv]; linarith
    · exact not_lt.mpr hpos
  rcases h with h | hz
  · exact reached h
  · rcases findActorAlignmentRotation_outcome Q A T hQ hA hT with h1 | ⟨hup, hy, hF⟩
    · exact reached h1
    · have hR := sizeSquared_mul_pitchDelta Q hQ A T
      have hRA : (FQuat.Mul Q (PitchDelta Q A T)).RotateVector A = PitchedModelAxis Q A T := rfl
      have hPZ := pitchedModelAxis_Z_of_up Q A T hQ hA hT hup
      have hdot := (yawApplied_eq_false_iff Q A T).mp hy
      rw [hF]
      have hv : VectorDot (FQuat.Mul Q (PitchDelta Q A T)) A T
          = FVector.DotProduct T (PitchedModelAxis Q A T) := rfl
      have hthr : (0 : ℝ) < ParallelDotThreshold := by unfold ParallelDotThreshold; norm_num
      by_cases hdeg : 1 - |VectorDot (FQuat.Mul Q (PitchDelta Q A T)) A T| ≤ KINDA_SMALL_NUMBER
      · apply findActorAlignmentRotation_of_parallel _ _ _ hdeg
        rw [hv]; exact not_lt.mpr (le_trans hthr.le hdot)
      · apply findActorAlignmentRotation_of_pitch_eq_zero _ _ _ hdeg _ (by rw [hRA]; exact hdot)
        have hRi : (FQuat.Mul Q (PitchDelta Q A T)).Inverse.SizeSquared = 1 := by
          rw [FQuat.sizeSquared_inverse]; exact hR
        have hrA : FVector.DotProduct
            ((FQuat.Mul Q (PitchDelta Q A T)).Inverse.RotateVector WorldZ) A = T.Z := by
          rw [FQuat.dotProduct_inverse_rotateVector _ hR, hRA, ← hPZ]
          simp [WorldZ, FVector.DotProduct]
        have hRef : PitchReferenceAxis (FQuat.Mul Q (PitchDelta Q A T)) A T
            = (FQuat.Mul Q (PitchDelta Q A T)).Inverse.RotateVector WorldZ := by
          unfold PitchReferenceAxis
          simp only
          rw [if_neg]
          rw [FVector.dotProduct_comm, hrA]
          exact not_lt.mpr hz
        unfold Pitch
        rw [hRef, hrA]
        unfold DestNormalModelSpace
        rw [FQuat.dotProduct_rotateVector _ hRi]
        simp [WorldZ, FVector.DotProduct]

/-- Witness of C4: the identity rotation, the X axis as model axis and the Y axis as world
normal, whose height is zero. -/
theorem C4_idempotence_when_reached_witness :
    FQuat.Size FQuat.Identity = 1 ∧ FVector.Size ⟨1, 0, 0⟩ = 1 ∧ FVector.Size ⟨0, 1, 0⟩ = 1
      ∧ |(⟨0, 1, 0⟩ : FVector).Z| ≤ 0.7
      ∧ FindActorAlignmentRotation
            (FindActorAlignmentRotation FQuat.Identity ⟨1, 0, 0⟩ ⟨0, 1, 0⟩) ⟨1, 0, 0⟩ ⟨0, 1, 0⟩
          = FindActorAlignmentRotation FQuat.Identity ⟨1, 0, 0⟩ ⟨0, 1, 0⟩ :=
  ⟨by simp [FQuat.Size, FQuat.Identity], by simp [FVector.Size], by simp [FVector.Size],
    by norm_num,
    C4_idempotence_when_reached FQuat.Identity ⟨1, 0, 0⟩ ⟨0, 1, 0⟩
      (by simp [FQuat.Size, FQuat.Identity]) (by simp [FVector.Size]) (by simp [FVector.Size])
      (Or.inr (by norm_num))⟩

/-- C5 (concrete example): for the model axis `(-1, 0, 0)`, the identity actor rotation and
the world normal `(0, 0, 1)`, `FindActorAlignmentRotation` takes the general branch with
the pitch reference axis `(0, 0, 1)`, does not run the yaw step (the residual yaw is zero),
returns the pure pitch quaternion `(0, √2/2, 0, √2/2)`, and that quaternion rotates the
model axis onto `(0, 0, 1)`. -/
theorem C5_concrete_example :
    ¬ (1 - |VectorDot FQuat.Identity ⟨-1, 0, 0⟩ ⟨0, 0, 1⟩| ≤ KINDA_SMALL_NUMBER)
      ∧ PitchReferenceAxis FQuat.Identity ⟨-1, 0, 0⟩ ⟨0, 0, 1⟩ = ⟨0, 0, 1⟩
      ∧ YawApplied FQuat.Identity ⟨-1, 0, 0⟩ ⟨0, 0, 1⟩ = false
      ∧ Yaw FQuat.Identity ⟨-1, 0, 0⟩ ⟨0, 0, 1⟩ = 0
      ∧ FindActorAlignmentRotation FQuat.Identity ⟨-1, 0, 0⟩ ⟨0, 0, 1⟩
          = ⟨0, Real.sqrt 2 / 2, 0, Real.sqrt 2 / 2⟩
      ∧ (FindActorAlignmentRotation FQuat.Identity ⟨-1, 0, 0⟩ ⟨0, 0, 1⟩).RotateVector
          ⟨-1, 0, 0⟩ = ⟨0, 0, 1⟩ := by
  have hs : Real.sqrt 2 / 2 * (Real.sqrt 2 / 2) = 1 / 2 := by
    rw [div_mul_div_comm, Real.mul_self_sqrt (by norm_num)]; norm_num
  have hup : ¬ (|(⟨-1, 0, 0⟩ : FVector).Z| > 0.7) := by norm_num
  have hnd : ¬ (1 - |VectorDot FQuat.Identity ⟨-1, 0, 0⟩ ⟨0, 0, 1⟩| ≤ KINDA_SMALL_NUMBER) := by
    rw [vectorDot_identity, KINDA_SMALL_NUMBER_eq]
    norm_num [FVector.DotProduct]
  have hR := pitchReferenceAxis_identity_of_up ⟨-1, 0, 0⟩ ⟨0, 0, 1⟩ hup
  have hPitch : Pitch FQuat.Identity ⟨-1, 0, 0⟩ ⟨0, 0, 1⟩ = -(Real.pi / 2) := by
    rw [pitch_identity_of_up _ _ hup]
    simp [Acos]
  have hOrtho : FVector.GetSafeNormal (OrthoPitchAxis FQuat.Identity ⟨-1, 0, 0⟩ ⟨0, 0, 1⟩)
      = ⟨0, -1, 0⟩ := by
    unfold OrthoPitchAxis
    rw [hR]
    simp [WorldZ, FVector.CrossProduct, FVector.GetSafeNormal]
  have hD : PitchDelta FQuat.Identity ⟨-1, 0, 0⟩ ⟨0, 0, 1⟩
      = ⟨0, Real.sqrt 2 / 2, 0, Real.sqrt 2 / 2⟩ := by
    unfold PitchDelta
    rw [hOrtho, hPitch]
    have e : (0.5 : ℝ) * -(Real.pi / 2) = -(Real.pi / 4) := by ring
    have hAA : FQuat.AxisAngle ⟨0, -1, 0⟩ (-(Real.pi / 2))
        = ⟨0, Real.sqrt 2 / 2, 0, Real.sqrt 2 / 2⟩ := by
      unfold FQuat.AxisAngle
      simp only [e, Real.sin_neg, Real.cos_neg, Real.sin_pi_div_four, Real.cos_pi_div_four]
      ext <;> simp
    rw [hAA]
    apply FQuat.normalize_of_sizeSquared
    simp only [FQuat.SizeSquared]
    linarith
  have hP : PitchedModelAxis FQuat.Identity ⟨-1, 0, 0⟩ ⟨0, 0, 1⟩ = ⟨0, 0, 1⟩ := by
    unfold PitchedModelAxis
    rw [hD, FQuat.identity_mul]
    ext <;> simp [FQuat.RotateVector, FVector.CrossProduct, FVector.DotProduct]
    linarith
  have hy : YawApplied FQuat.Identity ⟨-1, 0, 0⟩ ⟨0, 0, 1⟩ = false := by
    rw [yawApplied_eq_false_iff, hP]
    unfold ParallelDotThreshold
    norm_num [FVector.DotProduct]
  have hF : FindActorAlignmentRotation FQuat.Identity ⟨-1, 0, 0⟩ ⟨0, 0, 1⟩
      = ⟨0, Real.sqrt 2 / 2, 0, Real.sqrt 2 / 2⟩ := by
    rw [findActorAlignmentRotation_of_nondegenerate _ _ _ hnd,
      mul_generalDelta_of_not_yawApplied _ _ _ hy, hD, FQuat.identity_mul]
  refine ⟨hnd, hR, hy, ?_, hF, ?_⟩
  · unfold Yaw
    rw [hP]
    simp [Atan2_zero_zero]
  · rw [hF]
    have := hP
    unfold PitchedModelAxis at this
    rw [hD, FQuat.identity_mul] at this
    exact this

/-- C6 fails as stated: for the identity actor rotation, the model axis `(1, 0, 0)` and the
world normal `(0, 0, 1)`, outside the degenerate case, the half turn of the normal about the
model axis changes the pitch angle from `-π/2` to `π/2`. -/
theorem C6_counterexample :
    FQuat.Size FQuat.Identity = 1 ∧ FVector.Size ⟨1, 0, 0⟩ = 1 ∧ FVector.Size ⟨0, 0, 1⟩ = 1
      ∧ 1 - |FVector.DotProduct ⟨0, 0, 1⟩ (FQuat.Identity.RotateVector ⟨1, 0, 0⟩)|
          > KINDA_SMALL_NUMBER
      ∧ ¬ (OrthoPitchAxis FQuat.Identity ⟨1, 0, 0⟩
              ((FQuat.AxisAngle (FQuat.Identity.RotateVector ⟨1, 0, 0⟩) Real.pi).RotateVector
                ⟨0, 0, 1⟩)
            = OrthoPitchAxis FQuat.Identity ⟨1, 0, 0⟩ ⟨0, 0, 1⟩
          ∧ Pitch FQuat.Identity ⟨1, 0, 0⟩
              ((FQuat.AxisAngle (FQuat.Identity.RotateVector ⟨1, 0, 0⟩) Real.pi).RotateVector
                ⟨0, 0, 1⟩)
            = Pitch FQuat.Identity ⟨1, 0, 0⟩ ⟨0, 0, 1⟩) := by
  have hup : ¬ (|(⟨1, 0, 0⟩ : FVector).Z| > 0.7) := by norm_num
  have hT' : (FQuat.AxisAngle (FQuat.Identity.RotateVector ⟨1, 0, 0⟩) Real.pi).RotateVector
      ⟨0, 0, 1⟩ = ⟨0, 0, -1⟩ := by
    rw [FQuat.rotateVector_identity,
      FQuat.rotateVector_axisAngle _ (by simp [FVector.SizeSquared])]
    ext <;> simp [FVector.CrossProduct, FVector.DotProduct]
  refine ⟨by simp [FQuat.Size, FQuat.Identity], by simp [FVector.Size],
    by simp [FVector.Size], ?_, ?_⟩
  · rw [FQuat.rotateVector_identity, KINDA_SMALL_NUMBER_eq]
    norm_num [FVector.DotProduct]
  · rintro ⟨_, h⟩
    rw [hT', pitch_identity_of_up _ _ hup, pitch_identity_of_up _ _ hup] at h
    simp only [Acos, Real.arccos_neg_one, Real.arccos_one, Real.arccos_zero] at h
    have := Real.pi_pos
    linarith

/-- C6 (roll preservation), as amended: for a unit actor rotation `Q`, a unit model axis `A`
and a unit world normal `T`, let `T'` be `T` turned by an angle `φ` about the world-space
model axis `Q A`.  Then `T'` has the same dot product with the transformed model axis as `T`
(so the same branch is taken); when world up is the pitch reference axis the pitch axis is
the same for `T'` and `T`; when the model-space target is substituted as the reference axis
the pitch angle is the same for `T'` and `T`. -/
theorem C6_roll_variants (Q : FQuat) (A T : FVector) (φ : ℝ) (hQ : Q.Size = 1)
    (hA : A.Size = 1) (hT : T.Size = 1) :
    VectorDot Q A ((FQuat.AxisAngle (Q.RotateVector A) φ).RotateVector T) = VectorDot Q A T
      ∧ (|FVector.DotProduct A (Q.Inverse.RotateVector WorldZ)| ≤ 0.7
          → OrthoPitchAxis Q A ((FQuat.AxisAngle (Q.RotateVector A) φ).RotateVector T)
            = OrthoPitchAxis Q A T)
      ∧ (|FVector.DotProduct A (Q.Inverse.RotateVector WorldZ)| > 0.7
          → Pitch Q A ((FQuat.AxisAngle (Q.RotateVector A) φ).RotateVector T)
            = Pitch Q A T) := by
  rw [FQuat.size_eq_one_iff] at hQ
  rw [FVector.size_eq_one_iff_sizeSquared] at hA hT
  have hK : (Q.RotateVector A).SizeSquared = 1 := by
    rw [FQuat.sizeSquared_rotateVector Q hQ, hA]
  have hdot : VectorDot Q A ((FQuat.AxisAngle (Q.RotateVector A) φ).RotateVector T)
      = VectorDot Q A T := by
    unfold VectorDot
    exact FQuat.dotProduct_rotateVector_axisAngle _ hK φ T
  have hT' : ((FQuat.AxisAngle (Q.RotateVector A) φ).RotateVector T).SizeSquared = 1 := by
    rw [FQuat.sizeSquared_rotateVector _ (FQuat.sizeSquared_axisAngle _ hK _), hT]
  refine ⟨hdot, ?_, ?_⟩
  · intro hup
    unfold OrthoPitchAxis PitchReferenceAxis
    simp only
    rw [if_neg (not_lt.mpr hup), if_neg (not_lt.mpr hup)]
  · intro hsub
    unfold Pitch PitchReferenceAxis
    simp only
    rw [if_pos hsub, if_pos hsub, FVector.dotProduct_self, FVector.dotProduct_self,
      sizeSquared_destNormalModelSpace Q hQ, sizeSquared_destNormalModelSpace Q hQ, hT, hT',
      ← vectorDot_eq Q hQ, ← vectorDot_eq Q hQ, hdot]

/-- Witness of C6: the identity rotation, the X axis as model axis, the Z axis as world
normal and a half turn. -/
theorem C6_roll_variants_witness :
    FQuat.Size FQuat.Identity = 1 ∧ FVector.Size ⟨1, 0, 0⟩ = 1 ∧ FVector.Size ⟨0, 0, 1⟩ = 1
      ∧ (VectorDot FQuat.Identity ⟨1, 0, 0⟩
            ((FQuat.AxisAngle (FQuat.Identity.RotateVector ⟨1, 0, 0⟩) Real.pi).RotateVector
              ⟨0, 0, 1⟩)
          = VectorDot FQuat.Identity ⟨1, 0, 0⟩ ⟨0, 0, 1⟩
        ∧ (|FVector.DotProduct ⟨1, 0, 0⟩ (FQuat.Identity.Inverse.RotateVector WorldZ)| ≤ 0.7
          → OrthoPitchAxis FQuat.Identity ⟨1, 0, 0⟩
              ((FQuat.AxisAngle (FQuat.Identity.RotateVector ⟨1, 0, 0⟩) Real.pi).RotateVector
                ⟨0, 0, 1⟩)
            = OrthoPitchAxis FQuat.Identity ⟨1, 0, 0⟩ ⟨0, 0, 1⟩)
        ∧ (|FVector.DotProduct ⟨1, 0, 0⟩ (FQuat.Identity.Inverse.RotateVector WorldZ)| > 0.7
          → Pitch FQuat.Identity ⟨1, 0, 0⟩
              ((FQuat.AxisAngle (FQuat.Identity.RotateVector ⟨1, 0, 0⟩) Real.pi).RotateVector
                ⟨0, 0, 1⟩)
            = Pitch FQuat.Identity ⟨1, 0, 0⟩ ⟨0, 0, 1⟩)) :=
  ⟨by simp [FQuat.Size, FQuat.Identity], by simp [FVector.Size], by simp [FVector.Size],
    C6_roll_variants FQuat.Identity ⟨1, 0, 0⟩ ⟨0, 0, 1⟩ Real.pi
      (by simp [FQuat.Size, FQuat.Identity]) (by simp [FVector.Size])
      (by simp [FVector.Size])⟩

/-- C7 (unit output): for a unit actor rotation and unit model axis and world normal, the
quaternion returned by `FindActorAlignmentRotation` has norm one, whichever branch is
taken. -/
theorem C7_unit_output (Q : FQuat) (A T : FVector) (hQ : Q.Size = 1) (hA : A.Size = 1)
    (hT : T.Size = 1) : (FindActorAlignmentRotation Q A T).Size = 1 := by
  rw [FQuat.size_eq_one_iff] at hQ ⊢
  rw [FVector.size_eq_one_iff_sizeSquared] at hA hT
  exact sizeSquared_findActorAlignmentRotation Q A T hQ hA hT

/-- Witness of C7: the identity rotation, the X axis and the Z axis (the general branch). -/
theorem C7_unit_output_witness :
    FQuat.Size FQuat.Identity = 1 ∧ FVector.Size ⟨1, 0, 0⟩ = 1 ∧ FVector.Size ⟨0, 0, 1⟩ = 1
      ∧ (FindActorAlignmentRotation FQuat.Identity ⟨1, 0, 0⟩ ⟨0, 0, 1⟩).Size = 1 :=
  ⟨by simp [FQuat.Size, FQuat.Identity], by simp [FVector.Size], by simp [FVector.Size],
    C7_unit_output FQuat.Identity ⟨1, 0, 0⟩ ⟨0, 0, 1⟩ (by simp [FQuat.Size, FQuat.Identity])
      (by simp [FVector.Size]) (by simp [FVector.Size])⟩

/-- C8 fails as stated: for a factory with `bUseSurfaceOrientation` set, the identity actor
rotation and the unit surface normal `(-99/101, 20/101, 0)` the returned rotation is the
identity, which does not map the local X axis onto the inverse of the surface normal. -/
theorem C8_counterexample :
    FQuat.Size FQuat.Identity = 1 ∧ FVector.Size ⟨-99 / 101, 20 / 101, 0⟩ = 1
      ∧ ¬ ((UActorFactory.mk true).AlignObjectToSurfaceNormal ⟨-99 / 101, 20 / 101, 0⟩
              FQuat.Identity
            = FindActorAlignmentRotation FQuat.Identity ⟨-1, 0, 0⟩ ⟨-99 / 101, 20 / 101, 0⟩
          ∧ ((UActorFactory.mk true).AlignObjectToSurfaceNormal ⟨-99 / 101, 20 / 101, 0⟩
              FQuat.Identity).RotateVector ⟨1, 0, 0⟩
            = FVector.Neg ⟨-99 / 101, 20 / 101, 0⟩) := by
  have hnd : ¬ (1 - |FVector.DotProduct ⟨-99 / 101, 20 / 101, 0⟩ ⟨-1, 0, 0⟩|
      ≤ KINDA_SMALL_NUMBER) := by
    rw [KINDA_SMALL_NUMBER_eq]
    norm_num [FVector.DotProduct, abs_of_pos]
  have hF := findActorAlignmentRotation_identity_of_horizontal ⟨-1, 0, 0⟩
    ⟨-99 / 101, 20 / 101, 0⟩ rfl rfl hnd
    (by unfold ParallelDotThreshold; norm_num [FVector.DotProduct])
  refine ⟨by simp [FQuat.Size, FQuat.Identity], ?_, ?_⟩
  · rw [FVector.size_eq_one_iff_sizeSquared]; norm_num [FVector.SizeSquared]
  · rintro ⟨_, h2⟩
    have hE : (UActorFactory.mk true).AlignObjectToSurfaceNormal ⟨-99 / 101, 20 / 101, 0⟩
        FQuat.Identity = FQuat.Identity := by
      unfold UActorFactory.AlignObjectToSurfaceNormal
      rw [if_pos rfl]
      exact hF
    rw [hE, FQuat.rotateVector_identity] at h2
    have h3 := congrArg FVector.Y h2
    norm_num [FVector.Neg] at h3

/-- C8 (default surface alignment), as amended: for a factory with `bUseSurfaceOrientation`
set, a unit actor rotation and a unit surface normal, `AlignObjectToSurfaceNormal` is
`FindActorAlignmentRotation` for the model axis `(-1, 0, 0)`, and the returned rotation maps
the local X axis to within the parallel threshold `0.98` (in cosine) of the inverse of the
surface normal. -/
theorem C8_default_surface_alignment (self : UActorFactory) (N : FVector) (Q : FQuat)
    (hflag : self.bUseSurfaceOrientation = true) (hQ : Q.Size = 1) (hN : N.Size = 1) :
    self.AlignObjectToSurfaceNormal N Q = FindActorAlignmentRotation Q ⟨-1, 0, 0⟩ N
      ∧ ParallelDotThreshold
          ≤ FVector.DotProduct (FVector.Neg N)
              ((self.AlignObjectToSurfaceNormal N Q).RotateVector ⟨1, 0, 0⟩) := by
  rw [FQuat.size_eq_one_iff] at hQ
  rw [FVector.size_eq_one_iff_sizeSquared] at hN
  have hE : self.AlignObjectToSurfaceNormal N Q = FindActorAlignmentRotation Q ⟨-1, 0, 0⟩ N := by
    unfold UActorFactory.AlignObjectToSurfaceNormal
    rw [if_pos hflag]
  refine ⟨hE, ?_⟩
  rw [hE]
  have hA : (⟨-1, 0, 0⟩ : FVector).SizeSquared = 1 := by simp [FVector.SizeSquared]
  have h := dotProduct_findActorAlignmentRotation_ge Q ⟨-1, 0, 0⟩ N hQ hA hN
  have e : (⟨1, 0, 0⟩ : FVector) = FVector.Neg ⟨-1, 0, 0⟩ := by
    ext <;> simp [FVector.Neg]
  rw [e, FQuat.rotateVector_neg]
  have e2 : ∀ U V : FVector, FVector.DotProduct (FVector.Neg U) (FVector.Neg V)
      = FVector.DotProduct U V := by
    intro U V; simp only [FVector.DotProduct, FVector.Neg]; ring
  rw [e2]
  exact h

/-- Witness of C8: a factory with the flag set, the identity rotation and the Z axis as
surface normal. -/
theorem C8_default_surface_alignment_witness :
    (UActorFactory.mk true).bUseSurfaceOrientation = true ∧ FQuat.Size FQuat.Identity = 1
      ∧ FVector.Size ⟨0, 0, 1⟩ = 1
      ∧ ((UActorFactory.mk true).AlignObjectToSurfaceNormal ⟨0, 0, 1⟩ FQuat.Identity
            = FindActorAlignmentRotation FQuat.Identity ⟨-1, 0, 0⟩ ⟨0, 0, 1⟩
        ∧ ParallelDotThreshold
            ≤ FVector.DotProduct (FVector.Neg ⟨0, 0, 1⟩)
                (((UActorFactory.mk true).AlignObjectToSurfaceNormal ⟨0, 0, 1⟩
                  FQuat.Identity).RotateVector ⟨1, 0, 0⟩)) :=
  ⟨rfl, by simp [FQuat.Size, FQuat.Identity], by simp [FVector.Size],
    C8_default_surface_alignment (UActorFactory.mk true) ⟨0, 0, 1⟩ FQuat.Identity rfl
      (by simp [FQuat.Size, FQuat.Identity]) (by simp [FVector.Size])⟩

/-- C9 fails as stated: for the actor rotation `(1/2, 1/2, 1/2, 1/2)` and the unit surface
normal `(99/101, 20/101, 0)` the three mesh factories return the actor rotation itself, which
maps the local Z axis to `(1, 0, 0)` and not onto the surface normal. -/
theorem C9_counterexample :
    FQuat.Size ⟨1 / 2, 1 / 2, 1 / 2, 1 / 2⟩ = 1 ∧ FVector.Size ⟨99 / 101, 20 / 101, 0⟩ = 1
      ∧ (UActorFactoryStaticMesh.AlignObjectToSurfaceNormal (UActorFactory.mk true)
            ⟨99 / 101, 20 / 101, 0⟩ ⟨1 / 2, 1 / 2, 1 / 2, 1 / 2⟩).RotateVector ⟨0, 0, 1⟩
          ≠ ⟨99 / 101, 20 / 101, 0⟩
      ∧ (UActorFactorySkeletalMesh.AlignObjectToSurfaceNormal (UActorFactory.mk true)
            ⟨99 / 101, 20 / 101, 0⟩ ⟨1 / 2, 1 / 2, 1 / 2, 1 / 2⟩).RotateVector ⟨0, 0, 1⟩
          ≠ ⟨99 / 101, 20 / 101, 0⟩
      ∧ (UActorFactoryDestructible.AlignObjectToSurfaceNormal (UActorFactory.mk true)
            ⟨99 / 101, 20 / 101, 0⟩ ⟨1 / 2, 1 / 2, 1 / 2, 1 / 2⟩).RotateVector ⟨0, 0, 1⟩
          ≠ ⟨99 / 101, 20 / 101, 0⟩ := by
  have hQA : (⟨1 / 2, 1 / 2, 1 / 2, 1 / 2⟩ : FQuat).RotateVector ⟨0, 0, 1⟩ = ⟨1, 0, 0⟩ := by
    ext <;> norm_num [FQuat.RotateVector, FVector.CrossProduct, FVector.DotProduct]
  have hr : (⟨1 / 2, 1 / 2, 1 / 2, 1 / 2⟩ : FQuat).Inverse.RotateVector WorldZ = ⟨0, 1, 0⟩ := by
    ext <;> norm_num [FQuat.RotateVector, FQuat.Inverse, WorldZ, FVector.CrossProduct,
      FVector.DotProduct]
  have ht : DestNormalModelSpace ⟨1 / 2, 1 / 2, 1 / 2, 1 / 2⟩ ⟨99 / 101, 20 / 101, 0⟩
      = ⟨20 / 101, 0, 99 / 101⟩ := by
    unfold DestNormalModelSpace
    ext <;> norm_num [FQuat.RotateVector, FQuat.Inverse, FVector.CrossProduct,
      FVector.DotProduct]
  have hv : VectorDot ⟨1 / 2, 1 / 2, 1 / 2, 1 / 2⟩ ⟨0, 0, 1⟩ ⟨99 / 101, 20 / 101, 0⟩
      = 99 / 101 := by
    unfold VectorDot
    rw [hQA]
    norm_num [FVector.DotProduct]
  have hnd : ¬ (1 - |VectorDot ⟨1 / 2, 1 / 2, 1 / 2, 1 / 2⟩ ⟨0, 0, 1⟩ ⟨99 / 101, 20 / 101, 0⟩|
      ≤ KINDA_SMALL_NUMBER) := by
    rw [hv, KINDA_SMALL_NUMBER_eq]
    norm_num [abs_of_pos]
  have hRef : PitchReferenceAxis ⟨1 / 2, 1 / 2, 1 / 2, 1 / 2⟩ ⟨0, 0, 1⟩
      ⟨99 / 101, 20 / 101, 0⟩ = ⟨0, 1, 0⟩ := by
    unfold PitchReferenceAxis
    simp only
    rw [hr, if_neg]
    norm_num [FVector.DotProduct]
  have hP : Pitch ⟨1 / 2, 1 / 2, 1 / 2, 1 / 2⟩ ⟨0, 0, 1⟩ ⟨99 / 101, 20 / 101, 0⟩ = 0 := by
    unfold Pitch
    rw [hRef, ht]
    norm_num [FVector.DotProduct]
  have hF : FindActorAlignmentRotation ⟨1 / 2, 1 / 2, 1 / 2, 1 / 2⟩ ⟨0, 0, 1⟩
      ⟨99 / 101, 20 / 101, 0⟩ = ⟨1 / 2, 1 / 2, 1 / 2, 1 / 2⟩ := by
    apply findActorAlignmentRotation_of_pitch_eq_zero _ _ _ hnd hP
    rw [hQA]
    unfold ParallelDotThreshold
    norm_num [FVector.DotProduct]
  have hne : (FindActorAlignmentRotation ⟨1 / 2, 1 / 2, 1 / 2, 1 / 2⟩ ⟨0, 0, 1⟩
      ⟨99 / 101, 20 / 101, 0⟩).RotateVector ⟨0, 0, 1⟩ ≠ ⟨99 / 101, 20 / 101, 0⟩ := by
    rw [hF, hQA]
    intro h
    have h3 := congrArg FVector.Y h
    norm_num at h3
  refine ⟨?_, ?_, hne, hne, hne⟩
  · rw [FQuat.size_eq_one_iff]; norm_num [FQuat.SizeSquared]
  · rw [FVector.size_eq_one_iff_sizeSquared]; norm_num [FVector.SizeSquared]

/-- C9 (mesh surface alignment), as amended: for the static-mesh, skeletal-mesh and
destructible factories, whatever the value of `bUseSurfaceOrientation`, for a unit actor
rotation and a unit surface normal, `AlignObjectToSurfaceNormal` returns a rotation that maps
the local Z (up) axis to within the parallel threshold `0.98` (in cosine) of the surface
normal. -/
theorem C9_mesh_surface_alignment (self : UActorFactory) (N : FVector) (Q : FQuat)
    (hQ : Q.Size = 1) (hN : N.Size = 1) :
    ParallelDotThreshold
        ≤ FVector.DotProduct N
            ((UActorFactoryStaticMesh.AlignObjectToSurfaceNormal self N Q).RotateVector
              ⟨0, 0, 1⟩)
      ∧ ParallelDotThreshold
        ≤ FVector.DotProduct N
            ((UActorFactorySkeletalMesh.AlignObjectToSurfaceNormal self N Q).RotateVector
              ⟨0, 0, 1⟩)
      ∧ ParallelDotThreshold
        ≤ FVector.DotProduct N
            ((UActorFactoryDestructible.AlignObjectToSurfaceNormal self N Q).RotateVector
              ⟨0, 0, 1⟩) := by
  rw [FQuat.size_eq_one_iff] at hQ
  rw [FVector.size_eq_one_iff_sizeSquared] at hN
  have hA : (⟨0, 0, 1⟩ : FVector).SizeSquared = 1 := by simp [FVector.SizeSquared]
  have h := dotProduct_findActorAlignmentRotation_ge Q ⟨0, 0, 1⟩ N hQ hA hN
  exact ⟨h, h, h⟩

/-- Witness of C9: a factory with the flag cleared, the identity rotation and the X axis as
surface normal. -/
theorem C9_mesh_surface_alignment_witness :
    FQuat.Size FQuat.Identity = 1 ∧ FVector.Size ⟨1, 0, 0⟩ = 1
      ∧ (ParallelDotThreshold
          ≤ FVector.DotProduct ⟨1, 0, 0⟩
              ((UActorFactoryStaticMesh.AlignObjectToSurfaceNormal (UActorFactory.mk false)
                ⟨1, 0, 0⟩ FQuat.Identity).RotateVector ⟨0, 0, 1⟩)
        ∧ ParallelDotThreshold
          ≤ FVector.DotProduct ⟨1, 0, 0⟩
              ((UActorFactorySkeletalMesh.AlignObjectToSurfaceNormal (UActorFactory.mk false)
                ⟨1, 0, 0⟩ FQuat.Identity).RotateVector ⟨0, 0, 1⟩)
        ∧ ParallelDotThreshold
          ≤ FVector.DotProduct ⟨1, 0, 0⟩
              ((UActorFactoryDestructible.AlignObjectToSurfaceNormal (UActorFactory.mk false)
                ⟨1, 0, 0⟩ FQuat.Identity).RotateVector ⟨0, 0, 1⟩)) :=
  ⟨by simp [FQuat.Size, FQuat.Identity], by simp [FVector.Size],
    C9_mesh_surface_alignment (UActorFactory.mk false) ⟨1, 0, 0⟩ FQuat.Identity
      (by simp [FQuat.Size, FQuat.Identity]) (by simp [FVector.Size])⟩

/-- C10 (asset-class gate): for the static-mesh, emitter, physics-asset and destructible
factories, `CanCreateActorFrom` returns true exactly when the asset data is valid and its
class derives from the asset class of the factory; a false result sets the out error message
to the message of the factory, and a true result leaves it as it was. -/
theorem C10_asset_class_gate (AssetData : FAssetData) (OutErrorMsg : FText) :
    (((UActorFactoryStaticMesh.CanCreateActorFrom AssetData OutErrorMsg).1 = true
          ↔ (AssetData.IsValid = true
              ∧ AssetData.GetClass.IsChildOf UStaticMesh.StaticClass = true))
        ∧ ((UActorFactoryStaticMesh.CanCreateActorFrom AssetData OutErrorMsg).1 = false
          → (UActorFactoryStaticMesh.CanCreateActorFrom AssetData OutErrorMsg).2
              = "A valid static mesh must be specified.")
        ∧ ((UActorFactoryStaticMesh.CanCreateActorFrom AssetData OutErrorMsg).1 = true
          → (UActorFactoryStaticMesh.CanCreateActorFrom AssetData OutErrorMsg).2
              = OutErrorMsg))
      ∧ (((UActorFactoryEmitter.CanCreateActorFrom AssetData OutErrorMsg).1 = true
          ↔ (AssetData.IsValid = true
              ∧ AssetData.GetClass.IsChildOf UParticleSystem.StaticClass = true))
        ∧ ((UActorFactoryEmitter.CanCreateActorFrom AssetData OutErrorMsg).1 = false
          → (UActorFactoryEmitter.CanCreateActorFrom AssetData OutErrorMsg).2
              = "A valid particle system must be specified.")
        ∧ ((UActorFactoryEmitter.CanCreateActorFrom AssetData OutErrorMsg).1 = true
          → (UActorFactoryEmitter.CanCreateActorFrom AssetData OutErrorMsg).2
              = OutErrorMsg))
      ∧ (((UActorFactoryPhysicsAsset.CanCreateActorFrom AssetData OutErrorMsg).1 = true
          ↔ (AssetData.IsValid = true
              ∧ AssetData.GetClass.IsChildOf UPhysicsAsset.StaticClass = true))
        ∧ ((UActorFactoryPhysicsAsset.CanCreateActorFrom AssetData OutErrorMsg).1 = false
          → (UActorFactoryPhysicsAsset.CanCreateActorFrom AssetData OutErrorMsg).2
              = "A valid physics asset must be specified.")
        ∧ ((UActorFactoryPhysicsAsset.CanCreateActorFrom AssetData OutErrorMsg).1 = true
          → (UActorFactoryPhysicsAsset.CanCreateActorFrom AssetData OutErrorMsg).2
              = OutErrorMsg))
      ∧ (((UActorFactoryDestructible.CanCreateActorFrom AssetData OutErrorMsg).1 = true
          ↔ (AssetData.IsValid = true
              ∧ AssetData.GetClass.IsChildOf UDestructibleMesh.StaticClass = true))
        ∧ ((UActorFactoryDestructible.CanCreateActorFrom AssetData OutErrorMsg).1 = false
          → (UActorFactoryDestructible.CanCreateActorFrom AssetData OutErrorMsg).2
              = "No destructible mesh was specified.")
        ∧ ((UActorFactoryDestructible.CanCreateActorFrom AssetData OutErrorMsg).1 = true
          → (UActorFactoryDestructible.CanCreateActorFrom AssetData OutErrorMsg).2
              = OutErrorMsg)) := by
  unfold UActorFactoryStaticMesh.CanCreateActorFrom UActorFactoryEmitter.CanCreateActorFrom
    UActorFactoryPhysicsAsset.CanCreateActorFrom UActorFactoryDestructible.CanCreateActorFrom
  cases AssetData.IsValid
    <;> cases AssetData.GetClass.IsChildOf UStaticMesh.StaticClass
    <;> cases AssetData.GetClass.IsChildOf UParticleSystem.StaticClass
    <;> cases AssetData.GetClass.IsChildOf UPhysicsAsset.StaticClass
    <;> cases AssetData.GetClass.IsChildOf UDestructibleMesh.StaticClass
    <;> simp

/-- C11 (optional-asset factories): when the base gate returns the flag `b`, each of the
ambient-sound, matinee and movie-scene gates returns true exactly when `b` is true or the
class of the asset derives from the asset class of the factory (`USoundBase`, `UInterpData`,
`ULevelSequence`); a true result leaves the out error message as it was and a false result
sets it to the message of the factory; and asset data that is not valid is accepted. -/
theorem C11_optional_asset_factories (StaticLoadObject : String → Option UActorClass)
    (self : UActorFactoryActorClass) (AssetData : FAssetData) (OutErrorMsg : FText) (b : Bool)
    (hbase : UActorFactory.CanCreateActorFrom StaticLoadObject self AssetData OutErrorMsg
      = some (b, OutErrorMsg)) :
    (AssetData.IsValid = false → b = true)
      ∧ UActorFactoryAmbientSound.CanCreateActorFrom StaticLoadObject self AssetData OutErrorMsg
        = some (b || AssetData.GetClass.IsChildOf USoundBase.StaticClass,
            if (b || AssetData.GetClass.IsChildOf USoundBase.StaticClass) = true
            then OutErrorMsg else "A valid sound asset must be specified.")
      ∧ UActorFactoryMatineeActor.CanCreateActorFrom StaticLoadObject self AssetData OutErrorMsg
        = some (b || AssetData.GetClass.IsChildOf UInterpData.StaticClass,
            if (b || AssetData.GetClass.IsChildOf UInterpData.StaticClass) = true
            then OutErrorMsg else "A valid InterpData must be specified.")
      ∧ UActorFactoryMovieScene.CanCreateActorFrom StaticLoadObject self AssetData OutErrorMsg
        = some (b || AssetData.GetClass.IsChildOf ULevelSequence.StaticClass,
            if (b || AssetData.GetClass.IsChildOf ULevelSequence.StaticClass) = true
            then OutErrorMsg else "A valid sequencer asset must be specified.") := by
  have hv : AssetData.IsValid = false → b = true := by
    intro h
    rw [UActorFactory.canCreateActorFrom_of_not_isValid _ _ _ _ h] at hbase
    simp only [Option.some.injEq, Prod.mk.injEq, and_true] at hbase
    exact hbase.symm
  refine ⟨hv, ?_, ?_, ?_⟩
  · unfold UActorFactoryAmbientSound.CanCreateActorFrom
    rw [hbase]
    cases b
    · cases hval : AssetData.IsValid
      · exact absurd (hv hval) (by simp)
      · cases hc : AssetData.GetClass.IsChildOf USoundBase.StaticClass <;> simp
    · simp
  · unfold UActorFactoryMatineeActor.CanCreateActorFrom
    rw [hbase]
    cases b
    · cases hval : AssetData.IsValid
      · exact absurd (hv hval) (by simp)
      · cases hc : AssetData.GetClass.IsChildOf UInterpData.StaticClass <;> simp
    · simp
  · unfold UActorFactoryMovieScene.CanCreateActorFrom
    rw [hbase]
    cases b
    · cases hval : AssetData.IsValid
      · exact absurd (hv hval) (by simp)
      · cases hc : AssetData.GetClass.IsChildOf ULevelSequence.StaticClass <;> simp
    · simp

/-- Witness of C11: a factory whose actor class is set, and a valid sound asset that is not
the default actor: the base gate rejects it, the ambient-sound gate accepts it and the other
two reject it with their messages. -/
theorem C11_optional_asset_factories_witness :
    UActorFactory.CanCreateActorFrom (fun _ => none)
        ⟨"", some ⟨"/Script/Engine.AmbientSound", "/Script/Engine.Default__AmbientSound"⟩⟩
        ⟨"/Game/Beep.Beep", "Beep", USoundBase.StaticClass, []⟩ "" = some (false, "")
      ∧ UActorFactoryAmbientSound.CanCreateActorFrom (fun _ => none)
          ⟨"", some ⟨"/Script/Engine.AmbientSound", "/Script/Engine.Default__AmbientSound"⟩⟩
          ⟨"/Game/Beep.Beep", "Beep", USoundBase.StaticClass, []⟩ "" = some (true, "")
      ∧ UActorFactoryMatineeActor.CanCreateActorFrom (fun _ => none)
          ⟨"", some ⟨"/Script/Engine.AmbientSound", "/Script/Engine.Default__AmbientSound"⟩⟩
          ⟨"/Game/Beep.Beep", "Beep", USoundBase.StaticClass, []⟩ ""
        = some (false, "A valid InterpData must be specified.")
      ∧ UActorFactoryMovieScene.CanCreateActorFrom (fun _ => none)
          ⟨"", some ⟨"/Script/Engine.AmbientSound", "/Script/Engine.Default__AmbientSound"⟩⟩
          ⟨"/Game/Beep.Beep", "Beep", USoundBase.StaticClass, []⟩ ""
        = some (false, "A valid sequencer asset must be specified.") :=
  have hbase : UActorFactory.CanCreateActorFrom (fun _ => none)
      ⟨"", some ⟨"/Script/Engine.AmbientSound", "/Script/Engine.Default__AmbientSound"⟩⟩
      ⟨"/Game/Beep.Beep", "Beep", USoundBase.StaticClass, []⟩ "" = some (false, "") := by
    decide
  ⟨hbase,
    (C11_optional_asset_factories (fun _ => none)
      ⟨"", some ⟨"/Script/Engine.AmbientSound", "/Script/Engine.Default__AmbientSound"⟩⟩
      ⟨"/Game/Beep.Beep", "Beep", USoundBase.StaticClass, []⟩ "" false hbase).2⟩

/-- C12 (deferred-decal acceptance): asset data that is not valid, and any asset data the
base gate accepts, is accepted; when the base gate rejects the asset data, the deferred-decal
gate returns, and it returns true exactly when the class of the asset derives from
`UMaterialInterface` and following the `Parent` tag through the asset registry fewer than
1000 times, each lookup yielding valid asset data, reaches a first asset whose class derives
from `UMaterial` and whose `MaterialDomain` tag is `MD_DeferredDecal`. -/
theorem C12_deferred_decal_acceptance (StaticLoadObject : String → Option UActorClass)
    (GetAssetByObjectPath : FName → FAssetData) (self : UActorFactoryActorClass)
    (AssetData : FAssetData) (OutErrorMsg : FText) (b : Bool)
    (hbase : UActorFactory.CanCreateActorFrom StaticLoadObject self AssetData OutErrorMsg
      = some (b, OutErrorMsg)) :
    (AssetData.IsValid = false → b = true)
      ∧ (b = true
          → UActorFactoryDeferredDecal.CanCreateActorFrom StaticLoadObject
              GetAssetByObjectPath self AssetData OutErrorMsg = some (true, OutErrorMsg))
      ∧ (b = false
          → ∃ (r : Bool) (Msg : FText),
              UActorFactoryDeferredDecal.CanCreateActorFrom StaticLoadObject
                GetAssetByObjectPath self AssetData OutErrorMsg = some (r, Msg)
              ∧ (r = true
                  ↔ (AssetData.GetClass.IsChildOf UMaterialInterface.StaticClass = true
                      ∧ ∃ Lookups : Nat, Lookups < 1000
                          ∧ ∃ Material : FAssetData,
                              FirstMaterialAfter GetAssetByObjectPath Lookups AssetData
                                = some Material
                              ∧ Material.TagsAndValues.lookup "MaterialDomain"
                                = some "MD_DeferredDecal"))) := by
  refine ⟨?_, ?_, ?_⟩
  · intro h
    rw [UActorFactory.canCreateActorFrom_of_not_isValid _ _ _ _ h] at hbase
    simp only [Option.some.injEq, Prod.mk.injEq, and_true] at hbase
    exact hbase.symm
  · intro hb
    subst hb
    unfold UActorFactoryDeferredDecal.CanCreateActorFrom
    rw [hbase]
  · intro hb
    subst hb
    unfold UActorFactoryDeferredDecal.CanCreateActorFrom
    rw [hbase]
    simp only
    cases hMI : AssetData.GetClass.IsChildOf UMaterialInterface.StaticClass
    · exact ⟨false, "A valid material must be specified.", by simp, by simp⟩
    · simp only [Bool.not_true, Bool.false_eq_true, if_false, true_and]
      cases hloop : UActorFactoryDeferredDecal.ParentLoop GetAssetByObjectPath 0 AssetData with
      | none =>
        refine ⟨false, _, rfl, ?_⟩
        simp only [Bool.false_eq_true, false_iff, not_exists, not_and]
        intro k hk M hF _
        have := UActorFactoryDeferredDecal.parentLoop_of_firstMaterialAfter
          GetAssetByObjectPath k 0 AssetData M (by omega) hF
        rw [hloop] at this
        exact absurd this (by simp)
      | some Exit =>
        obtain ⟨s, C⟩ := Exit
        simp only
        have huniq : ∀ (k : Nat) (M : FAssetData), k < 1000 →
            FirstMaterialAfter GetAssetByObjectPath k AssetData = some M → s = k ∧ C = M := by
          intro k M hk hF
          have := UActorFactoryDeferredDecal.parentLoop_of_firstMaterialAfter
            GetAssetByObjectPath k 0 AssetData M (by omega) hF
          rw [hloop] at this
          simp only [Option.some.injEq, Prod.mk.injEq, zero_add] at this
          exact this
        by_cases hs : s ≥ 1000
        · rw [if_pos hs]
          refine ⟨false, _, rfl, ?_⟩
          simp only [Bool.false_eq_true, false_iff, not_exists, not_and]
          intro k hk M hF _
          have := (huniq k M hk hF).1
          omega
        · rw [if_neg hs]
          obtain ⟨k, hk1, hk2⟩ :=
            UActorFactoryDeferredDecal.firstMaterialAfter_of_parentLoop GetAssetByObjectPath
              (1000 - 0) 0 AssetData s C rfl hloop (by omega)
          have hm := firstMaterialAfter_isChildOf GetAssetByObjectPath k AssetData C hk2
          simp only [hm, Bool.not_true, Bool.false_eq_true, if_false]
          cases hdom : List.lookup "MaterialDomain" C.TagsAndValues with
          | none =>
            refine ⟨false, _, rfl, ?_⟩
            simp only [Bool.false_eq_true, false_iff, not_exists, not_and]
            intro k' hk' M hF hM
            rw [← (huniq k' M hk' hF).2, hdom] at hM
            exact absurd hM (by simp)
          | some MaterialDomain =>
            simp only
            by_cases hne : (MaterialDomain != "MD_DeferredDecal") = true
            · rw [if_pos hne]
              refine ⟨false, _, rfl, ?_⟩
              simp only [Bool.false_eq_true, false_iff, not_exists, not_and]
              intro k' hk' M hF hM
              rw [← (huniq k' M hk' hF).2, hdom] at hM
              simp only [Option.some.injEq] at hM
              rw [hM] at hne
              simp at hne
            · rw [if_neg hne]
              refine ⟨true, _, rfl, ?_⟩
              simp only [true_iff]
              refine ⟨k, by omega, C, hk2, ?_⟩
              rw [hdom]
              simp only [bne_iff_ne, ne_eq, not_not] at hne
              rw [hne]

/-- Witness of C12: the example material instance, which the base gate rejects and whose
parent, one lookup away, is the example deferred-decal material. -/
theorem C12_deferred_decal_acceptance_witness :
    UActorFactory.CanCreateActorFrom (fun _ => none) ExampleFactory ExampleDecalInstance ""
        = some (false, "")
      ∧ FirstMaterialAfter ExampleRegistry 1 ExampleDecalInstance = some ExampleDecalMaterial
      ∧ ∃ (r : Bool) (Msg : FText),
          UActorFactoryDeferredDecal.CanCreateActorFrom (fun _ => none) ExampleRegistry
            ExampleFactory ExampleDecalInstance "" = some (r, Msg)
          ∧ (r = true
              ↔ (ExampleDecalInstance.GetClass.IsChildOf UMaterialInterface.StaticClass = true
                  ∧ ∃ Lookups : Nat, Lookups < 1000
                      ∧ ∃ Material : FAssetData,
                          FirstMaterialAfter ExampleRegistry Lookups ExampleDecalInstance
                            = some Material
                          ∧ Material.TagsAndValues.lookup "MaterialDomain"
                            = some "MD_DeferredDecal")) :=
  have hbase : UActorFactory.CanCreateActorFrom (fun _ => none) ExampleFactory
      ExampleDecalInstance "" = some (false, "") := by decide
  ⟨hbase, by decide,
    (C12_deferred_decal_acceptance (fun _ => none) ExampleRegistry ExampleFactory
      ExampleDecalInstance "" false hbase).2.2 rfl⟩

/-- C13 (destructible meshes and the skeletal-mesh factory): `UDestructibleMesh` is a subclass
of `USkeletalMesh`, and for valid asset data whose class derives from `UDestructibleMesh` the
skeletal-mesh gate returns false with the message "The animation sequence must not have a
DestructibleMesh associated with it." -/
theorem C13_destructible_not_skeletal (GetAssetByObjectPath : FName → FAssetData)
    (GetSkeleton : FAssetData → Option USkeleton) (AssetData : FAssetData)
    (OutErrorMsg : FText) (hvalid : AssetData.IsValid = true)
    (hclass : AssetData.GetClass.IsChildOf UDestructibleMesh.StaticClass = true) :
    UDestructibleMesh.StaticClass.IsChildOf USkeletalMesh.StaticClass = true
      ∧ UActorFactorySkeletalMesh.CanCreateActorFrom GetAssetByObjectPath GetSkeleton AssetData
          OutErrorMsg
        = (false,
            "The animation sequence must not have a DestructibleMesh associated with it.") := by
  have hS := UClass.isChildOf_skeletalMesh_of_destructibleMesh _ hclass
  refine ⟨UClass.isChildOf_skeletalMesh_of_destructibleMesh _ (UClass.isChildOf_self _), ?_⟩
  unfold UActorFactorySkeletalMesh.CanCreateActorFrom
  simp [hvalid, hS, hclass]

/-- Witness of C13: valid asset data of class `UDestructibleMesh`. -/
theorem C13_destructible_not_skeletal_witness :
    FAssetData.IsValid ⟨"/Game/Wall.Wall", "Wall", UDestructibleMesh.StaticClass, []⟩ = true
      ∧ (FAssetData.GetClass
            ⟨"/Game/Wall.Wall", "Wall", UDestructibleMesh.StaticClass, []⟩).IsChildOf
          UDestructibleMesh.StaticClass = true
      ∧ UActorFactorySkeletalMesh.CanCreateActorFrom (fun _ => FAssetData.Empty)
          (fun _ => none) ⟨"/Game/Wall.Wall", "Wall", UDestructibleMesh.StaticClass, []⟩ ""
        = (false,
            "The animation sequence must not have a DestructibleMesh associated with it.") :=
  ⟨by decide, by decide,
    (C13_destructible_not_skeletal (fun _ => FAssetData.Empty) (fun _ => none)
      ⟨"/Game/Wall.Wall", "Wall", UDestructibleMesh.StaticClass, []⟩ "" (by decide)
      (by decide)).2⟩

/-- C14 (base factory acceptance): `UActorFactory::CanCreateActorFrom` returns true exactly
when the asset data is not valid, or the factory has a default actor and the object path of
the asset data is the path name of that actor or the path name of its class; whatever it
returns, the out error message is as it was; and when the factory has a default actor it
returns. -/
theorem C14_base_factory_acceptance (StaticLoadObject : String → Option UActorClass)
    (self : UActorFactoryActorClass) (AssetData : FAssetData) (OutErrorMsg : FText) :
    (UActorFactory.CanCreateActorFrom StaticLoadObject self AssetData OutErrorMsg
        = some (true, OutErrorMsg)
      ↔ (AssetData.IsValid = false
          ∨ ∃ Actor : AActor,
              (UActorFactory.GetDefaultActor StaticLoadObject self AssetData).1 = some Actor
              ∧ (AssetData.ObjectPath = Actor.PathName
                  ∨ AssetData.ObjectPath = Actor.Class.PathName)))
      ∧ (∀ (b : Bool) (Msg : FText),
          UActorFactory.CanCreateActorFrom StaticLoadObject self AssetData OutErrorMsg
            = some (b, Msg) → Msg = OutErrorMsg)
      ∧ (∀ Actor : AActor,
          (UActorFactory.GetDefaultActor StaticLoadObject self AssetData).1 = some Actor
          → UActorFactory.CanCreateActorFrom StaticLoadObject self AssetData OutErrorMsg
            = some (decide (AssetData.IsValid = false ∨ AssetData.ObjectPath = Actor.PathName
                ∨ AssetData.ObjectPath = Actor.Class.PathName), OutErrorMsg)) := by
  cases hd : (UActorFactory.GetDefaultActor StaticLoadObject self AssetData).1 with
  | none =>
    rw [UActorFactory.canCreateActorFrom_of_no_defaultActor _ _ _ _ hd]
    cases hv : AssetData.IsValid <;> simp
  | some Actor =>
    rw [UActorFactory.canCreateActorFrom_of_defaultActor _ _ _ _ Actor hd]
    cases hv : AssetData.IsValid
    · simp
    · simp
      rfl

/-- C15 (no recursive parents): `OnShouldSetAsset` returns false exactly when the candidate
asset is a `UMaterialInstance` that is a child of the source instance of the edited material
editor instance, and then it opens the dialog "Cannot set (asset name) as a parent as it is
already a child of this material instance."; for every other asset (one that does not load,
one that is not a material instance, an instance that is not a child) it returns true and
opens no dialog. -/
theorem C15_no_recursive_parents {UObject UMaterialInstance UMaterialInterface : Type}
    (GetAsset : FAssetData → Option UObject)
    (CastMaterialInstance : UObject → Option UMaterialInstance)
    (IsChildOf : UMaterialInstance → UMaterialInterface → Bool)
    (SourceInstance : UMaterialInterface) (AssetData : FAssetData) :
    ((FMaterialInstanceParameterDetails.OnShouldSetAsset GetAsset CastMaterialInstance
          IsChildOf SourceInstance AssetData).1 = false
        ↔ ∃ MaterialInstance : UMaterialInstance,
            (GetAsset AssetData).bind CastMaterialInstance = some MaterialInstance
            ∧ IsChildOf MaterialInstance SourceInstance = true)
      ∧ ((FMaterialInstanceParameterDetails.OnShouldSetAsset GetAsset CastMaterialInstance
          IsChildOf SourceInstance AssetData).1 = false
        → (FMaterialInstanceParameterDetails.OnShouldSetAsset GetAsset CastMaterialInstance
            IsChildOf SourceInstance AssetData).2
          = some (FText.Format
              "Cannot set \x7b0\x7d as a parent as it is already a child of this material instance."
              AssetData.AssetName))
      ∧ ((FMaterialInstanceParameterDetails.OnShouldSetAsset GetAsset CastMaterialInstance
          IsChildOf SourceInstance AssetData).1 = true
        → (FMaterialInstanceParameterDetails.OnShouldSetAsset GetAsset CastMaterialInstance
            IsChildOf SourceInstance AssetData).2 = none) := by
  unfold FMaterialInstanceParameterDetails.OnShouldSetAsset
  cases h : (GetAsset AssetData).bind CastMaterialInstance with
  | none => simp
  | some MaterialInstance =>
    cases hc : IsChildOf MaterialInstance SourceInstance <;> simp [hc]

/-- C16 (reference-axis substitution): for a unit actor rotation, a unit model axis and a
unit world normal outside the degenerate case, when world up in model space is within `0.7`
(in absolute dot product, strictly above it) of the model axis, the pitch reference axis is
the model-space target `Q⁻¹ T`, the delta rotation is the single rotation about the
normalised cross product of `Q⁻¹ T` and `A` by the angle `-acos((Q⁻¹ T) · A)`, the yaw step
does not run, and the returned rotation carries the model axis exactly onto the world
normal. -/
theorem C16_reference_axis_substitution (Q : FQuat) (A T : FVector) (hQ : Q.Size = 1)
    (hA : A.Size = 1) (hT : T.Size = 1)
    (hnd : 1 - |FVector.DotProduct T (Q.RotateVector A)| > KINDA_SMALL_NUMBER)
    (hsub : |FVector.DotProduct A (Q.Inverse.RotateVector WorldZ)| > 0.7) :
    PitchReferenceAxis Q A T = Q.Inverse.RotateVector T
      ∧ GeneralDelta Q A T
          = FQuat.AxisAngle
              (FVector.Scale (FVector.CrossProduct (Q.Inverse.RotateVector T) A)
                (1 / (FVector.CrossProduct (Q.Inverse.RotateVector T) A).Size))
              (-Acos (FVector.DotProduct (Q.Inverse.RotateVector T) A))
      ∧ YawApplied Q A T = false
      ∧ FindActorAlignmentRotation Q A T = FQuat.Mul Q (GeneralDelta Q A T)
      ∧ (FindActorAlignmentRotation Q A T).RotateVector A = T := by
  rw [FQuat.size_eq_one_iff] at hQ
  rw [FVector.size_eq_one_iff_sizeSquared] at hA hT
  have hnd' : ¬ (1 - |VectorDot Q A T| ≤ KINDA_SMALL_NUMBER) := not_le.mpr hnd
  have hR : PitchReferenceAxis Q A T = Q.Inverse.RotateVector T := by
    unfold PitchReferenceAxis
    simp only
    rw [if_pos hsub]
    rfl
  have hP := pitchedModelAxis_of_substituted Q A T hQ hA hT hnd' hsub
  have hy : YawApplied Q A T = false := by
    rw [yawApplied_eq_false_iff, hP, FVector.dotProduct_self, hT]
    exact parallelDotThreshold_le_one
  have ht : (Q.Inverse.RotateVector T).SizeSquared = 1 := by
    have := sizeSquared_destNormalModelSpace Q hQ T
    unfold DestNormalModelSpace at this
    rw [this, hT]
  have hcs : (FVector.CrossProduct (Q.Inverse.RotateVector T) A).SizeSquared
      = 1 - FVector.DotProduct (Q.Inverse.RotateVector T) A ^ 2 := by
    rw [FVector.sizeSquared_crossProduct, ht, hA]; ring
  have hb : SMALL_NUMBER ≤ (FVector.CrossProduct (Q.Inverse.RotateVector T) A).SizeSquared := by
    rw [hcs]
    have h := small_le_of_nondegenerate _ hnd'
    rw [vectorDot_eq Q hQ] at h
    exact h
  have hD : GeneralDelta Q A T
      = FQuat.AxisAngle
          (FVector.Scale (FVector.CrossProduct (Q.Inverse.RotateVector T) A)
            (1 / (FVector.CrossProduct (Q.Inverse.RotateVector T) A).Size))
          (-Acos (FVector.DotProduct (Q.Inverse.RotateVector T) A)) := by
    unfold GeneralDelta
    rw [hy]
    simp only [Bool.false_eq_true, if_false]
    unfold PitchDelta OrthoPitchAxis Pitch DestNormalModelSpace
    rw [hR, FVector.dotProduct_self, ht, FVector.getSafeNormal_eq_scale _ hb]
    have e : Acos 1 - Acos (FVector.DotProduct (Q.Inverse.RotateVector T) A)
        = -Acos (FVector.DotProduct (Q.Inverse.RotateVector T) A) := by
      simp [Acos]
    rw [e]
    apply FQuat.normalize_of_sizeSquared
    apply FQuat.sizeSquared_axisAngle
    rw [← FVector.getSafeNormal_eq_scale _ hb]
    exact FVector.sizeSquared_getSafeNormal _ hb
  exact ⟨hR, hD, hy, findActorAlignmentRotation_of_nondegenerate Q A T hnd',
    rotateVector_findActorAlignmentRotation_of_substituted Q A T hQ hA hT hnd' hsub⟩

/-- Witness of C16: the identity rotation, the Z axis as model axis and the X axis as world
normal. -/
theorem C16_reference_axis_substitution_witness :
    FQuat.Size FQuat.Identity = 1 ∧ FVector.Size ⟨0, 0, 1⟩ = 1 ∧ FVector.Size ⟨1, 0, 0⟩ = 1
      ∧ 1 - |FVector.DotProduct ⟨1, 0, 0⟩ (FQuat.Identity.RotateVector ⟨0, 0, 1⟩)|
          > KINDA_SMALL_NUMBER
      ∧ |FVector.DotProduct ⟨0, 0, 1⟩ (FQuat.Identity.Inverse.RotateVector WorldZ)| > 0.7
      ∧ (FindActorAlignmentRotation FQuat.Identity ⟨0, 0, 1⟩ ⟨1, 0, 0⟩).RotateVector ⟨0, 0, 1⟩
          = ⟨1, 0, 0⟩ :=
  have hnd : 1 - |FVector.DotProduct ⟨1, 0, 0⟩ (FQuat.Identity.RotateVector ⟨0, 0, 1⟩)|
      > KINDA_SMALL_NUMBER := by
    rw [FQuat.rotateVector_identity, KINDA_SMALL_NUMBER_eq]
    norm_num [FVector.DotProduct]
  have hsub : |FVector.DotProduct ⟨0, 0, 1⟩ (FQuat.Identity.Inverse.RotateVector WorldZ)|
      > 0.7 := by
    rw [FQuat.inverse_identity, FQuat.rotateVector_identity]
    norm_num [WorldZ, FVector.DotProduct]
  ⟨by simp [FQuat.Size, FQuat.Identity], by simp [FVector.Size], by simp [FVector.Size], hnd,
    hsub,
    (C16_reference_axis_substitution FQuat.Identity ⟨0, 0, 1⟩ ⟨1, 0, 0⟩
      (by simp [FQuat.Size, FQuat.Identity]) (by simp [FVector.Size]) (by simp [FVector.Size])
      hnd hsub).2.2.2.2⟩

/-- C17 (yaw correction): for a unit actor rotation, a unit model axis and a unit world
normal outside the degenerate case, with world up as the pitch reference axis, when the
pitched model axis `A'` has a dot product below `0.98` with the world normal, the returned
rotation is the pitch rotation followed by the rotation about world up (taken into the
pitched frame) by the negated yaw `atan2(T.x, T.y) - atan2(A'.x, A'.y)`, and it carries the
model axis exactly onto the world normal. -/
theorem C17_yaw_correction (Q : FQuat) (A T : FVector) (hQ : Q.Size = 1) (hA : A.Size = 1)
    (hT : T.Size = 1)
    (hnd : 1 - |FVector.DotProduct T (Q.RotateVector A)| > KINDA_SMALL_NUMBER)
    (hup : |FVector.DotProduct A (Q.Inverse.RotateVector WorldZ)| ≤ 0.7)
    (hyaw : FVector.DotProduct T (PitchedModelAxis Q A T) < 0.98) :
    FindActorAlignmentRotation Q A T
        = FQuat.Mul Q (FQuat.Mul (PitchDelta Q A T)
            (FQuat.AxisAngle
              ((FQuat.Mul Q (PitchDelta Q A T)).Inverse.RotateVector ⟨0, 0, 1⟩)
              (-(Atan2 T.X T.Y
                  - Atan2 (PitchedModelAxis Q A T).X (PitchedModelAxis Q A T).Y))))
      ∧ (FindActorAlignmentRotation Q A T).RotateVector A = T := by
  rw [FQuat.size_eq_one_iff] at hQ
  rw [FVector.size_eq_one_iff_sizeSquared] at hA hT
  have hnd' : ¬ (1 - |VectorDot Q A T| ≤ KINDA_SMALL_NUMBER) := not_le.mpr hnd
  have hy : YawApplied Q A T = true := (yawApplied_eq_true_iff Q A T).mpr hyaw
  have hF := findActorAlignmentRotation_of_nondegenerate Q A T hnd'
  constructor
  · rw [hF]
    unfold GeneralDelta
    rw [if_pos hy]
    rfl
  · rw [hF]
    exact rotateVector_generalDelta_of_up_of_yaw Q A T hQ hA hT (not_lt.mpr hup) hy

/-- Witness of C17: the identity rotation, the X axis as model axis and the Y axis as world
normal; the pitch is zero and the pitched model axis is the X axis. -/
theorem C17_yaw_correction_witness :
    FQuat.Size FQuat.Identity = 1 ∧ FVector.Size ⟨1, 0, 0⟩ = 1 ∧ FVector.Size ⟨0, 1, 0⟩ = 1
      ∧ 1 - |FVector.DotProduct ⟨0, 1, 0⟩ (FQuat.Identity.RotateVector ⟨1, 0, 0⟩)|
          > KINDA_SMALL_NUMBER
      ∧ |FVector.DotProduct ⟨1, 0, 0⟩ (FQuat.Identity.Inverse.RotateVector WorldZ)| ≤ 0.7
      ∧ FVector.DotProduct ⟨0, 1, 0⟩ (PitchedModelAxis FQuat.Identity ⟨1, 0, 0⟩ ⟨0, 1, 0⟩)
          < 0.98
      ∧ (FindActorAlignmentRotation FQuat.Identity ⟨1, 0, 0⟩ ⟨0, 1, 0⟩).RotateVector ⟨1, 0, 0⟩
          = ⟨0, 1, 0⟩ :=
  have hnd : 1 - |FVector.DotProduct ⟨0, 1, 0⟩ (FQuat.Identity.RotateVector ⟨1, 0, 0⟩)|
      > KINDA_SMALL_NUMBER := by
    rw [FQuat.rotateVector_identity, KINDA_SMALL_NUMBER_eq]
    norm_num [FVector.DotProduct]
  have hup : |FVector.DotProduct ⟨1, 0, 0⟩ (FQuat.Identity.Inverse.RotateVector WorldZ)|
      ≤ 0.7 := by
    rw [FQuat.inverse_identity, FQuat.rotateVector_identity]
    norm_num [WorldZ, FVector.DotProduct]
  have hyaw : FVector.DotProduct ⟨0, 1, 0⟩
      (PitchedModelAxis FQuat.Identity ⟨1, 0, 0⟩ ⟨0, 1, 0⟩) < 0.98 := by
    rw [pitchedModelAxis_of_pitch_eq_zero _ _ _ (pitch_identity_horizontal _ _ rfl rfl),
      FQuat.rotateVector_identity]
    norm_num [FVector.DotProduct]
  ⟨by simp [FQuat.Size, FQuat.Identity], by simp [FVector.Size], by simp [FVector.Size], hnd,
    hup, hyaw,
    (C17_yaw_correction FQuat.Identity ⟨1, 0, 0⟩ ⟨0, 1, 0⟩
      (by simp [FQuat.Size, FQuat.Identity]) (by simp [FVector.Size]) (by simp [FVector.Size])
      hnd hup hyaw).2⟩

/-- C18 (pitch step matches elevation): for a unit actor rotation, a unit model axis and a
unit world normal, with world up as the pitch reference axis, the model axis transformed by
the actor rotation and the pitch rotation has the same dot product with world up as the
world normal. -/
theorem C18_pitch_matches_elevation (Q : FQuat) (A T : FVector) (hQ : Q.Size = 1)
    (hA : A.Size = 1) (hT : T.Size = 1)
    (hup : |FVector.DotProduct A (Q.Inverse.RotateVector WorldZ)| ≤ 0.7) :
    FVector.DotProduct ((FQuat.Mul Q (PitchDelta Q A T)).RotateVector A) ⟨0, 0, 1⟩
      = FVector.DotProduct T ⟨0, 0, 1⟩ := by
  rw [FQuat.size_eq_one_iff] at hQ
  rw [FVector.size_eq_one_iff_sizeSquared] at hA hT
  have h := pitchedModelAxis_Z_of_up Q A T hQ hA hT (not_lt.mpr hup)
  unfold PitchedModelAxis at h
  simpa [FVector.DotProduct] using h

/-- Witness of C18: the identity rotation, the X axis as model axis and the Z axis as world
normal. -/
theorem C18_pitch_matches_elevation_witness :
    FQuat.Size FQuat.Identity = 1 ∧ FVector.Size ⟨1, 0, 0⟩ = 1 ∧ FVector.Size ⟨0, 0, 1⟩ = 1
      ∧ |FVector.DotProduct ⟨1, 0, 0⟩ (FQuat.Identity.Inverse.RotateVector WorldZ)| ≤ 0.7
      ∧ FVector.DotProduct
            ((FQuat.Mul FQuat.Identity
              (PitchDelta FQuat.Identity ⟨1, 0, 0⟩ ⟨0, 0, 1⟩)).RotateVector ⟨1, 0, 0⟩)
            ⟨0, 0, 1⟩
          = FVector.DotProduct ⟨0, 0, 1⟩ ⟨0, 0, 1⟩ :=
  have hup : |FVector.DotProduct ⟨1, 0, 0⟩ (FQuat.Identity.Inverse.RotateVector WorldZ)|
      ≤ 0.7 := by
    rw [FQuat.inverse_identity, FQuat.rotateVector_identity]
    norm_num [WorldZ, FVector.DotProduct]
  ⟨by simp [FQuat.Size, FQuat.Identity], by simp [FVector.Size], by simp [FVector.Size], hup,
    C18_pitch_matches_elevation FQuat.Identity ⟨1, 0, 0⟩ ⟨0, 0, 1⟩
      (by simp [FQuat.Size, FQuat.Identity]) (by simp [FVector.Size]) (by simp [FVector.Size])
      hup⟩

/-- C19 (yaw is a rotation about world Z): for a unit actor rotation, in the general branch
with the yaw step run, the returned orientation is the world-space rotation about
`(0, 0, 1)` by the negated yaw applied after the pitched actor rotation, and so for every
vector the world Z component after the returned rotation is the one after the pitched actor
rotation. -/
theorem C19_yaw_about_world_Z (Q : FQuat) (A T : FVector) (hQ : Q.Size = 1)
    (hnd : 1 - |FVector.DotProduct T (Q.RotateVector A)| > KINDA_SMALL_NUMBER)
    (hyaw : YawApplied Q A T = true) :
    FindActorAlignmentRotation Q A T
        = FQuat.Mul (FQuat.AxisAngle ⟨0, 0, 1⟩ (-Yaw Q A T)) (FQuat.Mul Q (PitchDelta Q A T))
      ∧ ∀ V : FVector,
          FVector.DotProduct ((FindActorAlignmentRotation Q A T).RotateVector V) ⟨0, 0, 1⟩
            = FVector.DotProduct ((FQuat.Mul Q (PitchDelta Q A T)).RotateVector V)
                ⟨0, 0, 1⟩ := by
  rw [FQuat.size_eq_one_iff] at hQ
  have hnd' : ¬ (1 - |VectorDot Q A T| ≤ KINDA_SMALL_NUMBER) := not_le.mpr hnd
  have hF : FindActorAlignmentRotation Q A T
      = FQuat.Mul (FQuat.AxisAngle ⟨0, 0, 1⟩ (-Yaw Q A T))
          (FQuat.Mul Q (PitchDelta Q A T)) := by
    rw [findActorAlignmentRotation_of_nondegenerate Q A T hnd',
      mul_generalDelta_of_yawApplied Q hQ A T hyaw]
    rfl
  refine ⟨hF, fun V => ?_⟩
  rw [hF, FQuat.rotateVector_mul]
  have h := FQuat.rotateVector_axisAngle_worldZ (-Yaw Q A T)
    ((FQuat.Mul Q (PitchDelta Q A T)).RotateVector V)
  unfold WorldZ at h
  rw [h]
  simp [FVector.DotProduct]

/-- Witness of C19: the identity rotation, the X axis as model axis and the Y axis as world
normal, for which the yaw step runs. -/
theorem C19_yaw_about_world_Z_witness :
    FQuat.Size FQuat.Identity = 1
      ∧ 1 - |FVector.DotProduct ⟨0, 1, 0⟩ (FQuat.Identity.RotateVector ⟨1, 0, 0⟩)|
          > KINDA_SMALL_NUMBER
      ∧ YawApplied FQuat.Identity ⟨1, 0, 0⟩ ⟨0, 1, 0⟩ = true
      ∧ FindActorAlignmentRotation FQuat.Identity ⟨1, 0, 0⟩ ⟨0, 1, 0⟩
          = FQuat.Mul
              (FQuat.AxisAngle ⟨0, 0, 1⟩ (-Yaw FQuat.Identity ⟨1, 0, 0⟩ ⟨0, 1, 0⟩))
              (FQuat.Mul FQuat.Identity (PitchDelta FQuat.Identity ⟨1, 0, 0⟩ ⟨0, 1, 0⟩)) :=
  have hnd : 1 - |FVector.DotProduct ⟨0, 1, 0⟩ (FQuat.Identity.RotateVector ⟨1, 0, 0⟩)|
      > KINDA_SMALL_NUMBER := by
    rw [FQuat.rotateVector_identity, KINDA_SMALL_NUMBER_eq]
    norm_num [FVector.DotProduct]
  have hyaw : YawApplied FQuat.Identity ⟨1, 0, 0⟩ ⟨0, 1, 0⟩ = true := by
    rw [yawApplied_eq_true_iff,
      pitchedModelAxis_of_pitch_eq_zero _ _ _ (pitch_identity_horizontal _ _ rfl rfl),
      FQuat.rotateVector_identity]
    unfold ParallelDotThreshold
    norm_num [FVector.DotProduct]
  ⟨by simp [FQuat.Size, FQuat.Identity], hnd, hyaw,
    (C19_yaw_about_world_Z FQuat.Identity ⟨1, 0, 0⟩ ⟨0, 1, 0⟩
      (by simp [FQuat.Size, FQuat.Identity]) hnd hyaw).1⟩

/-- C20 (worst-case alignment error): for a unit actor rotation, a unit model axis and a unit
world normal, whichever branch is taken, the model axis rotated by the result of
`FindActorAlignmentRotation` has a dot product of at least `0.98` with the world normal. -/
theorem C20_worst_case_alignment (Q : FQuat) (A T : FVector) (hQ : Q.Size = 1)
    (hA : A.Size = 1) (hT : T.Size = 1) :
    FVector.DotProduct ((FindActorAlignmentRotation Q A T).RotateVector A) T ≥ 0.98 := by
  rw [FQuat.size_eq_one_iff] at hQ
  rw [FVector.size_eq_one_iff_sizeSquared] at hA hT
  have h := dotProduct_findActorAlignmentRotation_ge Q A T hQ hA hT
  rw [FVector.dotProduct_comm]
  unfold ParallelDotThreshold at h
  exact h

/-- Witness of C20: the identity rotation, the X axis as model axis and the unit world normal
`(99/101, 20/101, 0)`, for which the yaw step is skipped. -/
theorem C20_worst_case_alignment_witness :
    FQuat.Size FQuat.Identity = 1 ∧ FVector.Size ⟨1, 0, 0⟩ = 1
      ∧ FVector.Size ⟨99 / 101, 20 / 101, 0⟩ = 1
      ∧ FVector.DotProduct
            ((FindActorAlignmentRotation FQuat.Identity ⟨1, 0, 0⟩
              ⟨99 / 101, 20 / 101, 0⟩).RotateVector ⟨1, 0, 0⟩) ⟨99 / 101, 20 / 101, 0⟩
          ≥ 0.98 :=
  have hT : FVector.Size ⟨99 / 101, 20 / 101, 0⟩ = 1 := by
    rw [FVector.size_eq_one_iff_sizeSquared]; norm_num [FVector.SizeSquared]
  ⟨by simp [FQuat.Size, FQuat.Identity], by simp [FVector.Size], hT,
    C20_worst_case_alignment FQuat.Identity ⟨1, 0, 0⟩ ⟨99 / 101, 20 / 101, 0⟩
      (by simp [FQuat.Size, FQuat.Identity]) (by simp [FVector.Size]) hT⟩

/-- C21 (upright mesh placement): for the static-mesh factory with the identity actor
rotation, for a unit surface normal that is `(0, 0, 1)`, or `(0, 0, -1)`, or satisfies
`1 - |N.Z| > KINDA_SMALL_NUMBER`, the rotation returned by `AlignObjectToSurfaceNormal` maps
`(0, 0, 1)` exactly onto the surface normal. -/
theorem C21_upright_mesh_placement (self : UActorFactory) (N : FVector) (hN : N.Size = 1)
    (h : N = ⟨0, 0, 1⟩ ∨ N = ⟨0, 0, -1⟩ ∨ 1 - |N.Z| > KINDA_SMALL_NUMBER) :
    (UActorFactoryStaticMesh.AlignObjectToSurfaceNormal self N FQuat.Identity).RotateVector
      ⟨0, 0, 1⟩ = N := by
  rw [FVector.size_eq_one_iff_sizeSquared] at hN
  have hA : (⟨0, 0, 1⟩ : FVector).SizeSquared = 1 := by simp [FVector.SizeSquared]
  have hv : VectorDot FQuat.Identity ⟨0, 0, 1⟩ N = N.Z := by
    rw [vectorDot_identity]
    simp [FVector.DotProduct]
  unfold UActorFactoryStaticMesh.AlignObjectToSurfaceNormal
  rcases h with h | h | h
  · -- the normal is the up axis: the parallel case
    have hz : N.Z = 1 := by rw [h]
    rw [findActorAlignmentRotation_of_parallel FQuat.Identity ⟨0, 0, 1⟩ N
      (by rw [hv, hz, KINDA_SMALL_NUMBER_eq]; norm_num) (by rw [hv, hz]; norm_num),
      FQuat.rotateVector_identity]
    exact h.symm
  · -- the normal is the down axis: the anti-parallel case
    have hz : N.Z = -1 := by rw [h]
    have hneg : N = FVector.Neg ⟨0, 0, 1⟩ := by
      rw [h]
      ext <;> simp [FVector.Neg]
    rw [findActorAlignmentRotation_of_antiparallel FQuat.Identity ⟨0, 0, 1⟩ N
      (by rw [hv, hz, KINDA_SMALL_NUMBER_eq]; norm_num) (by rw [hv, hz]; norm_num),
      FQuat.rotateVector_mul, FQuat.rotateVector_identity, destNormalModelSpace_identity]
    conv_lhs => rw [hneg]
    rw [FQuat.rotateVector_findBetween_neg _ hA]
    exact hneg.symm
  · -- the general branch, with the target substituted as the reference axis
    apply rotateVector_findActorAlignmentRotation_of_substituted FQuat.Identity ⟨0, 0, 1⟩ N
      FQuat.sizeSquared_identity hA hN
    · rw [hv]
      exact not_le.mpr h
    · rw [FQuat.inverse_identity, FQuat.rotateVector_identity]
      norm_num [WorldZ, FVector.DotProduct]

/-- Witness of C21: the X axis as surface normal, a vertical wall. -/
theorem C21_upright_mesh_placement_witness :
    FVector.Size ⟨1, 0, 0⟩ = 1
      ∧ 1 - |(⟨1, 0, 0⟩ : FVector).Z| > KINDA_SMALL_NUMBER
      ∧ (UActorFactoryStaticMesh.AlignObjectToSurfaceNormal (UActorFactory.mk true) ⟨1, 0, 0⟩
          FQuat.Identity).RotateVector ⟨0, 0, 1⟩ = ⟨1, 0, 0⟩ :=
  have h : 1 - |(⟨1, 0, 0⟩ : FVector).Z| > KINDA_SMALL_NUMBER := by
    rw [KINDA_SMALL_NUMBER_eq]; norm_num
  ⟨by simp [FVector.Size], h,
    C21_upright_mesh_placement (UActorFactory.mk true) ⟨1, 0, 0⟩ (by simp [FVector.Size])
      (Or.inr (Or.inr h))⟩

end ActorFactory
